import Mathlib

/-!
A shallow embedding of the reconcile loop of dynamic-device-scaler.

Go strings are modelled by `String`, `int`/`int64` values by `Int` (the code
only compares and copies them), `time.Duration` and timestamps by `Int`.
Calls to the cluster API and to helpers of package `utils` whose bodies are not
part of the sources are threaded through an abstract world state `σ`.
-/

namespace DDS

/-! ## Data model -/

/-- ModelConstraints of `internal/types/node.go`. -/
structure ModelConstraints where
  Model : String
  DeviceName : String
  MaxDevice : Int
  MinDevice : Int
deriving DecidableEq, Repr

/-- NodeInfo of `internal/types/node.go`. -/
structure NodeInfo where
  Name : String
  Models : List ModelConstraints
deriving DecidableEq, Repr

/-- ResourceSliceDevice of `internal/types/resource_slice.go`. -/
structure ResourceSliceDevice where
  Name : String
  UUID : String
deriving DecidableEq, Repr

/-- ResourceSliceInfo of `internal/types/resource_slice.go`. -/
structure ResourceSliceInfo where
  Name : String
  NodeName : String
  CreationTimestamp : Int
  Driver : String
  Devices : List ResourceSliceDevice
  Pool : String
deriving DecidableEq, Repr

/-- Modelled from the spec: the declaration of `types.ResourceClaimDevice` is not
among the sources; the fields are those of ClaimDevice in the data model
(`name, model, state`). -/
structure ResourceClaimDevice where
  Name : String
  Model : String
  State : String
deriving DecidableEq, Repr

/-- Modelled from the spec: the declaration of `types.ResourceClaimInfo` is not
among the sources; the fields are those of ClaimInfo in the data model and the
ones `GetResourceClaimInfo` assigns. -/
structure ResourceClaimInfo where
  Name : String
  Namespace : String
  NodeName : String
  ResourceSliceName : String
  CreationTimestamp : Int
  Devices : List ResourceClaimDevice
deriving DecidableEq, Repr

/-- Modelled from the spec: the declaration of `types.DeviceInfo` is not among the
sources; the fields are those of DeviceCatalogEntry in the data model, under the
names the code uses. -/
structure DeviceInfo where
  Index : Int
  CDIModelName : String
  K8sDeviceName : String
  DriverName : String
  CannotCoexistWith : List Int
deriving DecidableEq, Repr

/-- Modelled from the spec: the declaration of `types.ComposableDRASpec` is not
among the sources; the fields are those of PolicyConfig in the data model. -/
structure ComposableDRASpec where
  LabelPrefix : String
  DeviceInfos : List DeviceInfo
  FabricIDRange : List Int
deriving DecidableEq, Repr

/-- The part of the external `ComposabilityRequest` object that the code reads:
its name and `Spec.Resource.{Model, TargetNode, Size, Type}`. -/
structure ComposabilityRequest where
  Name : String
  Model : String
  TargetNode : String
  Size : Int
  ResourceType : String
deriving DecidableEq, Repr

/-- The part of the external `ComposableResource` object that the code reads:
`Spec.Model`, `Spec.TargetNode`, `Status.State`, `Status.DeviceID` and the
annotations (`none` is the nil map). -/
structure ComposableResource where
  Name : String
  Model : String
  TargetNode : String
  State : String
  DeviceID : String
  Annotations : Option (List (String × String))
deriving DecidableEq, Repr

/-- An error value returned by the cluster API or by a helper; `IsConflict` is
what `apierrors.IsConflict` answers for it. -/
structure Error where
  msg : String
  IsConflict : Bool
deriving DecidableEq, Repr

/-- The fields of `ResourceMonitorReconciler` that are plain data. -/
structure ResourceMonitorReconciler where
  ScanInterval : Int
  DeviceNoRemoval : Int
  DeviceNoAllocation : Int
deriving DecidableEq, Repr

/-! ## handleDevices -/

/-- The collaborators of `handleDevices` whose bodies are not part of the sources
(`r.List` and the helpers of package `utils`), as transformers of the world. -/
structure Env (σ : Type) where
  ListComposabilityRequests : σ → Except Error (List ComposabilityRequest) × σ
  GetConfiguredDeviceCount :
    σ → String → String → List ResourceClaimInfo → List ResourceSliceInfo → Except Error Int × σ
  GetModelLimit : NodeInfo → String → Int × Int
  GetDriverType : String → String
  DynamicAttach : σ → Option ComposabilityRequest → Int → String → String → String → Option Error × σ
  DynamicDetach : σ → ComposabilityRequest → Int → String → String → Int → Option Error × σ

/-- A mutation call issued by `handleDevices`, with its arguments. -/
inductive Call where
  | DynamicAttach (cr : Option ComposabilityRequest) (count : Int)
      (resourceType model nodeName : String)
  | DynamicDetach (cr : ComposabilityRequest) (count : Int)
      (nodeName labelPrefix : String) (deviceNoRemoval : Int)
deriving DecidableEq, Repr

/-- The size argument of a mutation call. -/
def Call.count : Call → Int
  | .DynamicAttach _ c _ _ _ => c
  | .DynamicDetach _ c _ _ _ => c

/-- The model a mutation call is about: the model argument of DynamicAttach, the
Model of the request handed to DynamicDetach. -/
def Call.model : Call → String
  | .DynamicAttach _ _ _ model _ => model
  | .DynamicDetach cr _ _ _ _ => cr.Model

/-- The request argument of a mutation call (`none` is the nil pointer). -/
def Call.request : Call → Option ComposabilityRequest
  | .DynamicAttach cr _ _ _ _ => cr
  | .DynamicDetach cr _ _ _ _ => some cr

/-- What a run of a piece of `handleDevices` yields: the returned error, the world
afterwards and the mutation calls issued, in order. -/
structure Outcome (σ : Type) where
  err : Option Error
  world : σ
  calls : List Call
deriving DecidableEq

/-- The result of the inner loop over the listed requests: `returned` is the error
of an early `return err`, `requestExit` the flag of the same name. -/
structure ScanOutcome (σ : Type) where
  returned : Option Error
  requestExit : Bool
  world : σ
  calls : List Call

/-- The condition of line 196: the request is the one of this model on this node. -/
def requestMatches (device : DeviceInfo) (nodeInfo : NodeInfo) (cr : ComposabilityRequest) : Bool :=
  cr.Model == device.CDIModelName && cr.TargetNode == nodeInfo.Name

/-- The loop `for _, cr := range composabilityRequestList.Items` (lines 195-212). -/
def scanRequests {σ : Type} (E : Env σ) (r : ResourceMonitorReconciler) (nodeInfo : NodeInfo)
    (spec : ComposableDRASpec) (device : DeviceInfo) (cofiguredDeviceCount : Int) :
    List ComposabilityRequest → σ → ScanOutcome σ
  | [], w => ⟨none, false, w, []⟩
  | cr :: rest, w =>
    if requestMatches device nodeInfo cr then
      let actualCount := cr.Size
      if cofiguredDeviceCount > actualCount then
        match E.DynamicAttach w (some cr) cofiguredDeviceCount cr.ResourceType
            device.CDIModelName nodeInfo.Name with
        | (some err, w1) =>
          ⟨some err, false, w1,
            [Call.DynamicAttach (some cr) cofiguredDeviceCount cr.ResourceType
              device.CDIModelName nodeInfo.Name]⟩
        | (none, w1) =>
          ⟨none, true, w1,
            [Call.DynamicAttach (some cr) cofiguredDeviceCount cr.ResourceType
              device.CDIModelName nodeInfo.Name]⟩
      else if cofiguredDeviceCount < actualCount then
        match E.DynamicDetach w cr cofiguredDeviceCount nodeInfo.Name spec.LabelPrefix
            r.DeviceNoRemoval with
        | (some err, w1) =>
          ⟨some err, false, w1,
            [Call.DynamicDetach cr cofiguredDeviceCount nodeInfo.Name spec.LabelPrefix
              r.DeviceNoRemoval]⟩
        | (none, w1) =>
          ⟨none, true, w1,
            [Call.DynamicDetach cr cofiguredDeviceCount nodeInfo.Name spec.LabelPrefix
              r.DeviceNoRemoval]⟩
      else
        ⟨none, true, w, []⟩
    else
      scanRequests E r nodeInfo spec device cofiguredDeviceCount rest w

/-- The clamp of lines 190-193. -/
def clampCount (cofiguredDeviceCount minCountLimit : Int) : Int :=
  if cofiguredDeviceCount < minCountLimit then minCountLimit else cofiguredDeviceCount

/-- One iteration of `for _, device := range composableDRASpec.DeviceInfos`
(lines 183-220); an `err` is an early `return err`. -/
def handleDevice {σ : Type} (E : Env σ) (r : ResourceMonitorReconciler) (nodeInfo : NodeInfo)
    (resourceClaimInfos : List ResourceClaimInfo) (resourceSliceInfos : List ResourceSliceInfo)
    (spec : ComposableDRASpec) (items : List ComposabilityRequest) (device : DeviceInfo)
    (w : σ) : Outcome σ :=
  match E.GetConfiguredDeviceCount w device.CDIModelName nodeInfo.Name resourceClaimInfos
      resourceSliceInfos with
  | (.error err, w1) => ⟨some err, w1, []⟩
  | (.ok counted, w1) =>
    let minCountLimit := (E.GetModelLimit nodeInfo device.CDIModelName).2
    let cofiguredDeviceCount := clampCount counted minCountLimit
    let s := scanRequests E r nodeInfo spec device cofiguredDeviceCount items w1
    match s.returned with
    | some err => ⟨some err, s.world, s.calls⟩
    | none =>
      if !s.requestExit && decide (cofiguredDeviceCount > 0) then
        let resourceType := E.GetDriverType device.DriverName
        match E.DynamicAttach s.world none cofiguredDeviceCount resourceType
            device.CDIModelName nodeInfo.Name with
        | (err, w2) =>
          ⟨err, w2, s.calls ++
            [Call.DynamicAttach none cofiguredDeviceCount resourceType
              device.CDIModelName nodeInfo.Name]⟩
      else
        ⟨none, s.world, s.calls⟩

/-- The loop over the catalog (lines 182-221): iterations run in catalog order
and the first error ends the function. -/
def handleDevicesLoop {σ : Type} (E : Env σ) (r : ResourceMonitorReconciler) (nodeInfo : NodeInfo)
    (resourceClaimInfos : List ResourceClaimInfo) (resourceSliceInfos : List ResourceSliceInfo)
    (spec : ComposableDRASpec) (items : List ComposabilityRequest) :
    List DeviceInfo → σ → Outcome σ
  | [], w => ⟨none, w, []⟩
  | device :: rest, w =>
    let o := handleDevice E r nodeInfo resourceClaimInfos resourceSliceInfos spec items device w
    match o.err with
    | some err => ⟨some err, o.world, o.calls⟩
    | none =>
      let o2 := handleDevicesLoop E r nodeInfo resourceClaimInfos resourceSliceInfos spec items
        rest o.world
      ⟨o2.err, o2.world, o.calls ++ o2.calls⟩

/-- The function `handleDevices` (lines 174-224). -/
def handleDevices {σ : Type} (E : Env σ) (r : ResourceMonitorReconciler) (nodeInfo : NodeInfo)
    (resourceClaimInfos : List ResourceClaimInfo) (resourceSliceInfos : List ResourceSliceInfo)
    (spec : ComposableDRASpec) (w : σ) : Outcome σ :=
  match E.ListComposabilityRequests w with
  | (.error err, w1) => ⟨some err, w1, []⟩
  | (.ok items, w1) =>
    handleDevicesLoop E r nodeInfo resourceClaimInfos resourceSliceInfos spec items
      spec.DeviceInfos w1

/-! ## The mutation helpers of patch_utils.go -/

/-- The constant `maxRetries` (line 20). -/
def maxRetries : Nat := 2

/-- A device condition (`metav1.Condition`): its Type, Status and
LastTransitionTime. -/
structure Condition where
  ConditionType : String
  Status : String
  LastTransitionTime : Int
deriving DecidableEq, Repr

/-- An entry of `ResourceClaim.Status.Devices`; `Conditions = none` is the nil
slice. -/
structure AllocatedDeviceStatus where
  Driver : String
  Pool : String
  Device : String
  Conditions : Option (List Condition)
deriving DecidableEq, Repr

/-- The part of a `ResourceClaim` that the code reads; `ReservedFor` keeps the
names of the consumers. -/
structure ResourceClaim where
  Name : String
  Namespace : String
  CreationTimestamp : Int
  ReservedFor : List String
  Devices : List AllocatedDeviceStatus
deriving DecidableEq, Repr

/-- The cluster API as the helpers of patch_utils.go use it, as transformers of the
world; `Now` is `time.Now()` and the three `Marshal` fields are `json.Marshal` on
the three patch bodies. -/
structure Client (σ : Type) where
  MarshalLabels : List String → List String → Except Error String
  PatchNode : σ → String → String → Option Error × σ
  MarshalAnnotationBody : String → String → String
  GetComposableResource : σ → String → Except Error ComposableResource × σ
  PatchComposableResource : σ → String → String → Option Error × σ
  MarshalSize : Int → Except Error String
  GetComposabilityRequest : σ → String → Except Error ComposabilityRequest × σ
  PatchComposabilityRequest : σ → ComposabilityRequest → String → Option Error × σ
  Now : σ → Int × σ
  GetResourceClaim : σ → String → String → Except Error ResourceClaim × σ
  PatchResourceClaim : σ → ResourceClaim → ResourceClaim → Option Error × σ
  ListComposabilityRequests : σ → Except Error (List ComposabilityRequest) × σ
  ListComposableResources : σ → Except Error (List ComposableResource) × σ

/-- A read or a patch attempt on the object `name`, with the error the API
answered (`none` for success). -/
inductive ApiCall where
  | Get (name : String) (result : Option Error)
  | Patch (name : String) (result : Option Error)
deriving DecidableEq, Repr

/-- Whether the call is a patch attempt. -/
def ApiCall.isPatch : ApiCall → Bool
  | .Patch _ _ => true
  | .Get _ _ => false

/-- Whether the call is a read. -/
def ApiCall.isGet : ApiCall → Bool
  | .Get _ _ => true
  | .Patch _ _ => false

/-- The error the API answered to the call. -/
def ApiCall.result : ApiCall → Option Error
  | .Get _ e => e
  | .Patch _ e => e

/-- The errors the helpers build with `fmt.Errorf`: a message wrapped around a
cause, or the exhaustion of the retry budget with the last conflict seen. -/
inductive HelperError where
  | wrapped (context : String) (cause : Error)
  | maxRetriesReached (maxRetries : Nat) (lastErr : Option Error)
deriving DecidableEq, Repr

/-- What a helper yields: the returned error, the world afterwards and the reads and
patch attempts made, in order. -/
structure PatchOutcome (σ : Type) where
  err : Option HelperError
  world : σ
  trace : List ApiCall
deriving DecidableEq

/-- The outcome `o` of the rest of a run, after the calls `pre`. -/
def PatchOutcome.after {σ : Type} (pre : List ApiCall) (o : PatchOutcome σ) : PatchOutcome σ :=
  ⟨o.err, o.world, pre ++ o.trace⟩

/-- The loop `for range maxRetries` of `patchNodeLabel` (lines 44-64), with the
iterations left and `lastErr`. -/
def patchNodeLabelLoop {σ : Type} (C : Client σ) (nodeName patchBytes : String) :
    Nat → Option Error → σ → PatchOutcome σ
  | 0, lastErr, w => ⟨some (.maxRetriesReached maxRetries lastErr), w, []⟩
  | n + 1, _, w =>
    match C.PatchNode w nodeName patchBytes with
    | (none, w1) => ⟨none, w1, [.Patch nodeName none]⟩
    | (some err, w1) =>
      if err.IsConflict then
        (patchNodeLabelLoop C nodeName patchBytes n (some err) w1).after
          [.Patch nodeName (some err)]
      else
        ⟨some (.wrapped "patch failed" err), w1, [.Patch nodeName (some err)]⟩

/-- The function `patchNodeLabel` (lines 22-65). -/
def patchNodeLabel {σ : Type} (C : Client σ) (nodeName : String)
    (addLabels deleteLabels : List String) (w : σ) : PatchOutcome σ :=
  match C.MarshalLabels addLabels deleteLabels with
  | .error err => ⟨some (.wrapped "patch marshal error" err), w, []⟩
  | .ok patchBytes => patchNodeLabelLoop C nodeName patchBytes maxRetries none w

/-- The test of lines 96-100: the annotation is already set to the value. -/
def annotationIs (cr : ComposableResource) (key value : String) : Bool :=
  match cr.Annotations with
  | none => false
  | some annotations =>
    match annotations.lookup key with
    | some currentVal => currentVal == value
    | none => false

/-- The loop `for range maxRetries` of PatchComposableResourceAnnotation
(lines 86-121). -/
def PatchComposableResourceAnnotationLoop {σ : Type} (C : Client σ)
    (resourceName key value patchBytes : String) : Nat → Option Error → σ → PatchOutcome σ
  | 0, lastErr, w => ⟨some (.maxRetriesReached maxRetries lastErr), w, []⟩
  | n + 1, _, w =>
    match C.GetComposableResource w resourceName with
    | (.error err, w1) =>
      ⟨some (.wrapped "failed to get latest ComposableResource" err), w1,
        [.Get resourceName (some err)]⟩
    | (.ok currentCR, w1) =>
      if annotationIs currentCR key value then
        ⟨none, w1, [.Get resourceName none]⟩
      else
        match C.PatchComposableResource w1 resourceName patchBytes with
        | (none, w2) => ⟨none, w2, [.Get resourceName none, .Patch resourceName none]⟩
        | (some err, w2) =>
          if err.IsConflict then
            (PatchComposableResourceAnnotationLoop C resourceName key value patchBytes n
              (some err) w2).after [.Get resourceName none, .Patch resourceName (some err)]
          else
            ⟨some (.wrapped "failed to patch ComposableResource" err), w2,
              [.Get resourceName none, .Patch resourceName (some err)]⟩

/-- The function PatchComposableResourceAnnotation (lines 67-124). -/
def PatchComposableResourceAnnotation {σ : Type} (C : Client σ)
    (resourceName key value : String) (w : σ) : PatchOutcome σ :=
  PatchComposableResourceAnnotationLoop C resourceName key value
    (C.MarshalAnnotationBody key value) maxRetries none w

/-- The loop `for range maxRetries` of `PatchComposabilityRequestSize`
(lines 135-167). -/
def PatchComposabilityRequestSizeLoop {σ : Type} (C : Client σ) (requestName : String)
    (count : Int) : Nat → Option Error → σ → PatchOutcome σ
  | 0, lastErr, w => ⟨some (.maxRetriesReached maxRetries lastErr), w, []⟩
  | n + 1, _, w =>
    match C.GetComposabilityRequest w requestName with
    | (.error err, w1) =>
      ⟨some (.wrapped "failed to get ComposabilityRequest" err), w1,
        [.Get requestName (some err)]⟩
    | (.ok existingCR, w1) =>
      match C.MarshalSize count with
      | .error err =>
        ⟨some (.wrapped "patch marshal error" err), w1, [.Get requestName none]⟩
      | .ok patchBytes =>
        match C.PatchComposabilityRequest w1 existingCR patchBytes with
        | (some err, w2) =>
          if err.IsConflict then
            (PatchComposabilityRequestSizeLoop C requestName count n (some err) w2).after
              [.Get requestName none, .Patch requestName (some err)]
          else
            ⟨some (.wrapped "failed to patch ComposabilityRequest" err), w2,
              [.Get requestName none, .Patch requestName (some err)]⟩
        | (none, w2) => ⟨none, w2, [.Get requestName none, .Patch requestName none]⟩

/-- The function `PatchComposabilityRequestSize` (lines 126-169). -/
def PatchComposabilityRequestSize {σ : Type} (C : Client σ) (requestName : String)
    (count : Int) (w : σ) : PatchOutcome σ :=
  PatchComposabilityRequestSizeLoop C requestName count maxRetries none w

/-- The loop over `device.Conditions` (lines 204-212): `none` when no condition has
the type (`conditionExists` stays false), else the list after the replacement. -/
def replaceCondition (conditionType : String) (newCondition : Condition) :
    List Condition → Option (List Condition)
  | [] => none
  | existingCond :: rest =>
    if existingCond.ConditionType = conditionType then
      if existingCond.Status ≠ newCondition.Status then some (newCondition :: rest)
      else some (existingCond :: rest)
    else
      (replaceCondition conditionType newCondition rest).map (fun l => existingCond :: l)

/-- The body of the loop over `modifiedRC.Status.Devices` (lines 195-216) for one
device, with the time read for it. -/
def setDeviceCondition (conditionType : String) (now : Int) (device : AllocatedDeviceStatus) :
    AllocatedDeviceStatus :=
  let newCondition : Condition := ⟨conditionType, "True", now⟩
  match replaceCondition conditionType newCondition (device.Conditions.getD []) with
  | some conditions => { device with Conditions := some conditions }
  | none => { device with Conditions := some (device.Conditions.getD [] ++ [newCondition]) }

/-- The loop over `modifiedRC.Status.Devices` (lines 194-217); the clock is read
once per device. -/
def setDeviceConditions {σ : Type} (C : Client σ) (conditionType : String) :
    List AllocatedDeviceStatus → σ → List AllocatedDeviceStatus × σ
  | [], w => ([], w)
  | device :: rest, w =>
    match C.Now w with
    | (now, w1) =>
      match setDeviceConditions C conditionType rest w1 with
      | (rest2, w2) => (setDeviceCondition conditionType now device :: rest2, w2)

/-- The loop `for range maxRetries` of `PatchResourceClaimDeviceConditions`
(lines 181-228). -/
def PatchResourceClaimDeviceConditionsLoop {σ : Type} (C : Client σ)
    (name ns conditionType : String) : Nat → Option Error → σ → PatchOutcome σ
  | 0, lastErr, w => ⟨some (.maxRetriesReached maxRetries lastErr), w, []⟩
  | n + 1, _, w =>
    match C.GetResourceClaim w name ns with
    | (.error err, w1) =>
      ⟨some (.wrapped "failed to get ResourceClaim" err), w1, [.Get name (some err)]⟩
    | (.ok existingRC, w1) =>
      match setDeviceConditions C conditionType existingRC.Devices w1 with
      | (devices, w2) =>
        let modifiedRC := { existingRC with Devices := devices }
        match C.PatchResourceClaim w2 modifiedRC existingRC with
        | (some err, w3) =>
          if err.IsConflict then
            (PatchResourceClaimDeviceConditionsLoop C name ns conditionType n (some err) w3).after
              [.Get name none, .Patch name (some err)]
          else
            ⟨some (.wrapped "failed to patch ResourceClaim status" err), w3,
              [.Get name none, .Patch name (some err)]⟩
        | (none, w3) => ⟨none, w3, [.Get name none, .Patch name none]⟩

/-- The function `PatchResourceClaimDeviceConditions` (lines 171-230). -/
def PatchResourceClaimDeviceConditions {σ : Type} (C : Client σ)
    (name ns conditionType : String) (w : σ) : PatchOutcome σ :=
  PatchResourceClaimDeviceConditionsLoop C name ns conditionType maxRetries none w

/-! ### The four helpers as one family -/

/-- The four mutation helpers, each with its arguments. -/
inductive MutationHelper where
  | forNodeLabel (nodeName : String) (addLabels deleteLabels : List String)
  | forResource (resourceName key value : String)
  | forRequestSize (requestName : String) (count : Int)
  | forClaimConditions (name ns conditionType : String)
deriving DecidableEq, Repr

/-- Running a mutation helper is running the function it names. -/
def MutationHelper.run {σ : Type} (C : Client σ) : MutationHelper → σ → PatchOutcome σ
  | .forNodeLabel nodeName addLabels deleteLabels, w =>
    patchNodeLabel C nodeName addLabels deleteLabels w
  | .forResource resourceName key value, w =>
    PatchComposableResourceAnnotation C resourceName key value w
  | .forRequestSize requestName count, w =>
    PatchComposabilityRequestSize C requestName count w
  | .forClaimConditions name ns conditionType, w =>
    PatchResourceClaimDeviceConditions C name ns conditionType w

/-- The helpers that read the object before they patch it: all but
`patchNodeLabel`. -/
def MutationHelper.reads : MutationHelper → Bool
  | .forNodeLabel _ _ _ => false
  | _ => true

/-- The name of the object the helper patches. -/
def MutationHelper.target : MutationHelper → String
  | .forNodeLabel nodeName _ _ => nodeName
  | .forResource resourceName _ _ => resourceName
  | .forRequestSize requestName _ => requestName
  | .forClaimConditions name _ _ => name

/-- The shapes of a whole run of `patchNodeLabel`, which patches without reading,
with a budget of two iterations. -/
def IsPatchOnlyRun (name : String) (err : Option HelperError) (t : List ApiCall) : Prop :=
  (∃ ctx e, err = some (.wrapped ctx e) ∧ t = []) ∨
  (err = none ∧ t = [.Patch name none]) ∨
  (∃ ctx e, e.IsConflict = false ∧ err = some (.wrapped ctx e) ∧ t = [.Patch name (some e)]) ∨
  (∃ e1, e1.IsConflict = true ∧ err = none ∧ t = [.Patch name (some e1), .Patch name none]) ∨
  (∃ ctx e1 e2, e1.IsConflict = true ∧ e2.IsConflict = false ∧
    err = some (.wrapped ctx e2) ∧ t = [.Patch name (some e1), .Patch name (some e2)]) ∨
  (∃ e1 e2, e1.IsConflict = true ∧ e2.IsConflict = true ∧
    err = some (.maxRetriesReached 2 (some e2)) ∧
    t = [.Patch name (some e1), .Patch name (some e2)])

/-- The shapes of a last retry iteration of a helper that reads before it patches:
the read fails, the function returns after the read (the annotation is already set,
or the patch body cannot be built), the patch succeeds, or the patch fails without
a conflict. -/
def IsLastAttempt (name : String) (err : Option HelperError) (t : List ApiCall) : Prop :=
  (∃ ctx e, err = some (.wrapped ctx e) ∧ t = [.Get name (some e)]) ∨
  (err = none ∧ t = [.Get name none]) ∨
  (∃ ctx e, err = some (.wrapped ctx e) ∧ t = [.Get name none]) ∨
  (err = none ∧ t = [.Get name none, .Patch name none]) ∨
  (∃ ctx e, e.IsConflict = false ∧ err = some (.wrapped ctx e) ∧
    t = [.Get name none, .Patch name (some e)])

/-- The shapes of a whole run of a helper that reads before it patches, with a
budget of two iterations. -/
def IsReadPatchRun (name : String) (err : Option HelperError) (t : List ApiCall) : Prop :=
  IsLastAttempt name err t ∨
  ∃ e1 t2, e1.IsConflict = true ∧ t = .Get name none :: .Patch name (some e1) :: t2 ∧
    (IsLastAttempt name err t2 ∨
     ∃ e2, e2.IsConflict = true ∧ t2 = [.Get name none, .Patch name (some e2)] ∧
       err = some (.maxRetriesReached 2 (some e2)))

/-! ## UpdateNodeLabel -/

/-- Modelled from the spec: the generic helper `notIn` is not among the sources;
it is taken to answer whether the value is absent from the slice, which is how
`UpdateNodeLabel` uses it to keep `installedDevices` free of duplicates and to
test a catalog index against the excluded ones. -/
def notIn {α : Type} [DecidableEq α] (x : α) (xs : List α) : Bool :=
  !xs.contains x

/-- The loop over the listed requests (lines 243-251). -/
def installedFromRequests (nodeName : String) :
    List ComposabilityRequest → List String → List String
  | [], installedDevices => installedDevices
  | cr :: rest, installedDevices =>
    if cr.TargetNode = nodeName then
      if cr.Size > 0 then
        if notIn cr.Model installedDevices then
          installedFromRequests nodeName rest (installedDevices ++ [cr.Model])
        else installedFromRequests nodeName rest installedDevices
      else installedFromRequests nodeName rest installedDevices
    else installedFromRequests nodeName rest installedDevices

/-- The loop over the listed provisioned devices (lines 258-266). -/
def installedFromResources (nodeName : String) :
    List ComposableResource → List String → List String
  | [], installedDevices => installedDevices
  | rs :: rest, installedDevices =>
    if rs.TargetNode = nodeName then
      if rs.State = "Online" then
        if notIn rs.Model installedDevices then
          installedFromResources nodeName rest (installedDevices ++ [rs.Model])
        else installedFromResources nodeName rest installedDevices
      else installedFromResources nodeName rest installedDevices
    else installedFromResources nodeName rest installedDevices

/-- The value of `installedDevices` after both loops (lines 236-266). -/
def installedDevices (nodeName : String) (requests : List ComposabilityRequest)
    (resources : List ComposableResource) : List String :=
  installedFromResources nodeName resources (installedFromRequests nodeName requests [])

/-- The inner loop of lines 272-276 for one installed model. -/
def notCoexistFor (device : String) : List DeviceInfo → List Int → List Int
  | [], notCoexistID => notCoexistID
  | deviceInfo :: rest, notCoexistID =>
    if device = deviceInfo.CDIModelName then
      notCoexistFor device rest (notCoexistID ++ deviceInfo.CannotCoexistWith)
    else notCoexistFor device rest notCoexistID

/-- The loop of lines 271-277 over the installed models. -/
def notCoexistIDs (spec : ComposableDRASpec) : List String → List Int → List Int
  | [], notCoexistID => notCoexistID
  | device :: rest, notCoexistID =>
    notCoexistIDs spec rest (notCoexistFor device spec.DeviceInfos notCoexistID)

/-- The loop of lines 279-287: the add list and the delete list. -/
def splitLabels (spec : ComposableDRASpec) (notCoexistID : List Int) :
    List DeviceInfo → List String × List String → List String × List String
  | [], lists => lists
  | deviceInfo :: rest, (addLabels, deleteLabels) =>
    if notIn deviceInfo.Index notCoexistID then
      splitLabels spec notCoexistID rest
        (addLabels ++ [spec.LabelPrefix ++ "/" ++ deviceInfo.K8sDeviceName], deleteLabels)
    else
      splitLabels spec notCoexistID rest
        (addLabels, deleteLabels ++ [spec.LabelPrefix ++ "/" ++ deviceInfo.K8sDeviceName])

/-- The add list and the delete list that `UpdateNodeLabel` computes from the two
listings (lines 236-287). -/
def nodeLabelLists (nodeName : String) (spec : ComposableDRASpec)
    (requests : List ComposabilityRequest) (resources : List ComposableResource) :
    List String × List String :=
  splitLabels spec (notCoexistIDs spec (installedDevices nodeName requests resources) [])
    spec.DeviceInfos ([], [])

/-- The function `UpdateNodeLabel` (lines 232-290). -/
def UpdateNodeLabel {σ : Type} (C : Client σ) (nodeName : String) (spec : ComposableDRASpec)
    (w : σ) : PatchOutcome σ :=
  match C.ListComposabilityRequests w with
  | (.error err, w1) => ⟨some (.wrapped "failed to list composabilityRequestList" err), w1, []⟩
  | (.ok requests, w1) =>
    match C.ListComposableResources w1 with
    | (.error err, w2) => ⟨some (.wrapped "failed to list ComposableResourceList" err), w2, []⟩
    | (.ok resources, w2) =>
      patchNodeLabel C nodeName (nodeLabelLists nodeName spec requests resources).1
        (nodeLabelLists nodeName spec requests resources).2 w2

/-! ## processNodeInfo (info_utils.go)

Strings are sequences of characters; `len` and the slice bounds of the Go code count
bytes, and every bound the code uses is the length of a whole prefix or suffix of
the string it cuts, so both views cut at the same place. -/

/-- The function `strings.HasPrefix`. -/
def HasPrefix (s p : String) : Bool :=
  p.data.isPrefixOf s.data

/-- The function `strings.HasSuffix`. -/
def HasSuffix (s x : String) : Bool :=
  x.data.isSuffixOf s.data

/-- The slice expression `s[n:]`. -/
def sliceFrom (s : String) (n : Nat) : String :=
  ⟨s.data.drop n⟩

/-- The slice expression `s[:n]`. -/
def sliceTo (s : String) (n : Nat) : String :=
  ⟨s.data.take n⟩

/-- The two errors of `strconv`: `ErrSyntax` and `ErrRange`. -/
inductive NumError where
  | ErrSyntax
  | ErrRange
deriving DecidableEq, Repr

/-- The digit loop of `strconv.ParseUint` in base 10 on 64 bits: a character that
is no decimal digit is a syntax error, a value above `2^64 - 1` a range error. -/
def parseUint : List Char → Nat → Except NumError Nat
  | [], n => .ok n
  | c :: cs, n =>
    if '0' ≤ c ∧ c ≤ '9' then
      if n * 10 + (c.toNat - '0'.toNat) ≥ 2 ^ 64 then .error .ErrRange
      else parseUint cs (n * 10 + (c.toNat - '0'.toNat))
    else .error .ErrSyntax

/-- The function `strconv.Atoi` of the Go standard library on a 64-bit platform: an
optional sign, then at least one decimal digit and nothing else, with a value
between `-2^63` and `2^63 - 1`. -/
def Atoi (s : String) : Except NumError Int :=
  match s.data with
  | [] => .error .ErrSyntax
  | c :: cs =>
    let neg := c == '-'
    let digits := if c = '-' ∨ c = '+' then cs else c :: cs
    if digits = [] then .error .ErrSyntax
    else
      match parseUint digits 0 with
      | .error err => .error err
      | .ok un =>
        if !neg && decide (un ≥ 2 ^ 63) then .error .ErrRange
        else if neg && decide (un > 2 ^ 63) then .error .ErrRange
        else if neg then .ok (-(un : Int))
        else .ok (un : Int)

/-- The loop of `getModelName` over the catalog (lines 221-227). -/
def getModelNameLoop (deviceName : String) : List DeviceInfo → Except String String
  | [] => .error ("unknown device name: " ++ deviceName)
  | deviceInfo :: rest =>
    if deviceInfo.K8sDeviceName = deviceName then .ok deviceInfo.CDIModelName
    else getModelNameLoop deviceName rest

/-- The function `getModelName` (lines 220-228). -/
def getModelName (spec : ComposableDRASpec) (deviceName : String) : Except String String :=
  getModelNameLoop deviceName spec.DeviceInfos

/-- The part of a `v1.Node` that `processNodeInfo` reads: the name and the labels,
as the list of the pairs of the label map in the order the `range` loop visits
them. -/
structure Node where
  Name : String
  Labels : List (String × String)
deriving DecidableEq, Repr

/-- The errors of `processNodeInfo`: `invalid integer in <val>: <err>`, or the error
of `getModelName` returned as it is. -/
inductive ProcessError where
  | invalidInteger (val : String) (err : NumError)
  | modelName (msg : String)
deriving DecidableEq, Repr

/-- The loop of lines 162-169: the first entry of the device gets the maximum and
the model; `none` when there is no such entry (`exit` stays false). -/
def setMaxDevice (deviceName model : String) (max : Int) :
    List ModelConstraints → Option (List ModelConstraints)
  | [] => none
  | m :: rest =>
    if m.DeviceName = deviceName then some ({ m with MaxDevice := max, Model := model } :: rest)
    else (setMaxDevice deviceName model max rest).map (fun l => m :: l)

/-- The loop of lines 193-200: the first entry of the device gets the minimum and
the model; `none` when there is no such entry (`exit` stays false). -/
def setMinDevice (deviceName model : String) (min : Int) :
    List ModelConstraints → Option (List ModelConstraints)
  | [] => none
  | m :: rest =>
    if m.DeviceName = deviceName then some ({ m with MinDevice := min, Model := model } :: rest)
    else (setMinDevice deviceName model min rest).map (fun l => m :: l)

/-- The body of the loop over the labels of a node (lines 143-211), from the value
of `nodeInfo.Models` before the label to its value after it. -/
def processLabel (spec : ComposableDRASpec) (models : List ModelConstraints)
    (key val : String) : Except ProcessError (List ModelConstraints) :=
  if !HasPrefix key (spec.LabelPrefix ++ "/") then .ok models
  else
    let suffix := sliceFrom key (spec.LabelPrefix ++ "/").length
    if HasSuffix suffix "-size-max" then
      match Atoi val with
      | .error err => .error (.invalidInteger val err)
      | .ok max =>
        let deviceName := sliceTo suffix (suffix.length - 9)
        match getModelName spec deviceName with
        | .error err => .error (.modelName err)
        | .ok model =>
          match setMaxDevice deviceName model max models with
          | some models2 => .ok models2
          | none =>
            .ok (models ++
              [{ DeviceName := deviceName, Model := model, MaxDevice := max, MinDevice := 0 }])
    else if HasSuffix suffix "-size-min" then
      match Atoi val with
      | .error err => .error (.invalidInteger val err)
      | .ok min =>
        let deviceName := sliceTo suffix (suffix.length - 9)
        match getModelName spec deviceName with
        | .error err => .error (.modelName err)
        | .ok model =>
          match setMinDevice deviceName model min models with
          | some models2 => .ok models2
          | none =>
            .ok (models ++
              [{ DeviceName := deviceName, Model := model, MinDevice := min, MaxDevice := 0 }])
    else .ok models

/-- The loop `for key, val := range labels` (lines 142-212). -/
def processLabels (spec : ComposableDRASpec) :
    List (String × String) → List ModelConstraints → Except ProcessError (List ModelConstraints)
  | [], models => .ok models
  | (key, val) :: rest, models =>
    match processLabel spec models key val with
    | .error err => .error err
    | .ok models2 => processLabels spec rest models2

/-- The loop `for _, node := range nodes.Items` (lines 136-215). -/
def processNodes (spec : ComposableDRASpec) :
    List Node → List NodeInfo → Except ProcessError (List NodeInfo)
  | [], nodeInfoList => .ok nodeInfoList
  | node :: rest, nodeInfoList =>
    match processLabels spec node.Labels [] with
    | .error err => .error err
    | .ok models => processNodes spec rest (nodeInfoList ++ [⟨node.Name, models⟩])

/-- The function `processNodeInfo` (lines 133-218). -/
def processNodeInfo (nodes : List Node) (spec : ComposableDRASpec) :
    Except ProcessError (List NodeInfo) :=
  processNodes spec nodes []

/-- The label is a size label (`<prefix>/<d>-size-min` or `<prefix>/<d>-size-max`)
whose value `strconv.Atoi` rejects or whose device name `d` no catalog entry has. -/
def IsBadSizeLabel (spec : ComposableDRASpec) (key val : String) : Prop :=
  ∃ d : String,
    (key = spec.LabelPrefix ++ "/" ++ d ++ "-size-min" ∨
     key = spec.LabelPrefix ++ "/" ++ d ++ "-size-max") ∧
    ((∀ n, Atoi val ≠ .ok n) ∨ ∀ e ∈ spec.DeviceInfos, e.K8sDeviceName ≠ d)

/-- The first entry of the list for a device name: the entry that the loops of lines
162-169 and 193-200 update. -/
def firstEntry (d : String) (ms : List ModelConstraints) : Option ModelConstraints :=
  ms.find? (fun m => decide (m.DeviceName = d))

/-! ### Sample data for processNodeInfo -/

/-- The catalog of the test `TestGetNodeInfo`. -/
def testSpec : ComposableDRASpec :=
  ⟨"composable.fsastech.com", [⟨1, "A100 80G", "nvidia-a100-80g", "", []⟩], []⟩

/-- The node of the normal case of `TestGetNodeInfo`, its labels visited in the
order in which the test lists them. -/
def testNode : Node :=
  ⟨"node1", [("composable.fsastech.com/nvidia-a100-80g", "true"),
    ("composable.fsastech.com/fabric", "123"),
    ("composable.fsastech.com/nvidia-a100-80g-size-min", "2"),
    ("composable.fsastech.com/nvidia-a100-80g-size-max", "6")]⟩

/-- The same node with its labels visited in the opposite order. -/
def testNodeReversed : Node :=
  ⟨"node1", testNode.Labels.reverse⟩

/-- A node whose size label names a device that the catalog does not have. -/
def unknownDeviceNode : Node :=
  ⟨"node2", [("composable.fsastech.com/nvidia-a100-40g-size-min", "2")]⟩

/-! ### Sample data for the helpers of patch_utils.go -/

/-- A world for examples: the answers the API gives to the patch attempts and to the
reads still to come (a missing answer is a success), the clock and the objects
listed. -/
structure SampleWorld where
  patchAnswers : List (Option Error)
  getAnswers : List (Option Error)
  clock : Int
  requests : List ComposabilityRequest
  resources : List ComposableResource
deriving DecidableEq, Repr

/-- The world after the next patch answer has been given. -/
def SampleWorld.popPatch (w : SampleWorld) : SampleWorld :=
  { w with patchAnswers := w.patchAnswers.tail }

/-- The world after the next read answer has been given. -/
def SampleWorld.popGet (w : SampleWorld) : SampleWorld :=
  { w with getAnswers := w.getAnswers.tail }

/-- The answer to the next patch attempt. -/
def SampleWorld.nextPatch (w : SampleWorld) : Option Error × SampleWorld :=
  (w.patchAnswers.headD none, w.popPatch)

/-- The answer to the next read, around the object read on success. -/
def SampleWorld.nextGet {α : Type} (w : SampleWorld) (obj : α) : Except Error α × SampleWorld :=
  match w.getAnswers.headD none with
  | none => (.ok obj, w.popGet)
  | some err => (.error err, w.popGet)

/-- A client that answers from the script of a `SampleWorld`. -/
def sampleClient : Client SampleWorld where
  MarshalLabels := fun _ _ => .ok "labels"
  PatchNode := fun w _ _ => w.nextPatch
  MarshalAnnotationBody := fun _ _ => "annotation"
  GetComposableResource := fun w name => w.nextGet ⟨name, "M", "node1", "Online", "id", none⟩
  PatchComposableResource := fun w _ _ => w.nextPatch
  MarshalSize := fun _ => .ok "size"
  GetComposabilityRequest := fun w name => w.nextGet ⟨name, "M", "node1", 3, "gpu"⟩
  PatchComposabilityRequest := fun w _ _ => w.nextPatch
  Now := fun w => (w.clock, { w with clock := w.clock + 1 })
  GetResourceClaim := fun w name ns => w.nextGet ⟨name, ns, 0, ["pod"], []⟩
  PatchResourceClaim := fun w _ _ => w.nextPatch
  ListComposabilityRequests := fun w => (.ok w.requests, w)
  ListComposableResources := fun w => (.ok w.resources, w)

/-- A conflict answer. -/
def conflict (msg : String) : Error := ⟨msg, true⟩

/-- An answer that is an error but no conflict. -/
def failure (msg : String) : Error := ⟨msg, false⟩

/-- A world in which the next two patch attempts are answered by conflicts. -/
def twoConflictsWorld : SampleWorld :=
  ⟨[some (conflict "c1"), some (conflict "c2")], [], 0, [], []⟩

/-- A world in which the next read fails. -/
def failedReadWorld : SampleWorld :=
  ⟨[], [some (failure "gone")], 0, [], []⟩

/-- A world in which every call succeeds. -/
def quietWorld : SampleWorld :=
  ⟨[], [], 0, [], []⟩

/-- A catalog of two models, the first of which excludes the second. -/
def sampleCatalog : ComposableDRASpec :=
  ⟨"p", [⟨1, "A", "a", "gpu.nvidia.com", [2]⟩, ⟨2, "B", "b", "gpu.nvidia.com", []⟩], []⟩

/-- A world in which a request of size 1 for model `A` targets `node1`. -/
def sampleLabelWorld : SampleWorld :=
  ⟨[], [], 0, [⟨"req", "A", "node1", 1, "gpu"⟩], []⟩

/-! ### Sample data for handleDevices -/

/-- A node advertising `minDevice = 2, maxDevice = 6` for model `M`. -/
def sampleNode : NodeInfo :=
  ⟨"node1", [⟨"M", "m", 6, 2⟩]⟩

/-- A catalog with the single model `M`. -/
def sampleSpec : ComposableDRASpec :=
  ⟨"p", [⟨1, "M", "m", "gpu.nvidia.com", []⟩], []⟩

/-- An existing request of size 3 for model `M` on `node1`. -/
def sampleRequest : ComposabilityRequest :=
  ⟨"req", "M", "node1", 3, "gpu"⟩

/-- A sample reconciler configuration. -/
def sampleReconciler : ResourceMonitorReconciler :=
  ⟨60, 600, 60⟩

/-- A world counting the calls made so far, in which every call succeeds, `counted`
devices are in use and the minimum of every model is 2. -/
def sampleEnv (counted : Int) (items : List ComposabilityRequest) : Env Nat where
  ListComposabilityRequests := fun w => (.ok items, w + 1)
  GetConfiguredDeviceCount := fun w _ _ _ _ => (.ok counted, w + 1)
  GetModelLimit := fun _ _ => (6, 2)
  GetDriverType := fun _ => "gpu"
  DynamicAttach := fun w _ _ _ _ _ => (none, w + 1)
  DynamicDetach := fun w _ _ _ _ _ => (none, w + 1)

/-! ## State collection: info_utils.go and collectInfo -/

/-- A run-time panic of the Go program. -/
inductive Panic where
  | indexOutOfRange
  | nilPointerDereference
deriving DecidableEq, Repr

/-- The part of a `resourceapi.DeviceAttribute` that the code reads: `StringValue`,
a pointer (`none` is nil). -/
structure DeviceAttribute where
  StringValue : Option String
deriving DecidableEq, Repr

/-- The part of a `resourceapi.BasicDevice` that the code reads: the attribute map,
as the list of its pairs in the order the `range` loop visits them. -/
structure BasicDevice where
  Attributes : List (String × DeviceAttribute)
deriving DecidableEq, Repr

/-- The part of a `resourceapi.Device` that the code reads; `Basic` is a pointer
(`none` is nil). -/
structure Device where
  Name : String
  Basic : Option BasicDevice
deriving DecidableEq, Repr

/-- The part of a `resourceapi.ResourceSlice` that the code reads: the name, the
creation time and `Spec.{Driver, NodeName, Pool.Name, Devices}`. -/
structure ResourceSlice where
  Name : String
  CreationTimestamp : Int
  Driver : String
  NodeName : String
  Pool : String
  Devices : List Device
deriving DecidableEq, Repr

/-- The part of a `v1.ConfigMap` that the code reads: the data map. -/
structure ConfigMap where
  Data : List (String × String)
deriving DecidableEq, Repr

/-- The expression `configMap.Data[key]`: the empty string for a missing key. -/
def ConfigMap.get (configMap : ConfigMap) (key : String) : String :=
  (configMap.Data.lookup key).getD ""

/-- The errors that travel up a reconcile cycle: an error of the API or of a helper
passed on as it is, an error built with `fmt.Errorf` around a cause, or an error of
`processNodeInfo`. -/
inductive CycleError where
  | api (e : Error)
  | helper (e : HelperError)
  | node (e : ProcessError)
deriving DecidableEq, Repr

/-- The cluster API as the functions of info_utils.go use it, as transformers of
the world; the two `Unmarshal` fields are `yaml.Unmarshal` on the two documents of
the ConfigMap and give what is left in the destination and the error. -/
structure Reader (σ : Type) where
  ListResourceClaims : σ → Except Error (List ResourceClaim) × σ
  ListResourceSlices : σ → Except Error (List ResourceSlice) × σ
  GetConfigMap : σ → Except Error ConfigMap × σ
  ListNodes : σ → Except Error (List Node) × σ
  UnmarshalDeviceInfos : String → List DeviceInfo × Option Error
  UnmarshalFabricIDRange : String → List Int × Option Error

/-- How a function of info_utils.go ends: it panics, or it returns a value and an
error (`none` is nil). -/
structure ReadOutcome (σ : Type) (α : Type) where
  result : Except Panic (α × Option CycleError)
  world : σ

/-- The labelled loop `ResourceSliceLoop` (lines 50-61): the first slice of the
device's driver and pool that has a device of the device's name. -/
def findSliceOfDevice (device : AllocatedDeviceStatus) : List ResourceSlice → Option ResourceSlice
  | [] => none
  | rs :: rest =>
    if rs.Driver = device.Driver ∧ rs.Pool = device.Pool then
      if rs.Devices.any (fun resourceSliceDevice => resourceSliceDevice.Name == device.Device) then
        some rs
      else findSliceOfDevice device rest
    else findSliceOfDevice device rest

/-- The classification of lines 64-72: the state of a device from its conditions
(`none` is the nil slice); indexing a slice that is not nil but empty panics. -/
def deviceState : Option (List Condition) → Except Panic String
  | none => .ok ""
  | some [] => .error .indexOutOfRange
  | some (first :: _) =>
    if first.ConditionType = "FabricDeviceReschedule" ∧ first.Status = "True" then .ok "Reschedule"
    else if first.ConditionType = "FabricDeviceFailed" ∧ first.Status = "True" then .ok "Failed"
    else .ok "Preparing"

/-- The statement `if resourceClaimInfo.NodeName == "" { ... }` (lines 47-62): a
claim without a node takes the node and the name of the slice found for the device. -/
def locateClaim (slices : List ResourceSlice) (device : AllocatedDeviceStatus)
    (resourceClaimInfo : ResourceClaimInfo) : ResourceClaimInfo :=
  if resourceClaimInfo.NodeName = "" then
    match findSliceOfDevice device slices with
    | some rs =>
      { resourceClaimInfo with NodeName := rs.NodeName, ResourceSliceName := rs.Name }
    | none => resourceClaimInfo
  else resourceClaimInfo

/-- The loop `for _, device := range rc.Status.Devices` (lines 40-75), from the
value of `resourceClaimInfo` before it to its value after it. -/
def claimDevices (slices : List ResourceSlice) :
    List AllocatedDeviceStatus → ResourceClaimInfo → Except Panic ResourceClaimInfo
  | [], resourceClaimInfo => .ok resourceClaimInfo
  | device :: rest, resourceClaimInfo =>
    match deviceState device.Conditions with
    | .error p => .error p
    | .ok state =>
      claimDevices slices rest
        { locateClaim slices device resourceClaimInfo with
          Devices := (locateClaim slices device resourceClaimInfo).Devices ++
            [⟨device.Device, "", state⟩] }

/-- The loop `for _, rc := range resourceClaimList.Items` (lines 31-78). -/
def claimInfos (slices : List ResourceSlice) :
    List ResourceClaim → List ResourceClaimInfo → Except Panic (List ResourceClaimInfo)
  | [], resourceClaimInfoList => .ok resourceClaimInfoList
  | rc :: rest, resourceClaimInfoList =>
    if rc.ReservedFor.length = 0 then claimInfos slices rest resourceClaimInfoList
    else
      match claimDevices slices rc.Devices ⟨rc.Name, rc.Namespace, "", "", rc.CreationTimestamp, []⟩ with
      | .error p => .error p
      | .ok resourceClaimInfo =>
        claimInfos slices rest (resourceClaimInfoList ++ [resourceClaimInfo])

/-- The function `GetResourceClaimInfo` (lines 18-81). -/
def GetResourceClaimInfo {σ : Type} (R : Reader σ) (w : σ) :
    ReadOutcome σ (List ResourceClaimInfo) :=
  match R.ListResourceClaims w with
  | (.error err, w1) =>
    ⟨.ok ([], some (.helper (.wrapped "failed to list ResourceClaims" err))), w1⟩
  | (.ok resourceClaimList, w1) =>
    match R.ListResourceSlices w1 with
    | (.error err, w2) =>
      ⟨.ok ([], some (.helper (.wrapped "failed to list ResourceClaims" err))), w2⟩
    | (.ok resourceSliceList, w2) =>
      match claimInfos resourceSliceList resourceClaimList [] with
      | .error p => ⟨.error p, w2⟩
      | .ok resourceClaimInfoList => ⟨.ok (resourceClaimInfoList, none), w2⟩

/-- The loop over `device.Basic.Attributes` (lines 109-113), from the value of
`deviceInfo.UUID` before it to its value after it; dereferencing a nil
`StringValue` panics. -/
def sliceDeviceUUID : List (String × DeviceAttribute) → String → Except Panic String
  | [], uuid => .ok uuid
  | (attrName, attrValue) :: rest, uuid =>
    if attrName = "uuid" then
      match attrValue.StringValue with
      | none => .error .nilPointerDereference
      | some value => sliceDeviceUUID rest value
    else sliceDeviceUUID rest uuid

/-- The loop `for _, device := range rs.Spec.Devices` (lines 105-116). -/
def sliceDevices : List Device → List ResourceSliceDevice → Except Panic (List ResourceSliceDevice)
  | [], devices => .ok devices
  | device :: rest, devices =>
    match device.Basic with
    | some basic =>
      match sliceDeviceUUID basic.Attributes "" with
      | .error p => .error p
      | .ok uuid => sliceDevices rest (devices ++ [⟨device.Name, uuid⟩])
    | none => sliceDevices rest devices

/-- The loop `for _, rs := range resourceSliceList.Items` (lines 91-119). -/
def sliceInfos : List ResourceSlice → List ResourceSliceInfo → Except Panic (List ResourceSliceInfo)
  | [], resourceSliceInfoList => .ok resourceSliceInfoList
  | rs :: rest, resourceSliceInfoList =>
    match sliceDevices rs.Devices [] with
    | .error p => .error p
    | .ok devices =>
      sliceInfos rest (resourceSliceInfoList ++
        [{ Name := rs.Name, CreationTimestamp := rs.CreationTimestamp, Driver := rs.Driver,
           NodeName := rs.NodeName, Pool := rs.Pool, Devices := devices }])

/-- The function `GetResourceSliceInfo` (lines 83-122). -/
def GetResourceSliceInfo {σ : Type} (R : Reader σ) (w : σ) :
    ReadOutcome σ (List ResourceSliceInfo) :=
  match R.ListResourceSlices w with
  | (.error err, w1) =>
    ⟨.ok ([], some (.helper (.wrapped "failed to list ResourceClaims" err))), w1⟩
  | (.ok resourceSliceList, w1) =>
    match sliceInfos resourceSliceList [] with
    | .error p => ⟨.error p, w1⟩
    | .ok resourceSliceInfoList => ⟨.ok (resourceSliceInfoList, none), w1⟩

/-- The zero value of `types.ComposableDRASpec`. -/
def zeroSpec : ComposableDRASpec :=
  ⟨"", [], []⟩

/-- The function `GetConfigMapInfo` (lines 230-249); on a failure it returns the
variable `composableDRASpec` as far as it has been filled. -/
def GetConfigMapInfo {σ : Type} (R : Reader σ) (w : σ) : ReadOutcome σ ComposableDRASpec :=
  match R.GetConfigMap w with
  | (.error err, w1) =>
    ⟨.ok (zeroSpec, some (.helper (.wrapped "failed to get ConfigMap" err))), w1⟩
  | (.ok configMap, w1) =>
    match R.UnmarshalDeviceInfos (configMap.get "device-info") with
    | (deviceInfos, some err) =>
      ⟨.ok ({ zeroSpec with DeviceInfos := deviceInfos },
        some (.helper (.wrapped "failed to parse device-info" err))), w1⟩
    | (deviceInfos, none) =>
      match R.UnmarshalFabricIDRange (configMap.get "fabric-id-range") with
      | (fabricIDRange, some err) =>
        ⟨.ok (⟨configMap.get "label-prefix", deviceInfos, fabricIDRange⟩,
          some (.helper (.wrapped "failed to parse fabric-id-range" err))), w1⟩
      | (fabricIDRange, none) =>
        ⟨.ok (⟨configMap.get "label-prefix", deviceInfos, fabricIDRange⟩, none), w1⟩

/-- The function `GetNodeInfo` (lines 124-131). -/
def GetNodeInfo {σ : Type} (R : Reader σ) (spec : ComposableDRASpec) (w : σ) :
    ReadOutcome σ (List NodeInfo) :=
  match R.ListNodes w with
  | (.error err, w1) => ⟨.ok ([], some (.helper (.wrapped "failed to list Nodes" err))), w1⟩
  | (.ok nodes, w1) =>
    match processNodeInfo nodes spec with
    | .error err => ⟨.ok ([], some (.node err)), w1⟩
    | .ok nodeInfos => ⟨.ok (nodeInfos, none), w1⟩

/-- The four collection steps of `collectInfo`. -/
inductive CollectStep where
  | GetResourceClaimInfo
  | GetResourceSliceInfo
  | GetConfigMapInfo
  | GetNodeInfo
deriving DecidableEq, Repr

/-- The four values that `collectInfo` returns beside the error. -/
structure Collected where
  resourceClaimInfos : List ResourceClaimInfo
  resourceSliceInfos : List ResourceSliceInfo
  nodeInfos : List NodeInfo
  composableDRASpec : ComposableDRASpec
deriving DecidableEq, Repr

/-- What a run of `collectInfo` yields: a panic or the returned values and error, the
world afterwards and the collection steps that were run, in order. -/
structure CollectOutcome (σ : Type) where
  result : Except Panic (Collected × Option CycleError)
  world : σ
  steps : List CollectStep

/-- The function `collectInfo` of the controller (lines 87-111). -/
def collectInfo {σ : Type} (R : Reader σ) (w : σ) : CollectOutcome σ :=
  match GetResourceClaimInfo R w with
  | ⟨.error p, w1⟩ => ⟨.error p, w1, [.GetResourceClaimInfo]⟩
  | ⟨.ok (_, some err), w1⟩ =>
    ⟨.ok (⟨[], [], [], zeroSpec⟩, some err), w1, [.GetResourceClaimInfo]⟩
  | ⟨.ok (resourceClaimInfos, none), w1⟩ =>
    match GetResourceSliceInfo R w1 with
    | ⟨.error p, w2⟩ => ⟨.error p, w2, [.GetResourceClaimInfo, .GetResourceSliceInfo]⟩
    | ⟨.ok (_, some err), w2⟩ =>
      ⟨.ok (⟨[], [], [], zeroSpec⟩, some err), w2,
        [.GetResourceClaimInfo, .GetResourceSliceInfo]⟩
    | ⟨.ok (resourceSliceInfos, none), w2⟩ =>
      match GetConfigMapInfo R w2 with
      | ⟨.error p, w3⟩ =>
        ⟨.error p, w3, [.GetResourceClaimInfo, .GetResourceSliceInfo, .GetConfigMapInfo]⟩
      | ⟨.ok (composableDRASpec, some err), w3⟩ =>
        ⟨.ok (⟨[], [], [], composableDRASpec⟩, some err), w3,
          [.GetResourceClaimInfo, .GetResourceSliceInfo, .GetConfigMapInfo]⟩
      | ⟨.ok (composableDRASpec, none), w3⟩ =>
        match GetNodeInfo R composableDRASpec w3 with
        | ⟨.error p, w4⟩ =>
          ⟨.error p, w4,
            [.GetResourceClaimInfo, .GetResourceSliceInfo, .GetConfigMapInfo, .GetNodeInfo]⟩
        | ⟨.ok (_, some err), w4⟩ =>
          ⟨.ok (⟨[], [], [], composableDRASpec⟩, some err), w4,
            [.GetResourceClaimInfo, .GetResourceSliceInfo, .GetConfigMapInfo, .GetNodeInfo]⟩
        | ⟨.ok (nodeInfos, none), w4⟩ =>
          ⟨.ok (⟨resourceClaimInfos, resourceSliceInfos, nodeInfos, composableDRASpec⟩, none),
            w4, [.GetResourceClaimInfo, .GetResourceSliceInfo, .GetConfigMapInfo, .GetNodeInfo]⟩

/-- The four collection steps in the order of the source. -/
def collectSteps : List CollectStep :=
  [.GetResourceClaimInfo, .GetResourceSliceInfo, .GetConfigMapInfo, .GetNodeInfo]

/-- What the entry of a reserved claim in the output of `GetResourceClaimInfo` is
expected to be: the name and the namespace of the claim and, for each status device
in order, a device of the same name whose state is the state of its conditions. -/
def IsEntryOf (rc : ResourceClaim) (info : ResourceClaimInfo) : Prop :=
  info.Name = rc.Name ∧ info.Namespace = rc.Namespace ∧
  List.Forall₂ (fun (device : AllocatedDeviceStatus) (entry : ResourceClaimDevice) =>
    entry.Name = device.Device ∧ deviceState device.Conditions = .ok entry.State)
    rc.Devices info.Devices

/-! ### Sample data for the state collection -/

/-- A reader over a world that counts the reads: it lists the given claims, slices
and nodes (or fails to list the nodes), and reads a ConfigMap whose documents
unmarshal to the given catalog and to an empty range. -/
def sampleReader (claims : List ResourceClaim) (slices : List ResourceSlice)
    (catalog : List DeviceInfo) (nodes : Except Error (List Node)) : Reader Nat where
  ListResourceClaims := fun w => (.ok claims, w + 1)
  ListResourceSlices := fun w => (.ok slices, w + 1)
  GetConfigMap := fun w => (.ok ⟨[("label-prefix", "p")]⟩, w + 1)
  ListNodes := fun w => (nodes, w + 1)
  UnmarshalDeviceInfos := fun _ => (catalog, none)
  UnmarshalFabricIDRange := fun _ => ([], none)

/-- A reserved claim whose device has a condition list that is not nil but empty. -/
def emptyConditionsClaim : ResourceClaim :=
  ⟨"claim", "default", 0, ["pod"], [⟨"gpu.nvidia.com", "pool", "gpu-1", some []⟩]⟩

/-- The claim of `TestGetResourceClaimInfo`: three devices whose first conditions
are a true reschedule condition, a true failed condition and another condition. -/
def testClaim : ResourceClaim :=
  ⟨"test-claim-1", "default", 0, ["test-pod-1"],
    [⟨"gpu.nvidia.com", "test-pool", "gpu-1", some [⟨"FabricDeviceReschedule", "True", 0⟩]⟩,
     ⟨"gpu.nvidia.com", "test-pool", "gpu-2", some [⟨"FabricDeviceFailed", "True", 0⟩]⟩,
     ⟨"gpu.nvidia.com", "test-pool", "gpu-3", some [⟨"test-condition", "True", 0⟩]⟩]⟩

/-- The slice of `TestGetResourceClaimInfo`. -/
def testSlice : ResourceSlice :=
  ⟨"test-resourceslice-1", 0, "gpu.nvidia.com", "node1", "test-pool",
    [⟨"gpu-1", some ⟨[("uuid", ⟨some "1234"⟩), ("productName", ⟨some "NVIDIA A100 80GB"⟩)]⟩⟩,
     ⟨"gpu-2", some ⟨[("uuid", ⟨some "5678"⟩), ("productName", ⟨some "NVIDIA A100 80GB"⟩)]⟩⟩]⟩

/-- A slice with one device whose attribute `uuid` carries an integer, so that its
`StringValue` is nil. -/
def nilUuidSlice : ResourceSlice :=
  ⟨"slice-1", 0, "gpu.nvidia.com", "node1", "pool", [⟨"gpu-1", some ⟨[("uuid", ⟨none⟩)]⟩⟩]⟩

/-- What the entry of a slice in the output of `GetResourceSliceInfo` is expected to
be: the name, driver, node and pool of the slice and, for each device with a Basic
section in order, a device of the same name. -/
def IsSliceEntryOf (rs : ResourceSlice) (info : ResourceSliceInfo) : Prop :=
  info.Name = rs.Name ∧ info.CreationTimestamp = rs.CreationTimestamp ∧
  info.Driver = rs.Driver ∧ info.NodeName = rs.NodeName ∧ info.Pool = rs.Pool ∧
  List.Forall₂ (fun (device : Device) (entry : ResourceSliceDevice) =>
    entry.Name = device.Name)
    (rs.Devices.filter (fun device => device.Basic.isSome)) info.Devices

/-! ## handleNodes -/

/-- The two reschedule passes of package `utils`, whose bodies are not part of the
sources, as transformers of the world; each returns the claims still to be considered
and an error. -/
structure Passes (σ : Type) where
  RescheduleFailedNotification :
    σ → NodeInfo → List ResourceClaimInfo → List ResourceSliceInfo → ComposableDRASpec →
      (List ResourceClaimInfo × Option CycleError) × σ
  RescheduleNotification :
    σ → List ResourceClaimInfo → List ResourceSliceInfo → String → Int →
      (List ResourceClaimInfo × Option CycleError) × σ

/-- The four steps that `handleNodes` runs for a node. -/
inductive StepKind where
  | RescheduleFailedNotification
  | RescheduleNotification
  | handleDevices
  | UpdateNodeLabel
deriving DecidableEq, Repr

/-- A step run by `handleNodes`: the node of the iteration, the step, the claims
handed to it (`UpdateNodeLabel` takes none) and the error it returned. -/
structure StepRecord where
  nodeName : String
  kind : StepKind
  claims : List ResourceClaimInfo
  err : Option CycleError
deriving DecidableEq, Repr

/-- What a run of `handleNodes` yields: the returned error, the world afterwards and
the steps run, in order. -/
structure NodesOutcome (σ : Type) where
  err : Option CycleError
  world : σ
  steps : List StepRecord

/-- One iteration of `for _, nodeInfo := range nodeInfos` (lines 142-169); an `err`
is an early `return err`. -/
def handleNode {σ : Type} (P : Passes σ) (E : Env σ) (C : Client σ)
    (r : ResourceMonitorReconciler) (resourceClaimInfos : List ResourceClaimInfo)
    (resourceSliceInfos : List ResourceSliceInfo) (spec : ComposableDRASpec)
    (nodeInfo : NodeInfo) (w : σ) : NodesOutcome σ :=
  let nodeResourceClaimInfos :=
    resourceClaimInfos.filter (fun resourceClaimInfo => resourceClaimInfo.NodeName == nodeInfo.Name)
  match P.RescheduleFailedNotification w nodeInfo nodeResourceClaimInfos resourceSliceInfos
      spec with
  | ((_, some err), w1) =>
    ⟨some err, w1,
      [⟨nodeInfo.Name, .RescheduleFailedNotification, nodeResourceClaimInfos, some err⟩]⟩
  | ((afterFailed, none), w1) =>
    match P.RescheduleNotification w1 afterFailed resourceSliceInfos spec.LabelPrefix
        r.DeviceNoAllocation with
    | ((_, some err), w2) =>
      ⟨some err, w2,
        [⟨nodeInfo.Name, .RescheduleFailedNotification, nodeResourceClaimInfos, none⟩,
         ⟨nodeInfo.Name, .RescheduleNotification, afterFailed, some err⟩]⟩
    | ((afterTimeout, none), w2) =>
      let o := handleDevices E r nodeInfo afterTimeout resourceSliceInfos spec w2
      match o.err with
      | some err =>
        ⟨some (.api err), o.world,
          [⟨nodeInfo.Name, .RescheduleFailedNotification, nodeResourceClaimInfos, none⟩,
           ⟨nodeInfo.Name, .RescheduleNotification, afterFailed, none⟩,
           ⟨nodeInfo.Name, .handleDevices, afterTimeout, some (.api err)⟩]⟩
      | none =>
        let u := UpdateNodeLabel C nodeInfo.Name spec o.world
        match u.err with
        | some err =>
          ⟨some (.helper err), u.world,
            [⟨nodeInfo.Name, .RescheduleFailedNotification, nodeResourceClaimInfos, none⟩,
             ⟨nodeInfo.Name, .RescheduleNotification, afterFailed, none⟩,
             ⟨nodeInfo.Name, .handleDevices, afterTimeout, none⟩,
             ⟨nodeInfo.Name, .UpdateNodeLabel, [], some (.helper err)⟩]⟩
        | none =>
          ⟨none, u.world,
            [⟨nodeInfo.Name, .RescheduleFailedNotification, nodeResourceClaimInfos, none⟩,
             ⟨nodeInfo.Name, .RescheduleNotification, afterFailed, none⟩,
             ⟨nodeInfo.Name, .handleDevices, afterTimeout, none⟩,
             ⟨nodeInfo.Name, .UpdateNodeLabel, [], none⟩]⟩

/-- The function `handleNodes` (lines 140-172), by recursion on the nodes still to be
visited: the first error ends the function. -/
def handleNodes {σ : Type} (P : Passes σ) (E : Env σ) (C : Client σ)
    (r : ResourceMonitorReconciler) (resourceClaimInfos : List ResourceClaimInfo)
    (resourceSliceInfos : List ResourceSliceInfo) (spec : ComposableDRASpec) :
    List NodeInfo → σ → NodesOutcome σ
  | [], w => ⟨none, w, []⟩
  | nodeInfo :: rest, w =>
    let o := handleNode P E C r resourceClaimInfos resourceSliceInfos spec nodeInfo w
    match o.err with
    | some err => ⟨some err, o.world, o.steps⟩
    | none =>
      let o2 := handleNodes P E C r resourceClaimInfos resourceSliceInfos spec rest o.world
      ⟨o2.err, o2.world, o.steps ++ o2.steps⟩

/-- The steps that a run of `handleNodes` over the nodes goes through when no step
fails: the four steps of each node, node after node. -/
def plannedSteps : List NodeInfo → List (String × StepKind)
  | [] => []
  | nodeInfo :: rest =>
    [(nodeInfo.Name, .RescheduleFailedNotification), (nodeInfo.Name, .RescheduleNotification),
     (nodeInfo.Name, .handleDevices), (nodeInfo.Name, .UpdateNodeLabel)] ++ plannedSteps rest

/-- The node and the kind of a step run. -/
def StepRecord.key (s : StepRecord) : String × StepKind :=
  (s.nodeName, s.kind)

/-- The steps of one node with the arguments each of them is handed when all four
are run from the world `w`: the claims of the node for the failed-claim pass, the
claims that pass returned for the timeout pass, the claims the timeout pass returned
for `handleDevices`. -/
def expectedNodeSteps {σ : Type} (P : Passes σ) (E : Env σ) (C : Client σ)
    (r : ResourceMonitorReconciler) (resourceClaimInfos : List ResourceClaimInfo)
    (resourceSliceInfos : List ResourceSliceInfo) (spec : ComposableDRASpec)
    (nodeInfo : NodeInfo) (w : σ) : List StepRecord :=
  let nodeResourceClaimInfos :=
    resourceClaimInfos.filter (fun resourceClaimInfo => resourceClaimInfo.NodeName == nodeInfo.Name)
  let failed := P.RescheduleFailedNotification w nodeInfo nodeResourceClaimInfos
    resourceSliceInfos spec
  let timeout := P.RescheduleNotification failed.2 failed.1.1 resourceSliceInfos
    spec.LabelPrefix r.DeviceNoAllocation
  let devices := handleDevices E r nodeInfo timeout.1.1 resourceSliceInfos spec timeout.2
  let label := UpdateNodeLabel C nodeInfo.Name spec devices.world
  [⟨nodeInfo.Name, .RescheduleFailedNotification, nodeResourceClaimInfos, failed.1.2⟩,
   ⟨nodeInfo.Name, .RescheduleNotification, failed.1.1, timeout.1.2⟩,
   ⟨nodeInfo.Name, .handleDevices, timeout.1.1, devices.err.map CycleError.api⟩,
   ⟨nodeInfo.Name, .UpdateNodeLabel, [], label.err.map CycleError.helper⟩]

/-! ### Sample data for handleNodes -/

/-- Sample passes that return the claims they are handed; the failed-claim pass
returns an error on the node named `failing`. -/
def samplePasses (failing : String) : Passes SampleWorld where
  RescheduleFailedNotification := fun w nodeInfo claims _ _ =>
    ((claims, if nodeInfo.Name = failing then some (.api (failure "failed pass")) else none), w)
  RescheduleNotification := fun w claims _ _ _ => ((claims, none), w)

/-- Sample collaborators of `handleDevices` over a `SampleWorld`: every call succeeds,
`counted` devices are in use and the minimum of every model is 2. -/
def quietEnv (counted : Int) : Env SampleWorld where
  ListComposabilityRequests := fun w => (.ok w.requests, w)
  GetConfiguredDeviceCount := fun w _ _ _ _ => (.ok counted, w)
  GetModelLimit := fun _ _ => (6, 2)
  GetDriverType := fun _ => "gpu"
  DynamicAttach := fun w _ _ _ _ _ => (none, w)
  DynamicDetach := fun w _ _ _ _ _ => (none, w)

/-- Two claims, one located on `node1` and one on `node2`. -/
def sampleClaimInfos : List ResourceClaimInfo :=
  [⟨"claim-a", "default", "node1", "slice-a", 0, []⟩,
   ⟨"claim-b", "default", "node2", "slice-b", 0, []⟩]

/-- Two nodes, `node1` and `node2`. -/
def sampleNodes : List NodeInfo :=
  [⟨"node1", []⟩, ⟨"node2", []⟩]

/-! ## Applying the mutations of a pass to the request list -/

/-- From the words of the idempotence property: an attach or a detach sets the size of
the matched request, which is the first request of the list with the model and the
target node of the request handed to the call. -/
def setSize (cr : ComposabilityRequest) (count : Int) :
    List ComposabilityRequest → List ComposabilityRequest
  | [] => []
  | x :: rest =>
    if x.Model = cr.Model ∧ x.TargetNode = cr.TargetNode then { x with Size := count } :: rest
    else x :: setSize cr count rest

/-- From the words of the idempotence property: the request list after a mutation
has been applied. A create (a `DynamicAttach` with a nil request) adds a request of
the requested size for the model and the node, at the end of the list and with an
empty name, which `handleDevices` never reads; an attach or a detach sets the size of
the matched request. -/
def applyCall (items : List ComposabilityRequest) : Call → List ComposabilityRequest
  | .DynamicAttach none count resourceType model nodeName =>
    items ++ [⟨"", model, nodeName, count, resourceType⟩]
  | .DynamicAttach (some cr) count _ _ _ => setSize cr count items
  | .DynamicDetach cr count _ _ _ => setSize cr count items

/-- The request list after the mutations of a pass have been applied, in the order
in which they were issued. -/
def applyCalls (calls : List Call) (items : List ComposabilityRequest) :
    List ComposabilityRequest :=
  calls.foldl applyCall items

/-- The size of the first request of the list for the model on the node: the size
that `handleDevices` compares the configured count with (`none` without such a
request). -/
def firstSize (items : List ComposabilityRequest) (nodeName model : String) : Option Int :=
  (items.find? (fun cr => cr.Model == model && cr.TargetNode == nodeName)).map
    (fun cr => cr.Size)

/-- The request list is settled for a model on the node: its first request for the
model has the size `target model`, or it has no request for the model and the target
is not positive. This is when `handleDevices` issues no call for the model. -/
def IsSettled (target : String → Int) (cur : List ComposabilityRequest)
    (nodeName model : String) : Prop :=
  firstSize cur nodeName model = some (target model) ∨
  (firstSize cur nodeName model = none ∧ target model ≤ 0)

/-- The first sizes of `cur` on the node are those of `items` but for models whose
first size is the target. -/
def IsTouchedOnly (target : String → Int) (items cur : List ComposabilityRequest)
    (nodeName : String) : Prop :=
  ∀ model, firstSize cur nodeName model = firstSize items nodeName model ∨
    firstSize cur nodeName model = some (target model)

/-- Sample collaborators of `handleDevices` over a world that is the request list:
one device of every model is in use, the minimum of every model is 2, and the
`DynamicAttach` for model `A` returns an error. -/
def listEnv : Env (List ComposabilityRequest) where
  ListComposabilityRequests := fun w => (.ok w, w)
  GetConfiguredDeviceCount := fun w _ _ _ _ => (.ok 1, w)
  GetModelLimit := fun _ _ => (6, 2)
  GetDriverType := fun _ => "gpu"
  DynamicAttach := fun w _ _ _ model _ =>
    (if model = "A" then some (failure "attach") else none, w)
  DynamicDetach := fun w _ _ _ _ _ => (none, w)

/-! ## DynamicDetach -/

/-- Modelled from the spec: the `lastUsedTime` of a provisioned device is the time
written in its annotation `<prefix>/last-used-time`, the annotation that
`updateComposableResourceLastUsedTime` stamps; `parseTime` reads the RFC3339 text
(`none` when the annotation is missing or is no time). -/
def lastUsedTime (parseTime : String → Option Int) (labelPrefix : String)
    (rs : ComposableResource) : Option Int :=
  match rs.Annotations with
  | none => none
  | some annotations => (annotations.lookup (labelPrefix ++ "/last-used-time")).bind parseTime

/-- Modelled from the spec: a provisioned device is within its no-removal window when
its `lastUsedTime` is newer than `now - DeviceNoRemoval`. -/
def inNoRemovalWindow (parseTime : String → Option Int) (labelPrefix : String)
    (now deviceNoRemoval : Int) (rs : ComposableResource) : Bool :=
  match lastUsedTime parseTime labelPrefix rs with
  | some used => decide (used > now - deviceNoRemoval)
  | none => false

/-- Modelled from the spec: the devices that a shrink of the request can remove are
the provisioned devices of the model of the request on the node, the choice among
them being left to the provisioning system. -/
def removalCandidates (cr : ComposabilityRequest) (nodeName : String)
    (resources : List ComposableResource) : List ComposableResource :=
  resources.filter (fun rs => rs.Model == cr.Model && rs.TargetNode == nodeName)

/-- Modelled from the spec: the function `DynamicDetach` of package `utils` is not
among the sources. It lists the provisioned devices and reads the clock; when a
device that the shrink can remove is within its no-removal window the shrink is
deferred (nil is returned and nothing is written), else the size of the request is
patched to `count` with `PatchComposabilityRequestSize`. -/
def DynamicDetach {σ : Type} (C : Client σ) (parseTime : String → Option Int)
    (cr : ComposabilityRequest) (count : Int) (nodeName labelPrefix : String)
    (deviceNoRemoval : Int) (w : σ) : PatchOutcome σ :=
  match C.ListComposableResources w with
  | (.error err, w1) => ⟨some (.wrapped "failed to list ComposableResourceList" err), w1, []⟩
  | (.ok resources, w1) =>
    match C.Now w1 with
    | (now, w2) =>
      if (removalCandidates cr nodeName resources).any
          (inNoRemovalWindow parseTime labelPrefix now deviceNoRemoval) then
        ⟨none, w2, []⟩
      else PatchComposabilityRequestSize C cr.Name count w2

/-- A sample reading of times: the text `recent` is the time 100. -/
def sampleParseTime (text : String) : Option Int :=
  if text = "recent" then some 100 else none

/-- A world at time 150 with a request of size 5 for model `M` on `node1` and a
provisioned device of that model on that node that was last used at time 100. -/
def recentlyUsedWorld : SampleWorld :=
  ⟨[], [], 150, [⟨"req", "M", "node1", 5, "gpu"⟩],
    [⟨"res", "M", "node1", "Online", "id", some [("p/last-used-time", "recent")]⟩]⟩

/-- The calls that `handleDevices` may issue for one catalog entry: at most one call,
about the model of the entry, and a request handed to it is of the model on the node
and stands in the list before every other such request. -/
def IsCallsOfEntry (items : List ComposabilityRequest) (nodeInfo : NodeInfo)
    (device : DeviceInfo) (part : List Call) : Prop :=
  part.length ≤ 1 ∧
  ∀ c ∈ part, c.model = device.CDIModelName ∧
    ∀ x, c.request = some x →
      requestMatches device nodeInfo x = true ∧
      ∃ pre post, items = pre ++ x :: post ∧
        ∀ y ∈ pre, requestMatches device nodeInfo y = false

/-- A world with two requests for model `M` on `node1`, of the sizes 5 and 1. -/
def twoRequestsWorld : SampleWorld :=
  ⟨[], [], 0, [⟨"first", "M", "node1", 5, "gpu"⟩, ⟨"second", "M", "node1", 1, "gpu"⟩], []⟩

/-! ## The order of the labels -/

/-- From the words of the order property: the label is outside `LabelPrefix + "/"`
or has neither the suffix `-size-min` nor the suffix `-size-max`. -/
def irrelevantLabel (spec : ComposableDRASpec) (key : String) : Bool :=
  !HasPrefix key (spec.LabelPrefix ++ "/") ||
    (!HasSuffix key "-size-min" && !HasSuffix key "-size-max")

/-- The node without the labels that are irrelevant. -/
def stripLabels (spec : ComposableDRASpec) (node : Node) : Node :=
  ⟨node.Name, node.Labels.filter (fun kv => !irrelevantLabel spec kv.1)⟩

/-- The second node is the first one with the labels visited in another order, and
the keys of the labels are distinct (they are the keys of a map). -/
def IsReordering (n1 n2 : Node) : Prop :=
  n1.Name = n2.Name ∧ n1.Labels.Perm n2.Labels ∧ (n1.Labels.map Prod.fst).Nodup

/-- The two NodeInfo have the same name and the same Models up to their order. -/
def SameModels (i1 i2 : NodeInfo) : Prop :=
  i1.Name = i2.Name ∧ i1.Models.Perm i2.Models

/-! ## The label lists of UpdateNodeLabel, said with the listed objects -/

/-- From the words of the label invariant: a model installed on the node (the model
of a listed request with TargetNode the node and a Size greater than 0, or of a
listed provisioned device with TargetNode the node and State "Online") is the
CDIModelName of a catalog entry whose CannotCoexistWith contains the index. -/
@[reducible] def IsExcluded (nodeName : String) (spec : ComposableDRASpec)
    (requests : List ComposabilityRequest) (resources : List ComposableResource)
    (index : Int) : Prop :=
  (∃ cr ∈ requests, cr.TargetNode = nodeName ∧ 0 < cr.Size ∧
    ∃ e2 ∈ spec.DeviceInfos, e2.CDIModelName = cr.Model ∧ index ∈ e2.CannotCoexistWith) ∨
  (∃ rs ∈ resources, rs.TargetNode = nodeName ∧ rs.State = "Online" ∧
    ∃ e2 ∈ spec.DeviceInfos, e2.CDIModelName = rs.Model ∧ index ∈ e2.CannotCoexistWith)

/-- The text of a label list, each label followed by a semicolon. -/
def labelsText : List String → String
  | [] => ""
  | label :: rest => label ++ ";" ++ labelsText rest

/-- A client over a world that is the list of the patch bodies sent to the node: the
body names the labels to add and the labels to delete, every patch succeeds, and
the listings give the requests and the provisioned devices of the arguments. -/
def labelClient (requests : List ComposabilityRequest) (resources : List ComposableResource) :
    Client (List String) where
  MarshalLabels := fun addLabels deleteLabels =>
    .ok ("add " ++ labelsText addLabels ++ " delete " ++ labelsText deleteLabels)
  PatchNode := fun w _ patchBytes => (none, w ++ [patchBytes])
  MarshalAnnotationBody := fun _ _ => "annotation"
  GetComposableResource := fun w name => (.ok ⟨name, "M", "node1", "Online", "id", none⟩, w)
  PatchComposableResource := fun w _ _ => (none, w)
  MarshalSize := fun _ => .ok "size"
  GetComposabilityRequest := fun w name => (.ok ⟨name, "M", "node1", 3, "gpu"⟩, w)
  PatchComposabilityRequest := fun w _ _ => (none, w)
  Now := fun w => (0, w)
  GetResourceClaim := fun w name ns => (.ok ⟨name, ns, 0, ["pod"], []⟩, w)
  PatchResourceClaim := fun w _ _ => (none, w)
  ListComposabilityRequests := fun w => (.ok requests, w)
  ListComposableResources := fun w => (.ok resources, w)

/-- A catalog in which two entries have the K8sDeviceName `x`; the first, of model
`A`, excludes the index of the second. -/
def duplicateNameCatalog : ComposableDRASpec :=
  ⟨"p", [⟨1, "A", "x", "gpu.nvidia.com", [2]⟩, ⟨2, "B", "x", "gpu.nvidia.com", []⟩], []⟩

/-! ## Further definitions: the claim built for the condition patch -/

/-- The claim `modifiedRC` that a retry iteration of
`PatchResourceClaimDeviceConditions` builds from the claim it has read (lines
192-217): a copy in which every status device went through the loop body. -/
def modifiedRC {σ : Type} (C : Client σ) (conditionType : String) (existingRC : ResourceClaim)
    (w : σ) : ResourceClaim :=
  { existingRC with Devices := (setDeviceConditions C conditionType existingRC.Devices w).1 }

/-- A claim with one device that carries a condition of another type and a
reschedule condition that is not true. -/
def sampleClaim : ResourceClaim :=
  ⟨"claim", "default", 0, ["pod"],
    [⟨"gpu.nvidia.com", "pool", "gpu-1",
      some [⟨"Other", "True", 0⟩, ⟨"FabricDeviceReschedule", "False", 0⟩]⟩]⟩

/-- A world as `sampleEnv` in which the maximum of every model is `maxDevice`. -/
def sampleEnvWithMax (maxDevice counted : Int) (items : List ComposabilityRequest) : Env Nat :=
  { sampleEnv counted items with GetModelLimit := fun _ _ => (maxDevice, 2) }

/-! ## Theorems: handleDevices -/

theorem requestMatches_iff (device : DeviceInfo) (nodeInfo : NodeInfo) (cr : ComposabilityRequest) :
    requestMatches device nodeInfo cr = true ↔
      cr.Model = device.CDIModelName ∧ cr.TargetNode = nodeInfo.Name := by
  simp [requestMatches]

theorem requestMatches_eq_decide (device : DeviceInfo) (nodeInfo : NodeInfo) :
    requestMatches device nodeInfo =
      fun x => decide (x.Model = device.CDIModelName ∧ x.TargetNode = nodeInfo.Name) := by
  funext x
  by_cases h : x.Model = device.CDIModelName ∧ x.TargetNode = nodeInfo.Name
  · simp [requestMatches, h.1, h.2]
  · have : requestMatches device nodeInfo x ≠ true := fun hm => h ((requestMatches_iff _ _ _).1 hm)
    simp [h, this]

theorem clampCount_eq_max (counted minCountLimit : Int) :
    clampCount counted minCountLimit = max counted minCountLimit := by
  unfold clampCount
  split
  · omega
  · omega

section
variable {σ : Type} (E : Env σ) (r : ResourceMonitorReconciler) (nodeInfo : NodeInfo)
  (resourceClaimInfos : List ResourceClaimInfo) (resourceSliceInfos : List ResourceSliceInfo)
  (spec : ComposableDRASpec)

theorem scanRequests_no_match (device : DeviceInfo) (c : Int) (items : List ComposabilityRequest)
    (w : σ) (h : ∀ x ∈ items, requestMatches device nodeInfo x = false) :
    scanRequests E r nodeInfo spec device c items w = ⟨none, false, w, []⟩ := by
  induction items with
  | nil => rfl
  | cons x rest ih =>
    have hx := h x (List.mem_cons_self _ _)
    simp only [scanRequests, hx, Bool.false_eq_true, if_false]
    exact ih (fun y hy => h y (List.mem_cons_of_mem _ hy))

theorem scanRequests_first_match (device : DeviceInfo) (c : Int)
    (items : List ComposabilityRequest) (w : σ) (cr : ComposabilityRequest)
    (h : items.find? (requestMatches device nodeInfo) = some cr) :
    scanRequests E r nodeInfo spec device c items w =
      scanRequests E r nodeInfo spec device c [cr] w := by
  induction items with
  | nil => simp at h
  | cons x rest ih =>
    by_cases hx : requestMatches device nodeInfo x = true
    · have hxc : x = cr := by simpa [List.find?, hx] using h
      subst hxc
      simp only [scanRequests, hx, if_true]
    · have hx2 : requestMatches device nodeInfo x = false := by simpa using hx
      have h2 : rest.find? (requestMatches device nodeInfo) = some cr := by
        simpa [List.find?, hx2] using h
      have hcr : requestMatches device nodeInfo cr = true := by
        have := List.find?_some h2
        simpa using this
      rw [show scanRequests E r nodeInfo spec device c (x :: rest) w =
        scanRequests E r nodeInfo spec device c rest w by
          simp only [scanRequests, hx2, Bool.false_eq_true, if_false]]
      exact ih h2

theorem handleDevicesLoop_append (items : List ComposabilityRequest) (pre post : List DeviceInfo)
    (w : σ)
    (hpre : (handleDevicesLoop E r nodeInfo resourceClaimInfos resourceSliceInfos spec items
      pre w).err = none) :
    handleDevicesLoop E r nodeInfo resourceClaimInfos resourceSliceInfos spec items
        (pre ++ post) w =
      ⟨(handleDevicesLoop E r nodeInfo resourceClaimInfos resourceSliceInfos spec items post
          (handleDevicesLoop E r nodeInfo resourceClaimInfos resourceSliceInfos spec items
            pre w).world).err,
       (handleDevicesLoop E r nodeInfo resourceClaimInfos resourceSliceInfos spec items post
          (handleDevicesLoop E r nodeInfo resourceClaimInfos resourceSliceInfos spec items
            pre w).world).world,
       (handleDevicesLoop E r nodeInfo resourceClaimInfos resourceSliceInfos spec items
            pre w).calls ++
       (handleDevicesLoop E r nodeInfo resourceClaimInfos resourceSliceInfos spec items post
          (handleDevicesLoop E r nodeInfo resourceClaimInfos resourceSliceInfos spec items
            pre w).world).calls⟩ := by
  induction pre generalizing w with
  | nil => simp [handleDevicesLoop]
  | cons d rest ih =>
    simp only [List.cons_append, handleDevicesLoop] at hpre ⊢
    cases hd : (handleDevice E r nodeInfo resourceClaimInfos resourceSliceInfos spec items
      d w).err with
    | some e => simp [hd] at hpre
    | none =>
      simp only [hd] at hpre ⊢
      rw [List.append_eq, ih _ hpre]
      simp [List.append_assoc]

theorem handleDevice_calls_of_match (items : List ComposabilityRequest) (device : DeviceInfo)
    (w w1 : σ) (counted : Int) (cr : ComposabilityRequest)
    (hcount : E.GetConfiguredDeviceCount w device.CDIModelName nodeInfo.Name resourceClaimInfos
      resourceSliceInfos = (.ok counted, w1))
    (hfirst : items.find? (requestMatches device nodeInfo) = some cr) :
    (handleDevice E r nodeInfo resourceClaimInfos resourceSliceInfos spec items device w).calls =
      if clampCount counted (E.GetModelLimit nodeInfo device.CDIModelName).2 > cr.Size then
        [Call.DynamicAttach (some cr)
          (clampCount counted (E.GetModelLimit nodeInfo device.CDIModelName).2)
          cr.ResourceType device.CDIModelName nodeInfo.Name]
      else if clampCount counted (E.GetModelLimit nodeInfo device.CDIModelName).2 < cr.Size then
        [Call.DynamicDetach cr
          (clampCount counted (E.GetModelLimit nodeInfo device.CDIModelName).2)
          nodeInfo.Name spec.LabelPrefix r.DeviceNoRemoval]
      else [] := by
  have hcr : requestMatches device nodeInfo cr = true := by
    simpa using List.find?_some hfirst
  unfold handleDevice
  rw [hcount]
  simp only
  rw [scanRequests_first_match E r nodeInfo spec device _ items w1 cr hfirst]
  simp only [scanRequests, hcr, if_true]
  by_cases h1 : clampCount counted (E.GetModelLimit nodeInfo device.CDIModelName).2 > cr.Size
  · simp only [h1, if_true]
    rcases hA : E.DynamicAttach w1 (some cr)
      (clampCount counted (E.GetModelLimit nodeInfo device.CDIModelName).2) cr.ResourceType
      device.CDIModelName nodeInfo.Name with ⟨_ | e, w2⟩ <;> simp
  · simp only [h1, if_false]
    by_cases h2 : clampCount counted (E.GetModelLimit nodeInfo device.CDIModelName).2 < cr.Size
    · simp only [h2, if_true]
      rcases hD : E.DynamicDetach w1 cr
        (clampCount counted (E.GetModelLimit nodeInfo device.CDIModelName).2) nodeInfo.Name
        spec.LabelPrefix r.DeviceNoRemoval with ⟨_ | e, w2⟩ <;> simp
    · simp [h2]

theorem handleDevice_calls_of_no_match (items : List ComposabilityRequest) (device : DeviceInfo)
    (w w1 : σ) (counted : Int)
    (hcount : E.GetConfiguredDeviceCount w device.CDIModelName nodeInfo.Name resourceClaimInfos
      resourceSliceInfos = (.ok counted, w1))
    (hnone : ∀ x ∈ items, requestMatches device nodeInfo x = false) :
    (handleDevice E r nodeInfo resourceClaimInfos resourceSliceInfos spec items device w).calls =
      if clampCount counted (E.GetModelLimit nodeInfo device.CDIModelName).2 > 0 then
        [Call.DynamicAttach none
          (clampCount counted (E.GetModelLimit nodeInfo device.CDIModelName).2)
          (E.GetDriverType device.DriverName) device.CDIModelName nodeInfo.Name]
      else [] := by
  unfold handleDevice
  rw [hcount]
  simp only
  rw [scanRequests_no_match E r nodeInfo spec device _ items w1 hnone]
  by_cases h1 : clampCount counted (E.GetModelLimit nodeInfo device.CDIModelName).2 > 0
  · simp [h1]
  · simp [h1]

theorem handleDevicesLoop_calls_split (items : List ComposabilityRequest)
    (pre post : List DeviceInfo) (device : DeviceInfo) (w : σ)
    (hpre : (handleDevicesLoop E r nodeInfo resourceClaimInfos resourceSliceInfos spec items
      pre w).err = none) :
    (handleDevicesLoop E r nodeInfo resourceClaimInfos resourceSliceInfos spec items
        (pre ++ device :: post) w).calls =
      (handleDevicesLoop E r nodeInfo resourceClaimInfos resourceSliceInfos spec items
        pre w).calls ++
      (handleDevice E r nodeInfo resourceClaimInfos resourceSliceInfos spec items device
        (handleDevicesLoop E r nodeInfo resourceClaimInfos resourceSliceInfos spec items
          pre w).world).calls ++
      (if (handleDevice E r nodeInfo resourceClaimInfos resourceSliceInfos spec items device
          (handleDevicesLoop E r nodeInfo resourceClaimInfos resourceSliceInfos spec items
            pre w).world).err = none then
        (handleDevicesLoop E r nodeInfo resourceClaimInfos resourceSliceInfos spec items post
          (handleDevice E r nodeInfo resourceClaimInfos resourceSliceInfos spec items device
            (handleDevicesLoop E r nodeInfo resourceClaimInfos resourceSliceInfos spec items
              pre w).world).world).calls
       else []) := by
  rw [handleDevicesLoop_append E r nodeInfo resourceClaimInfos resourceSliceInfos spec items
    pre (device :: post) w hpre]
  simp only [handleDevicesLoop]
  cases hd : (handleDevice E r nodeInfo resourceClaimInfos resourceSliceInfos spec items device
      (handleDevicesLoop E r nodeInfo resourceClaimInfos resourceSliceInfos spec items
        pre w).world).err with
  | some e => simp
  | none => simp [List.append_assoc]

theorem handleDevice_count_ge_min (items : List ComposabilityRequest) (device : DeviceInfo)
    (w : σ) :
    ∀ call ∈ (handleDevice E r nodeInfo resourceClaimInfos resourceSliceInfos spec items
        device w).calls,
      call.model = device.CDIModelName ∧
      (E.GetModelLimit nodeInfo device.CDIModelName).2 ≤ call.count := by
  intro call hcall
  rcases hcount : E.GetConfiguredDeviceCount w device.CDIModelName nodeInfo.Name
    resourceClaimInfos resourceSliceInfos with ⟨res, w1⟩
  cases res with
  | error e =>
    unfold handleDevice at hcall
    rw [hcount] at hcall
    simp at hcall
  | ok counted =>
    have hge : (E.GetModelLimit nodeInfo device.CDIModelName).2 ≤
        clampCount counted (E.GetModelLimit nodeInfo device.CDIModelName).2 := by
      rw [clampCount_eq_max]; exact le_max_right _ _
    cases hf : items.find? (requestMatches device nodeInfo) with
    | none =>
      have hnone : ∀ x ∈ items, requestMatches device nodeInfo x = false := by
        intro x hx
        have := List.find?_eq_none.1 hf x hx
        simpa using this
      rw [handleDevice_calls_of_no_match E r nodeInfo resourceClaimInfos resourceSliceInfos spec
        items device w w1 counted hcount hnone] at hcall
      split at hcall
      · simp only [List.mem_singleton] at hcall
        subst hcall
        exact ⟨rfl, by simpa [Call.count] using hge⟩
      · simp at hcall
    | some cr =>
      have hcr : cr.Model = device.CDIModelName :=
        ((requestMatches_iff device nodeInfo cr).1 (by simpa using List.find?_some hf)).1
      rw [handleDevice_calls_of_match E r nodeInfo resourceClaimInfos resourceSliceInfos spec
        items device w w1 counted cr hcount hf] at hcall
      split at hcall
      · simp only [List.mem_singleton] at hcall
        subst hcall
        exact ⟨rfl, by simpa [Call.count] using hge⟩
      · split at hcall
        · simp only [List.mem_singleton] at hcall
          subst hcall
          exact ⟨hcr, by simpa [Call.count] using hge⟩
        · simp at hcall

theorem handleDevicesLoop_count_ge_min (items : List ComposabilityRequest)
    (devices : List DeviceInfo) (w : σ) :
    ∀ call ∈ (handleDevicesLoop E r nodeInfo resourceClaimInfos resourceSliceInfos spec items
        devices w).calls,
      ∃ device ∈ devices, call.model = device.CDIModelName ∧
        (E.GetModelLimit nodeInfo device.CDIModelName).2 ≤ call.count := by
  induction devices generalizing w with
  | nil => intro call hcall; simp [handleDevicesLoop] at hcall
  | cons d rest ih =>
    intro call hcall
    simp only [handleDevicesLoop] at hcall
    cases hd : (handleDevice E r nodeInfo resourceClaimInfos resourceSliceInfos spec items
        d w).err with
    | some e =>
      simp only [hd] at hcall
      exact ⟨d, List.mem_cons_self _ _,
        handleDevice_count_ge_min E r nodeInfo resourceClaimInfos resourceSliceInfos spec items
          d w call hcall⟩
    | none =>
      simp only [hd, List.mem_append] at hcall
      rcases hcall with h | h
      · exact ⟨d, List.mem_cons_self _ _,
          handleDevice_count_ge_min E r nodeInfo resourceClaimInfos resourceSliceInfos spec items
            d w call h⟩
      · obtain ⟨d2, hd2, hle⟩ := ih _ call h
        exact ⟨d2, List.mem_cons_of_mem _ hd2, hle⟩

end

/-- C1: in `handleDevices`, when the iteration of catalog entry `device` is reached
(the list call and the iterations of the entries before it returned no error) and
its configured count is `counted`, and `cr` is the first listed request whose
Model is the entry's CDIModelName and whose TargetNode is the node name, then with
`c = max counted minLimit` the iteration calls DynamicAttach on `cr` with size `c`
iff `c > cr.Size`, calls DynamicDetach on `cr` with size `c` iff `c < cr.Size`,
issues nothing when `c = cr.Size`, never issues a call with a nil request (no
create), and these calls sit in the trace of `handleDevices` right after those of
the earlier entries. -/
theorem handleDevices_existing_request {σ : Type} (E : Env σ) (r : ResourceMonitorReconciler)
    (nodeInfo : NodeInfo) (claims : List ResourceClaimInfo) (slices : List ResourceSliceInfo)
    (spec : ComposableDRASpec) (items : List ComposabilityRequest)
    (pre post : List DeviceInfo) (device : DeviceInfo) (w0 w w1 : σ) (counted c : Int)
    (cr : ComposabilityRequest)
    (hspec : spec.DeviceInfos = pre ++ device :: post)
    (hlist : E.ListComposabilityRequests w0 = (.ok items, w))
    (hreach : (handleDevicesLoop E r nodeInfo claims slices spec items pre w).err = none)
    (hcount : E.GetConfiguredDeviceCount
      (handleDevicesLoop E r nodeInfo claims slices spec items pre w).world
      device.CDIModelName nodeInfo.Name claims slices = (.ok counted, w1))
    (hc : c = max counted (E.GetModelLimit nodeInfo device.CDIModelName).2)
    (hfirst : items.find?
      (fun x => decide (x.Model = device.CDIModelName ∧ x.TargetNode = nodeInfo.Name)) = some cr) :
    (Call.DynamicAttach (some cr) c cr.ResourceType device.CDIModelName nodeInfo.Name ∈
        (handleDevice E r nodeInfo claims slices spec items device
          (handleDevicesLoop E r nodeInfo claims slices spec items pre w).world).calls
      ↔ c > cr.Size) ∧
    (Call.DynamicDetach cr c nodeInfo.Name spec.LabelPrefix r.DeviceNoRemoval ∈
        (handleDevice E r nodeInfo claims slices spec items device
          (handleDevicesLoop E r nodeInfo claims slices spec items pre w).world).calls
      ↔ c < cr.Size) ∧
    (c = cr.Size →
      (handleDevice E r nodeInfo claims slices spec items device
        (handleDevicesLoop E r nodeInfo claims slices spec items pre w).world).calls = []) ∧
    (∀ call ∈ (handleDevice E r nodeInfo claims slices spec items device
        (handleDevicesLoop E r nodeInfo claims slices spec items pre w).world).calls,
      call.request = some cr ∧ call.count = c ∧
      (call = Call.DynamicAttach (some cr) c cr.ResourceType device.CDIModelName nodeInfo.Name ∨
       call = Call.DynamicDetach cr c nodeInfo.Name spec.LabelPrefix r.DeviceNoRemoval)) ∧
    (handleDevice E r nodeInfo claims slices spec items device
        (handleDevicesLoop E r nodeInfo claims slices spec items pre w).world).calls.length ≤ 1 ∧
    (handleDevices E r nodeInfo claims slices spec w0).calls =
      (handleDevicesLoop E r nodeInfo claims slices spec items pre w).calls ++
      (handleDevice E r nodeInfo claims slices spec items device
        (handleDevicesLoop E r nodeInfo claims slices spec items pre w).world).calls ++
      (if (handleDevice E r nodeInfo claims slices spec items device
          (handleDevicesLoop E r nodeInfo claims slices spec items pre w).world).err = none then
        (handleDevicesLoop E r nodeInfo claims slices spec items post
          (handleDevice E r nodeInfo claims slices spec items device
            (handleDevicesLoop E r nodeInfo claims slices spec items pre w).world).world).calls
       else []) := by
  have hfirst2 : items.find? (requestMatches device nodeInfo) = some cr := by
    rw [requestMatches_eq_decide]; exact hfirst
  have hcalls := handleDevice_calls_of_match E r nodeInfo claims slices spec items device _ w1
    counted cr hcount hfirst2
  rw [clampCount_eq_max, ← hc] at hcalls
  have hwhole : (handleDevices E r nodeInfo claims slices spec w0).calls =
      (handleDevicesLoop E r nodeInfo claims slices spec items (pre ++ device :: post) w).calls := by
    unfold handleDevices
    rw [hlist, hspec]
  rw [hwhole, handleDevicesLoop_calls_split E r nodeInfo claims slices spec items pre post
    device w hreach]
  refine ⟨?_, ?_, ?_, ?_, ?_, rfl⟩
  · rw [hcalls]
    by_cases h1 : c > cr.Size
    · simp [h1]
    · by_cases h2 : c < cr.Size <;> simp [h1, h2]
  · rw [hcalls]
    by_cases h1 : c > cr.Size
    · have : ¬ c < cr.Size := by omega
      simp [h1, this]
    · by_cases h2 : c < cr.Size <;> simp [h1, h2]
  · intro heq
    rw [hcalls]
    have h1 : ¬ c > cr.Size := by omega
    have h2 : ¬ c < cr.Size := by omega
    simp [h1, h2]
  · intro call hcall
    rw [hcalls] at hcall
    by_cases h1 : c > cr.Size
    · simp only [h1, if_true, List.mem_singleton] at hcall
      subst hcall
      simp [Call.request, Call.count]
    · by_cases h2 : c < cr.Size
      · simp only [h1, h2, if_true, if_false, List.mem_singleton] at hcall
        subst hcall
        simp [Call.request, Call.count]
      · simp [h1, h2] at hcall
  · rw [hcalls]
    by_cases h1 : c > cr.Size
    · simp [h1]
    · by_cases h2 : c < cr.Size <;> simp [h1, h2]

/-- Scenario B: an existing request of size 3 and a configured count of 5 make
`handleDevices` issue exactly one call, a DynamicAttach on that request with
size 5. -/
theorem handleDevices_existing_request_witness :
    (handleDevices (sampleEnv 5 [sampleRequest]) sampleReconciler sampleNode [] [] sampleSpec 0).calls
      = [Call.DynamicAttach (some sampleRequest) 5 "gpu" "M" "node1"] ∧
    (Call.DynamicAttach (some sampleRequest) 5 sampleRequest.ResourceType "M" sampleNode.Name ∈
        (handleDevice (sampleEnv 5 [sampleRequest]) sampleReconciler sampleNode [] [] sampleSpec
          [sampleRequest] ⟨1, "M", "m", "gpu.nvidia.com", []⟩ 1).calls
      ↔ (5 : Int) > sampleRequest.Size) := by
  have h := handleDevices_existing_request (sampleEnv 5 [sampleRequest]) sampleReconciler
    sampleNode [] [] sampleSpec [sampleRequest] [] [] ⟨1, "M", "m", "gpu.nvidia.com", []⟩
    0 1 2 5 5 sampleRequest rfl rfl rfl rfl (by decide) (by decide)
  exact ⟨by decide, h.1⟩

/-- C2: in `handleDevices`, when the iteration of catalog entry `device` is reached
with configured count `counted` and no listed request has the entry's CDIModelName
as Model and the node name as TargetNode, then with `c = max counted minLimit` the
iteration issues the create call (DynamicAttach with a nil request, size `c`, the
resource type derived from the entry's DriverName, the entry's CDIModelName and the
node name) iff `c > 0`, and issues nothing else; with a count of 0 and a minimum
of 2 exactly one create of size 2 is issued. -/
theorem handleDevices_no_request {σ : Type} (E : Env σ) (r : ResourceMonitorReconciler)
    (nodeInfo : NodeInfo) (claims : List ResourceClaimInfo) (slices : List ResourceSliceInfo)
    (spec : ComposableDRASpec) (items : List ComposabilityRequest)
    (pre post : List DeviceInfo) (device : DeviceInfo) (w0 w w1 : σ) (counted c : Int)
    (hspec : spec.DeviceInfos = pre ++ device :: post)
    (hlist : E.ListComposabilityRequests w0 = (.ok items, w))
    (hreach : (handleDevicesLoop E r nodeInfo claims slices spec items pre w).err = none)
    (hcount : E.GetConfiguredDeviceCount
      (handleDevicesLoop E r nodeInfo claims slices spec items pre w).world
      device.CDIModelName nodeInfo.Name claims slices = (.ok counted, w1))
    (hc : c = max counted (E.GetModelLimit nodeInfo device.CDIModelName).2)
    (hnone : ∀ x ∈ items, ¬ (x.Model = device.CDIModelName ∧ x.TargetNode = nodeInfo.Name)) :
    (Call.DynamicAttach none c (E.GetDriverType device.DriverName) device.CDIModelName
        nodeInfo.Name ∈
        (handleDevice E r nodeInfo claims slices spec items device
          (handleDevicesLoop E r nodeInfo claims slices spec items pre w).world).calls
      ↔ c > 0) ∧
    (∀ call ∈ (handleDevice E r nodeInfo claims slices spec items device
        (handleDevicesLoop E r nodeInfo claims slices spec items pre w).world).calls,
      call = Call.DynamicAttach none c (E.GetDriverType device.DriverName) device.CDIModelName
        nodeInfo.Name) ∧
    (handleDevice E r nodeInfo claims slices spec items device
        (handleDevicesLoop E r nodeInfo claims slices spec items pre w).world).calls.length ≤ 1 ∧
    (counted = 0 → (E.GetModelLimit nodeInfo device.CDIModelName).2 = 2 →
      (handleDevice E r nodeInfo claims slices spec items device
        (handleDevicesLoop E r nodeInfo claims slices spec items pre w).world).calls =
        [Call.DynamicAttach none 2 (E.GetDriverType device.DriverName) device.CDIModelName
          nodeInfo.Name]) ∧
    (handleDevices E r nodeInfo claims slices spec w0).calls =
      (handleDevicesLoop E r nodeInfo claims slices spec items pre w).calls ++
      (handleDevice E r nodeInfo claims slices spec items device
        (handleDevicesLoop E r nodeInfo claims slices spec items pre w).world).calls ++
      (if (handleDevice E r nodeInfo claims slices spec items device
          (handleDevicesLoop E r nodeInfo claims slices spec items pre w).world).err = none then
        (handleDevicesLoop E r nodeInfo claims slices spec items post
          (handleDevice E r nodeInfo claims slices spec items device
            (handleDevicesLoop E r nodeInfo claims slices spec items pre w).world).world).calls
       else []) := by
  have hnone2 : ∀ x ∈ items, requestMatches device nodeInfo x = false := by
    intro x hx
    have h := hnone x hx
    rw [← requestMatches_iff] at h
    simpa using h
  have hcalls := handleDevice_calls_of_no_match E r nodeInfo claims slices spec items device _ w1
    counted hcount hnone2
  rw [clampCount_eq_max, ← hc] at hcalls
  have hwhole : (handleDevices E r nodeInfo claims slices spec w0).calls =
      (handleDevicesLoop E r nodeInfo claims slices spec items (pre ++ device :: post) w).calls := by
    unfold handleDevices
    rw [hlist, hspec]
  rw [hwhole, handleDevicesLoop_calls_split E r nodeInfo claims slices spec items pre post
    device w hreach]
  refine ⟨?_, ?_, ?_, ?_, rfl⟩
  · rw [hcalls]
    by_cases h1 : c > 0 <;> simp [h1]
  · intro call hcall
    rw [hcalls] at hcall
    by_cases h1 : c > 0
    · simpa [h1] using hcall
    · simp [h1] at hcall
  · rw [hcalls]
    by_cases h1 : c > 0 <;> simp [h1]
  · intro h0 h2
    have hc2 : c = 2 := by rw [hc, h0, h2]; decide
    rw [hcalls, hc2]
    simp

/-- Scenario A: minDevice = 2, no active claim and no existing request make
`handleDevices` issue exactly one create, of size 2. -/
theorem handleDevices_no_request_witness :
    (handleDevices (sampleEnv 0 []) sampleReconciler sampleNode [] [] sampleSpec 0).calls =
      [Call.DynamicAttach none 2 "gpu" "M" "node1"] ∧
    (handleDevice (sampleEnv 0 []) sampleReconciler sampleNode [] [] sampleSpec []
        ⟨1, "M", "m", "gpu.nvidia.com", []⟩ 1).calls =
      [Call.DynamicAttach none 2 ((sampleEnv 0 []).GetDriverType "gpu.nvidia.com") "M"
        sampleNode.Name] := by
  have h := handleDevices_no_request (sampleEnv 0 []) sampleReconciler
    sampleNode [] [] sampleSpec [] [] [] ⟨1, "M", "m", "gpu.nvidia.com", []⟩
    0 1 2 0 2 rfl rfl rfl rfl (by decide) (by simp)
  exact ⟨by decide, h.2.2.2.1 rfl rfl⟩

/-- C3: in every iteration of `handleDevices` whose configured count is `counted`,
each size passed to DynamicAttach or DynamicDetach is `max counted minLimit`, where
`minLimit` is the minimum returned by GetModelLimit for the node and the entry's
model; the iteration leaves an existing first matching request alone exactly when
that value equals its size; and every call of a whole run of `handleDevices` is
about the model of a catalog entry and has a size that is at least the minimum
that GetModelLimit returns for the node and that model. -/
theorem handleDevices_size_is_clamped {σ : Type} (E : Env σ) (r : ResourceMonitorReconciler)
    (nodeInfo : NodeInfo) (claims : List ResourceClaimInfo) (slices : List ResourceSliceInfo)
    (spec : ComposableDRASpec) (items : List ComposabilityRequest) (device : DeviceInfo)
    (w0 w w1 : σ) (counted : Int)
    (hcount : E.GetConfiguredDeviceCount w device.CDIModelName nodeInfo.Name claims slices =
      (.ok counted, w1)) :
    (∀ call ∈ (handleDevice E r nodeInfo claims slices spec items device w).calls,
      call.count = max counted (E.GetModelLimit nodeInfo device.CDIModelName).2 ∧
      (E.GetModelLimit nodeInfo device.CDIModelName).2 ≤ call.count) ∧
    (∀ cr, items.find?
        (fun x => decide (x.Model = device.CDIModelName ∧ x.TargetNode = nodeInfo.Name)) = some cr →
      ((handleDevice E r nodeInfo claims slices spec items device w).calls = [] ↔
        max counted (E.GetModelLimit nodeInfo device.CDIModelName).2 = cr.Size)) ∧
    (∀ call ∈ (handleDevices E r nodeInfo claims slices spec w0).calls,
      ∃ d ∈ spec.DeviceInfos, call.model = d.CDIModelName ∧
        (E.GetModelLimit nodeInfo d.CDIModelName).2 ≤ call.count) := by
  refine ⟨?_, ?_, ?_⟩
  · intro call hcall
    refine ⟨?_,
      (handleDevice_count_ge_min E r nodeInfo claims slices spec items device w call hcall).2⟩
    cases hf : items.find? (requestMatches device nodeInfo) with
    | none =>
      have hnone : ∀ x ∈ items, requestMatches device nodeInfo x = false := by
        intro x hx
        have := List.find?_eq_none.1 hf x hx
        simpa using this
      rw [handleDevice_calls_of_no_match E r nodeInfo claims slices spec items device w w1
        counted hcount hnone, clampCount_eq_max] at hcall
      split at hcall
      · simp only [List.mem_singleton] at hcall
        subst hcall
        rfl
      · simp at hcall
    | some cr =>
      rw [handleDevice_calls_of_match E r nodeInfo claims slices spec items device w w1
        counted cr hcount hf, clampCount_eq_max] at hcall
      split at hcall
      · simp only [List.mem_singleton] at hcall
        subst hcall
        rfl
      · split at hcall
        · simp only [List.mem_singleton] at hcall
          subst hcall
          rfl
        · simp at hcall
  · intro cr hfirst
    have hfirst2 : items.find? (requestMatches device nodeInfo) = some cr := by
      rw [requestMatches_eq_decide]; exact hfirst
    rw [handleDevice_calls_of_match E r nodeInfo claims slices spec items device w w1
      counted cr hcount hfirst2, clampCount_eq_max]
    by_cases h1 : max counted (E.GetModelLimit nodeInfo device.CDIModelName).2 > cr.Size
    · have : max counted (E.GetModelLimit nodeInfo device.CDIModelName).2 ≠ cr.Size := by omega
      simp [h1, this]
    · by_cases h2 : max counted (E.GetModelLimit nodeInfo device.CDIModelName).2 < cr.Size
      · have : max counted (E.GetModelLimit nodeInfo device.CDIModelName).2 ≠ cr.Size := by omega
        simp [h1, h2, this]
      · have : max counted (E.GetModelLimit nodeInfo device.CDIModelName).2 = cr.Size := by omega
        simp [h1, h2, this]
  · intro call hcall
    unfold handleDevices at hcall
    rcases hl : E.ListComposabilityRequests w0 with ⟨res, w2⟩
    rw [hl] at hcall
    cases res with
    | error e => simp at hcall
    | ok its =>
      exact handleDevicesLoop_count_ge_min E r nodeInfo claims slices spec its spec.DeviceInfos
        w2 call hcall

/-- With one claimed device and a minimum of 2, the create issued for the sample
node has size `max 1 2`, which is at least 2. -/
theorem handleDevices_size_is_clamped_witness :
    (Call.DynamicAttach none 2 "gpu" "M" "node1").count = max 1 2 ∧
    (2 : Int) ≤ (Call.DynamicAttach none 2 "gpu" "M" "node1").count :=
  (handleDevices_size_is_clamped (sampleEnv 1 []) sampleReconciler sampleNode [] [] sampleSpec []
    ⟨1, "M", "m", "gpu.nvidia.com", []⟩ 0 0 1 1 rfl).1
    (Call.DynamicAttach none 2 "gpu" "M" "node1") (by decide)

/-! ## Theorems: UpdateNodeLabel -/

theorem notIn_eq_true_iff {α : Type} [DecidableEq α] (x : α) (xs : List α) :
    notIn x xs = true ↔ x ∉ xs := by
  simp [notIn]

theorem mem_installedFromRequests (nodeName m : String) (requests : List ComposabilityRequest)
    (acc : List String) :
    m ∈ installedFromRequests nodeName requests acc ↔
      m ∈ acc ∨ ∃ cr ∈ requests, cr.TargetNode = nodeName ∧ cr.Model = m ∧ 0 < cr.Size := by
  induction requests generalizing acc with
  | nil => simp [installedFromRequests]
  | cons cr rest ih =>
    simp only [installedFromRequests]
    split_ifs with h1 h2 h3
    · rw [ih]
      simp only [List.mem_append, List.mem_singleton, List.mem_cons, exists_eq_or_imp,
        List.not_mem_nil, or_false]
      constructor
      · rintro ((h | h) | h)
        · exact Or.inl h
        · exact Or.inr (Or.inl ⟨h1, h.symm, h2⟩)
        · exact Or.inr (Or.inr h)
      · rintro (h | ⟨-, h, -⟩ | h)
        · exact Or.inl (Or.inl h)
        · exact Or.inl (Or.inr h.symm)
        · exact Or.inr h
    · have h3m : cr.Model ∈ acc := by
        by_contra hc
        exact h3 ((notIn_eq_true_iff _ _).2 hc)
      rw [ih]
      simp only [List.mem_cons, exists_eq_or_imp]
      constructor
      · rintro (h | h)
        · exact Or.inl h
        · exact Or.inr (Or.inr h)
      · rintro (h | ⟨-, h, -⟩ | h)
        · exact Or.inl h
        · exact Or.inl (h ▸ h3m)
        · exact Or.inr h
    · rw [ih]
      simp only [List.mem_cons, exists_eq_or_imp]
      constructor
      · rintro (h | h)
        · exact Or.inl h
        · exact Or.inr (Or.inr h)
      · rintro (h | ⟨-, -, h⟩ | h)
        · exact Or.inl h
        · exact absurd h h2
        · exact Or.inr h
    · rw [ih]
      simp only [List.mem_cons, exists_eq_or_imp]
      constructor
      · rintro (h | h)
        · exact Or.inl h
        · exact Or.inr (Or.inr h)
      · rintro (h | ⟨h, -, -⟩ | h)
        · exact Or.inl h
        · exact absurd h h1
        · exact Or.inr h

theorem mem_installedFromResources (nodeName m : String) (resources : List ComposableResource)
    (acc : List String) :
    m ∈ installedFromResources nodeName resources acc ↔
      m ∈ acc ∨ ∃ rs ∈ resources, rs.TargetNode = nodeName ∧ rs.Model = m ∧
        rs.State = "Online" := by
  induction resources generalizing acc with
  | nil => simp [installedFromResources]
  | cons rs rest ih =>
    simp only [installedFromResources]
    split_ifs with h1 h2 h3
    · rw [ih]
      simp only [List.mem_append, List.mem_singleton, List.mem_cons, exists_eq_or_imp,
        List.not_mem_nil, or_false]
      constructor
      · rintro ((h | h) | h)
        · exact Or.inl h
        · exact Or.inr (Or.inl ⟨h1, h.symm, h2⟩)
        · exact Or.inr (Or.inr h)
      · rintro (h | ⟨-, h, -⟩ | h)
        · exact Or.inl (Or.inl h)
        · exact Or.inl (Or.inr h.symm)
        · exact Or.inr h
    · have h3m : rs.Model ∈ acc := by
        by_contra hc
        exact h3 ((notIn_eq_true_iff _ _).2 hc)
      rw [ih]
      simp only [List.mem_cons, exists_eq_or_imp]
      constructor
      · rintro (h | h)
        · exact Or.inl h
        · exact Or.inr (Or.inr h)
      · rintro (h | ⟨-, h, -⟩ | h)
        · exact Or.inl h
        · exact Or.inl (h ▸ h3m)
        · exact Or.inr h
    · rw [ih]
      simp only [List.mem_cons, exists_eq_or_imp]
      constructor
      · rintro (h | h)
        · exact Or.inl h
        · exact Or.inr (Or.inr h)
      · rintro (h | ⟨-, -, h⟩ | h)
        · exact Or.inl h
        · exact absurd h h2
        · exact Or.inr h
    · rw [ih]
      simp only [List.mem_cons, exists_eq_or_imp]
      constructor
      · rintro (h | h)
        · exact Or.inl h
        · exact Or.inr (Or.inr h)
      · rintro (h | ⟨h, -, -⟩ | h)
        · exact Or.inl h
        · exact absurd h h1
        · exact Or.inr h

theorem mem_notCoexistFor (device : String) (i : Int) (infos : List DeviceInfo)
    (acc : List Int) :
    i ∈ notCoexistFor device infos acc ↔
      i ∈ acc ∨ ∃ e ∈ infos, e.CDIModelName = device ∧ i ∈ e.CannotCoexistWith := by
  induction infos generalizing acc with
  | nil => simp [notCoexistFor]
  | cons e rest ih =>
    simp only [notCoexistFor]
    split_ifs with h
    · rw [ih]
      simp only [List.mem_append, List.mem_cons, exists_eq_or_imp]
      constructor
      · rintro ((h1 | h1) | h1)
        · exact Or.inl h1
        · exact Or.inr (Or.inl ⟨h.symm, h1⟩)
        · exact Or.inr (Or.inr h1)
      · rintro (h1 | ⟨-, h1⟩ | h1)
        · exact Or.inl (Or.inl h1)
        · exact Or.inl (Or.inr h1)
        · exact Or.inr h1
    · rw [ih]
      simp only [List.mem_cons, exists_eq_or_imp]
      constructor
      · rintro (h1 | h1)
        · exact Or.inl h1
        · exact Or.inr (Or.inr h1)
      · rintro (h1 | ⟨h1, -⟩ | h1)
        · exact Or.inl h1
        · exact absurd h1.symm h
        · exact Or.inr h1

theorem mem_notCoexistIDs (spec : ComposableDRASpec) (i : Int) (installed : List String)
    (acc : List Int) :
    i ∈ notCoexistIDs spec installed acc ↔
      i ∈ acc ∨ ∃ m ∈ installed, ∃ e ∈ spec.DeviceInfos,
        e.CDIModelName = m ∧ i ∈ e.CannotCoexistWith := by
  induction installed generalizing acc with
  | nil => simp [notCoexistIDs]
  | cons d rest ih =>
    simp only [notCoexistIDs]
    rw [ih, mem_notCoexistFor]
    simp only [List.mem_cons, exists_eq_or_imp]
    constructor
    · rintro ((h1 | h1) | h1)
      · exact Or.inl h1
      · exact Or.inr (Or.inl h1)
      · exact Or.inr (Or.inr h1)
    · rintro (h1 | h1 | h1)
      · exact Or.inl (Or.inl h1)
      · exact Or.inl (Or.inr h1)
      · exact Or.inr h1

theorem splitLabels_eq (spec : ComposableDRASpec) (ids : List Int) (infos : List DeviceInfo)
    (addLabels deleteLabels : List String) :
    splitLabels spec ids infos (addLabels, deleteLabels) =
      (addLabels ++ (infos.filter (fun e => notIn e.Index ids)).map
          (fun e => spec.LabelPrefix ++ "/" ++ e.K8sDeviceName),
       deleteLabels ++ (infos.filter (fun e => !notIn e.Index ids)).map
          (fun e => spec.LabelPrefix ++ "/" ++ e.K8sDeviceName)) := by
  induction infos generalizing addLabels deleteLabels with
  | nil => simp [splitLabels]
  | cons e rest ih =>
    unfold splitLabels
    by_cases h : notIn e.Index ids = true
    · simp [h, ih, List.filter_cons]
    · simp [h, ih, List.filter_cons]

theorem notIn_notCoexistIDs (spec : ComposableDRASpec) (installed : List String)
    (e : DeviceInfo) :
    notIn e.Index (notCoexistIDs spec installed []) =
      decide (¬ ∃ m ∈ installed, ∃ e2 ∈ spec.DeviceInfos,
        e2.CDIModelName = m ∧ e.Index ∈ e2.CannotCoexistWith) := by
  by_cases h : ∃ m ∈ installed, ∃ e2 ∈ spec.DeviceInfos,
      e2.CDIModelName = m ∧ e.Index ∈ e2.CannotCoexistWith
  · have hm : e.Index ∈ notCoexistIDs spec installed [] :=
      (mem_notCoexistIDs spec e.Index installed []).2 (Or.inr h)
    have hn : ¬ notIn e.Index (notCoexistIDs spec installed []) = true :=
      fun hh => (notIn_eq_true_iff _ _).1 hh hm
    rw [Bool.not_eq_true] at hn
    rw [hn]
    simp only [h, not_true_eq_false, decide_False]
  · have hm : e.Index ∉ notCoexistIDs spec installed [] := by
      intro hh
      rcases (mem_notCoexistIDs spec e.Index installed []).1 hh with h1 | h1
      · simp at h1
      · exact h h1
    rw [(notIn_eq_true_iff _ _).2 hm]
    simp only [h, not_false_eq_true, decide_True]

theorem nodeLabelLists_eq (nodeName : String) (spec : ComposableDRASpec)
    (requests : List ComposabilityRequest) (resources : List ComposableResource) :
    nodeLabelLists nodeName spec requests resources =
      ((spec.DeviceInfos.filter (fun e =>
          decide (¬ ∃ m ∈ installedDevices nodeName requests resources,
            ∃ e2 ∈ spec.DeviceInfos, e2.CDIModelName = m ∧ e.Index ∈ e2.CannotCoexistWith))).map
          (fun e => spec.LabelPrefix ++ "/" ++ e.K8sDeviceName),
       (spec.DeviceInfos.filter (fun e =>
          decide (∃ m ∈ installedDevices nodeName requests resources,
            ∃ e2 ∈ spec.DeviceInfos, e2.CDIModelName = m ∧ e.Index ∈ e2.CannotCoexistWith))).map
          (fun e => spec.LabelPrefix ++ "/" ++ e.K8sDeviceName)) := by
  unfold nodeLabelLists
  rw [splitLabels_eq]
  simp only [List.nil_append, notIn_notCoexistIDs]
  congr 2
  apply List.filter_congr
  intro e _
  by_cases h : ∃ m ∈ installedDevices nodeName requests resources,
      ∃ e2 ∈ spec.DeviceInfos, e2.CDIModelName = m ∧ e.Index ∈ e2.CannotCoexistWith
  · simp only [h, not_true_eq_false, decide_False, decide_True, Bool.not_false]
  · simp only [h, not_false_eq_true, decide_True, decide_False, Bool.not_true]

/-- A catalog index is excluded by a model of the list `installedDevices` exactly
when it is excluded by a model of a listed request of positive size or of a listed
provisioned device that is online, on the node. -/
theorem excluded_iff_installed (nodeName : String) (spec : ComposableDRASpec)
    (requests : List ComposabilityRequest) (resources : List ComposableResource) (i : Int) :
    (∃ m ∈ installedDevices nodeName requests resources, ∃ e2 ∈ spec.DeviceInfos,
      e2.CDIModelName = m ∧ i ∈ e2.CannotCoexistWith) ↔
      IsExcluded nodeName spec requests resources i := by
  have hmem : ∀ m, m ∈ installedDevices nodeName requests resources ↔
      (∃ cr ∈ requests, cr.TargetNode = nodeName ∧ cr.Model = m ∧ 0 < cr.Size) ∨
      (∃ rs ∈ resources, rs.TargetNode = nodeName ∧ rs.Model = m ∧ rs.State = "Online") := by
    intro m
    unfold installedDevices
    rw [mem_installedFromResources, mem_installedFromRequests]
    simp
  constructor
  · rintro ⟨m, hm, e2, he2, hmodel, hi⟩
    rcases (hmem m).1 hm with ⟨cr, hcr, hnode, hcm, hsize⟩ | ⟨rs, hrs, hnode, hrm, hstate⟩
    · exact Or.inl ⟨cr, hcr, hnode, hsize, e2, he2, hmodel.trans hcm.symm, hi⟩
    · exact Or.inr ⟨rs, hrs, hnode, hstate, e2, he2, hmodel.trans hrm.symm, hi⟩
  · rintro (⟨cr, hcr, hnode, hsize, e2, he2, hmodel, hi⟩ |
      ⟨rs, hrs, hnode, hstate, e2, he2, hmodel, hi⟩)
    · exact ⟨cr.Model, (hmem _).2 (Or.inl ⟨cr, hcr, hnode, rfl, hsize⟩), e2, he2, hmodel, hi⟩
    · exact ⟨rs.Model, (hmem _).2 (Or.inr ⟨rs, hrs, hnode, rfl, hstate⟩), e2, he2, hmodel, hi⟩

/-- The two label lists, said with the listed requests and provisioned devices. -/
theorem nodeLabelLists_eq_excluded (nodeName : String) (spec : ComposableDRASpec)
    (requests : List ComposabilityRequest) (resources : List ComposableResource) :
    nodeLabelLists nodeName spec requests resources =
      ((spec.DeviceInfos.filter (fun e =>
          decide (¬ IsExcluded nodeName spec requests resources e.Index))).map
          (fun e => spec.LabelPrefix ++ "/" ++ e.K8sDeviceName),
       (spec.DeviceInfos.filter (fun e =>
          decide (IsExcluded nodeName spec requests resources e.Index))).map
          (fun e => spec.LabelPrefix ++ "/" ++ e.K8sDeviceName)) := by
  rw [nodeLabelLists_eq]
  congr 2
  · apply List.filter_congr
    intro e _
    simp only [excluded_iff_installed nodeName spec requests resources e.Index]
  · apply List.filter_congr
    intro e _
    simp only [excluded_iff_installed nodeName spec requests resources e.Index]

/-- A label is in the map of a filtered catalog exactly when its entry passes the
filter, provided the filter looks at the index only and entries of the same
K8sDeviceName have the same index. -/
theorem label_mem_filter_iff (spec : ComposableDRASpec) (P : Int → Prop) [DecidablePred P]
    (hnames : ∀ e1 ∈ spec.DeviceInfos, ∀ e2 ∈ spec.DeviceInfos,
      e1.K8sDeviceName = e2.K8sDeviceName → e1.Index = e2.Index)
    (e : DeviceInfo) (he : e ∈ spec.DeviceInfos) :
    spec.LabelPrefix ++ "/" ++ e.K8sDeviceName ∈
        (spec.DeviceInfos.filter (fun x => decide (P x.Index))).map
          (fun x => spec.LabelPrefix ++ "/" ++ x.K8sDeviceName) ↔ P e.Index := by
  rw [List.mem_map]
  constructor
  · rintro ⟨x, hx, hlabel⟩
    rw [List.mem_filter] at hx
    have hname : x.K8sDeviceName = e.K8sDeviceName := by
      apply String.ext
      have hdata := congrArg String.data hlabel
      simpa using hdata
    rw [← hnames x hx.1 e he hname]
    simpa using hx.2
  · intro hp
    exact ⟨e, List.mem_filter.2 ⟨he, by simpa using hp⟩, rfl⟩

/-- C4 (as amended): when both listings succeed, `UpdateNodeLabel` hands
`patchNodeLabel` the add list and the delete list it has computed. For every catalog
entry `e`, in catalog order, the label `LabelPrefix + "/" + e.K8sDeviceName` is
appended to the add list if no model installed on the node (a listed request of
Size > 0 or a listed provisioned device that is Online, with TargetNode the node) is
the CDIModelName of a catalog entry whose CannotCoexistWith contains `e.Index`, and
to the delete list otherwise; so each entry contributes its label to exactly one of
the two lists. When catalog entries of the same K8sDeviceName have the same Index
(in particular when the K8sDeviceNames are distinct), the label of `e` is in the
add list if and only if `e.Index` is not excluded, in the delete list if and only if
it is excluded, and in exactly one of the two. -/
theorem UpdateNodeLabel_label_lists {σ : Type} (C : Client σ) (nodeName : String)
    (spec : ComposableDRASpec) (w w1 w2 : σ) (requests : List ComposabilityRequest)
    (resources : List ComposableResource)
    (hreq : C.ListComposabilityRequests w = (.ok requests, w1))
    (hres : C.ListComposableResources w1 = (.ok resources, w2)) :
    UpdateNodeLabel C nodeName spec w =
      patchNodeLabel C nodeName
        ((spec.DeviceInfos.filter (fun e =>
          decide (¬ IsExcluded nodeName spec requests resources e.Index))).map
          (fun e => spec.LabelPrefix ++ "/" ++ e.K8sDeviceName))
        ((spec.DeviceInfos.filter (fun e =>
          decide (IsExcluded nodeName spec requests resources e.Index))).map
          (fun e => spec.LabelPrefix ++ "/" ++ e.K8sDeviceName)) w2 ∧
    ((spec.DeviceInfos.filter (fun e =>
        decide (¬ IsExcluded nodeName spec requests resources e.Index))).length +
      (spec.DeviceInfos.filter (fun e =>
        decide (IsExcluded nodeName spec requests resources e.Index))).length =
      spec.DeviceInfos.length) ∧
    ((∀ e1 ∈ spec.DeviceInfos, ∀ e2 ∈ spec.DeviceInfos,
        e1.K8sDeviceName = e2.K8sDeviceName → e1.Index = e2.Index) →
      ∀ e ∈ spec.DeviceInfos,
        (spec.LabelPrefix ++ "/" ++ e.K8sDeviceName ∈
            (spec.DeviceInfos.filter (fun e =>
              decide (¬ IsExcluded nodeName spec requests resources e.Index))).map
              (fun e => spec.LabelPrefix ++ "/" ++ e.K8sDeviceName) ↔
          ¬ IsExcluded nodeName spec requests resources e.Index) ∧
        (spec.LabelPrefix ++ "/" ++ e.K8sDeviceName ∈
            (spec.DeviceInfos.filter (fun e =>
              decide (IsExcluded nodeName spec requests resources e.Index))).map
              (fun e => spec.LabelPrefix ++ "/" ++ e.K8sDeviceName) ↔
          IsExcluded nodeName spec requests resources e.Index)) := by
  refine ⟨?_, ?_, ?_⟩
  · have hlists := nodeLabelLists_eq_excluded nodeName spec requests resources
    unfold UpdateNodeLabel
    rw [hreq]
    simp only
    rw [hres]
    simp only
    rw [hlists]
  · have := List.length_eq_length_filter_add (l := spec.DeviceInfos) (fun e =>
      decide (¬ IsExcluded nodeName spec requests resources e.Index))
    rw [this]
    congr 2
    apply List.filter_congr
    intro e _
    by_cases h : IsExcluded nodeName spec requests resources e.Index
    · simp only [h, not_true_eq_false, decide_False, decide_True, Bool.not_false]
    · simp only [h, not_false_eq_true, decide_True, decide_False, Bool.not_true]
  · intro hnames e he
    exact ⟨label_mem_filter_iff spec
        (fun i => ¬ IsExcluded nodeName spec requests resources i) hnames e he,
      label_mem_filter_iff spec
        (fun i => IsExcluded nodeName spec requests resources i) hnames e he⟩

/-- C4 at a concrete run: a request of size 1 for model `A` targets `node1` and `A`
excludes index 2; the body of the one patch sent to the node adds the label of `A`
and deletes the label of `B`. -/
theorem UpdateNodeLabel_label_lists_witness :
    UpdateNodeLabel (labelClient [⟨"req", "A", "node1", 1, "gpu"⟩] []) "node1" sampleCatalog [] =
      patchNodeLabel (labelClient [⟨"req", "A", "node1", 1, "gpu"⟩] []) "node1"
        ["p/a"] ["p/b"] [] ∧
    (UpdateNodeLabel (labelClient [⟨"req", "A", "node1", 1, "gpu"⟩] []) "node1" sampleCatalog
      []).world = ["add p/a; delete p/b;"] := by
  have h := (UpdateNodeLabel_label_lists (labelClient [⟨"req", "A", "node1", 1, "gpu"⟩] [])
    "node1" sampleCatalog [] [] [] [⟨"req", "A", "node1", 1, "gpu"⟩] [] rfl rfl).1
  refine ⟨?_, ?_⟩
  · rw [h]
    decide
  · decide

/-- C4 as stated fails: in `duplicateNameCatalog` the entries of index 1 and 2 have
the same label `p/x`; with model `A` installed on `node1`, index 2 is excluded and
index 1 is not, so the label is handed over in the add list and in the delete list:
the label of the excluded entry is in the add list, and it is not in exactly one of
the two lists. -/
theorem UpdateNodeLabel_duplicate_name_counterexample :
    nodeLabelLists "node1" duplicateNameCatalog [⟨"req", "A", "node1", 1, "gpu"⟩] [] =
      (["p/x"], ["p/x"]) ∧
    UpdateNodeLabel (labelClient [⟨"req", "A", "node1", 1, "gpu"⟩] []) "node1"
        duplicateNameCatalog [] =
      patchNodeLabel (labelClient [⟨"req", "A", "node1", 1, "gpu"⟩] []) "node1"
        ["p/x"] ["p/x"] [] ∧
    IsExcluded "node1" duplicateNameCatalog [⟨"req", "A", "node1", 1, "gpu"⟩] [] 2 ∧
    ¬ (∀ e ∈ duplicateNameCatalog.DeviceInfos,
        (duplicateNameCatalog.LabelPrefix ++ "/" ++ e.K8sDeviceName ∈
            (nodeLabelLists "node1" duplicateNameCatalog
              [⟨"req", "A", "node1", 1, "gpu"⟩] []).1 ↔
          ¬ IsExcluded "node1" duplicateNameCatalog [⟨"req", "A", "node1", 1, "gpu"⟩] []
            e.Index)) := by
  refine ⟨?_, ?_, ?_, ?_⟩ <;> decide

/-- C5 (as amended): a model is in the installed set that `UpdateNodeLabel` builds
for node `nodeName` iff some listed request with TargetNode `nodeName` has that
Model and a Size greater than 0, or some listed provisioned device with TargetNode
`nodeName` has that Model and State "Online"; requests and devices that target
other nodes do not contribute. -/
theorem mem_installedDevices_iff (nodeName m : String) (requests : List ComposabilityRequest)
    (resources : List ComposableResource) :
    m ∈ installedDevices nodeName requests resources ↔
      (∃ cr ∈ requests, cr.TargetNode = nodeName ∧ cr.Model = m ∧ 0 < cr.Size) ∨
      (∃ rs ∈ resources, rs.TargetNode = nodeName ∧ rs.Model = m ∧ rs.State = "Online") := by
  unfold installedDevices
  rw [mem_installedFromResources, mem_installedFromRequests]
  simp

/-- C5 as stated fails: a request of Size -1 for model `M` on `node1` has a non-zero
Size, yet `M` is not in the installed set of `node1`. -/
theorem installedDevices_nonzero_size_counterexample :
    ¬ ("M" ∈ installedDevices "node1" [⟨"req", "M", "node1", -1, "gpu"⟩] [] ↔
      (∃ cr ∈ [(⟨"req", "M", "node1", -1, "gpu"⟩ : ComposabilityRequest)],
        cr.TargetNode = "node1" ∧ cr.Model = "M" ∧ cr.Size ≠ 0) ∨
      (∃ rs ∈ ([] : List ComposableResource),
        rs.TargetNode = "node1" ∧ rs.Model = "M" ∧ rs.State = "Online")) := by
  decide

/-! ## Theorems: the retry loops of patch_utils.go -/

/-- Every run of the retry loop of `patchNodeLabel` has one of five shapes. -/
theorem patchNodeLabelLoop_runs {σ : Type} (C : Client σ) (nodeName patchBytes : String)
    (w : σ) :
    (∃ w1, patchNodeLabelLoop C nodeName patchBytes maxRetries none w =
        ⟨none, w1, [.Patch nodeName none]⟩) ∨
    (∃ e w1, e.IsConflict = false ∧
      patchNodeLabelLoop C nodeName patchBytes maxRetries none w =
        ⟨some (.wrapped "patch failed" e), w1, [.Patch nodeName (some e)]⟩) ∨
    (∃ e1 w1, e1.IsConflict = true ∧
      patchNodeLabelLoop C nodeName patchBytes maxRetries none w =
        ⟨none, w1, [.Patch nodeName (some e1), .Patch nodeName none]⟩) ∨
    (∃ e1 e2 w1, e1.IsConflict = true ∧ e2.IsConflict = false ∧
      patchNodeLabelLoop C nodeName patchBytes maxRetries none w =
        ⟨some (.wrapped "patch failed" e2), w1,
          [.Patch nodeName (some e1), .Patch nodeName (some e2)]⟩) ∨
    (∃ e1 e2 w1, e1.IsConflict = true ∧ e2.IsConflict = true ∧
      patchNodeLabelLoop C nodeName patchBytes maxRetries none w =
        ⟨some (.maxRetriesReached maxRetries (some e2)), w1,
          [.Patch nodeName (some e1), .Patch nodeName (some e2)]⟩) := by
  simp only [maxRetries, patchNodeLabelLoop]
  rcases C.PatchNode w nodeName patchBytes with ⟨_ | e1, w1⟩
  · exact Or.inl ⟨w1, rfl⟩
  · cases h1 : e1.IsConflict with
    | false =>
      exact Or.inr (Or.inl ⟨e1, w1, h1, by simp [h1]⟩)
    | true =>
      rcases h : C.PatchNode w1 nodeName patchBytes with ⟨_ | e2, w2⟩
      · exact Or.inr (Or.inr (Or.inl ⟨e1, w2, h1, by simp [h1, h, PatchOutcome.after]⟩))
      · cases h2 : e2.IsConflict with
        | false =>
          exact Or.inr (Or.inr (Or.inr (Or.inl ⟨e1, e2, w2, h1, h2,
            by simp [h1, h, h2, PatchOutcome.after]⟩)))
        | true =>
          exact Or.inr (Or.inr (Or.inr (Or.inr ⟨e1, e2, w2, h1, h2,
            by simp [h1, h, h2, PatchOutcome.after]⟩)))

theorem PatchComposableResourceAnnotationLoop_last {σ : Type} (C : Client σ)
    (resourceName key value patchBytes : String) (lastErr : Option Error) (w : σ) :
    IsLastAttempt resourceName
        (PatchComposableResourceAnnotationLoop C resourceName key value patchBytes 1 lastErr w).err
        (PatchComposableResourceAnnotationLoop C resourceName key value patchBytes 1
          lastErr w).trace ∨
    ∃ e, e.IsConflict = true ∧
      (PatchComposableResourceAnnotationLoop C resourceName key value patchBytes 1 lastErr w).err =
        some (.maxRetriesReached 2 (some e)) ∧
      (PatchComposableResourceAnnotationLoop C resourceName key value patchBytes 1
        lastErr w).trace = [.Get resourceName none, .Patch resourceName (some e)] := by
  simp only [PatchComposableResourceAnnotationLoop]
  rcases C.GetComposableResource w resourceName with ⟨e | cr, w1⟩
  · exact Or.inl (Or.inl ⟨_, e, rfl, rfl⟩)
  · cases ha : annotationIs cr key value with
    | true => exact Or.inl (Or.inr (Or.inl ⟨by simp [ha], by simp [ha]⟩))
    | false =>
      rcases hp : C.PatchComposableResource w1 resourceName patchBytes with ⟨_ | e, w2⟩
      · exact Or.inl (Or.inr (Or.inr (Or.inr (Or.inl ⟨by simp [ha, hp], by simp [ha, hp]⟩))))
      · cases hc : e.IsConflict with
        | false =>
          exact Or.inl (Or.inr (Or.inr (Or.inr (Or.inr
            ⟨"failed to patch ComposableResource", e, hc, by simp [ha, hp, hc],
              by simp [ha, hp, hc]⟩))))
        | true =>
          exact Or.inr ⟨e, hc, by simp [ha, hp, hc, PatchOutcome.after, maxRetries],
            by simp [ha, hp, hc, PatchOutcome.after]⟩

theorem PatchComposableResourceAnnotation_run {σ : Type} (C : Client σ)
    (resourceName key value : String) (w : σ) :
    IsReadPatchRun resourceName ( PatchComposableResourceAnnotation C resourceName key value w).err
      ( PatchComposableResourceAnnotation C resourceName key value w).trace := by
  unfold PatchComposableResourceAnnotation
  rw [show maxRetries = 1 + 1 from rfl, PatchComposableResourceAnnotationLoop]
  rcases C.GetComposableResource w resourceName with ⟨e | cr, w1⟩
  · exact Or.inl (Or.inl ⟨_, e, rfl, rfl⟩)
  · cases ha : annotationIs cr key value with
    | true => exact Or.inl (Or.inr (Or.inl ⟨by simp [ha], by simp [ha]⟩))
    | false =>
      rcases hp : C.PatchComposableResource w1 resourceName (C.MarshalAnnotationBody key value)
        with ⟨_ | e, w2⟩
      · exact Or.inl (Or.inr (Or.inr (Or.inr (Or.inl ⟨by simp [ha, hp], by simp [ha, hp]⟩))))
      · cases hc : e.IsConflict with
        | false =>
          exact Or.inl (Or.inr (Or.inr (Or.inr (Or.inr
            ⟨"failed to patch ComposableResource", e, hc, by simp [ha, hp, hc],
              by simp [ha, hp, hc]⟩))))
        | true =>
          refine Or.inr ⟨e, _, hc, by simp [ha, hp, hc, PatchOutcome.after]; rfl, ?_⟩
          simp only [ha, hp, hc, Bool.false_eq_true, if_false, if_true, PatchOutcome.after]
          rcases PatchComposableResourceAnnotationLoop_last C resourceName key value
            (C.MarshalAnnotationBody key value) (some e) w2 with h | ⟨e2, h2, h3, h4⟩
          · exact Or.inl h
          · exact Or.inr ⟨e2, h2, h4, h3⟩

theorem PatchComposabilityRequestSizeLoop_last {σ : Type} (C : Client σ)
    (requestName : String) (count : Int) (lastErr : Option Error) (w : σ) :
    IsLastAttempt requestName
        (PatchComposabilityRequestSizeLoop C requestName count 1 lastErr w).err
        (PatchComposabilityRequestSizeLoop C requestName count 1 lastErr w).trace ∨
    ∃ e, e.IsConflict = true ∧
      (PatchComposabilityRequestSizeLoop C requestName count 1 lastErr w).err =
        some (.maxRetriesReached 2 (some e)) ∧
      (PatchComposabilityRequestSizeLoop C requestName count 1 lastErr w).trace =
        [.Get requestName none, .Patch requestName (some e)] := by
  simp only [PatchComposabilityRequestSizeLoop]
  rcases C.GetComposabilityRequest w requestName with ⟨e | cr, w1⟩
  · exact Or.inl (Or.inl ⟨_, e, rfl, rfl⟩)
  · cases hm : C.MarshalSize count with
    | error e => exact Or.inl (Or.inr (Or.inr (Or.inl ⟨_, e, rfl, rfl⟩)))
    | ok patchBytes =>
      rcases hp : C.PatchComposabilityRequest w1 cr patchBytes with ⟨_ | e, w2⟩
      · exact Or.inl (Or.inr (Or.inr (Or.inr (Or.inl ⟨by simp [hp], by simp [hp]⟩))))
      · cases hc : e.IsConflict with
        | false =>
          exact Or.inl (Or.inr (Or.inr (Or.inr (Or.inr
            ⟨"failed to patch ComposabilityRequest", e, hc, by simp [hp, hc],
              by simp [hp, hc]⟩))))
        | true =>
          exact Or.inr ⟨e, hc, by simp [hp, hc, PatchOutcome.after, maxRetries],
            by simp [hp, hc, PatchOutcome.after]⟩

theorem PatchComposabilityRequestSize_run {σ : Type} (C : Client σ)
    (requestName : String) (count : Int) (w : σ) :
    IsReadPatchRun requestName (PatchComposabilityRequestSize C requestName count w).err
      (PatchComposabilityRequestSize C requestName count w).trace := by
  unfold PatchComposabilityRequestSize
  rw [show maxRetries = 1 + 1 from rfl, PatchComposabilityRequestSizeLoop]
  rcases C.GetComposabilityRequest w requestName with ⟨e | cr, w1⟩
  · exact Or.inl (Or.inl ⟨_, e, rfl, rfl⟩)
  · cases hm : C.MarshalSize count with
    | error e => exact Or.inl (Or.inr (Or.inr (Or.inl ⟨_, e, rfl, rfl⟩)))
    | ok patchBytes =>
      rcases hp : C.PatchComposabilityRequest w1 cr patchBytes with ⟨_ | e, w2⟩
      · exact Or.inl (Or.inr (Or.inr (Or.inr (Or.inl ⟨by simp [hp], by simp [hp]⟩))))
      · cases hc : e.IsConflict with
        | false =>
          exact Or.inl (Or.inr (Or.inr (Or.inr (Or.inr
            ⟨"failed to patch ComposabilityRequest", e, hc, by simp [hp, hc],
              by simp [hp, hc]⟩))))
        | true =>
          refine Or.inr ⟨e, _, hc, by simp [hp, hc, PatchOutcome.after]; rfl, ?_⟩
          simp only [hp, hc, Bool.false_eq_true, if_false, if_true, PatchOutcome.after]
          rcases PatchComposabilityRequestSizeLoop_last C requestName count (some e) w2
            with h | ⟨e2, h2, h3, h4⟩
          · exact Or.inl h
          · exact Or.inr ⟨e2, h2, h4, h3⟩

theorem PatchResourceClaimDeviceConditionsLoop_last {σ : Type} (C : Client σ)
    (name ns conditionType : String) (lastErr : Option Error) (w : σ) :
    IsLastAttempt name
        (PatchResourceClaimDeviceConditionsLoop C name ns conditionType 1 lastErr w).err
        (PatchResourceClaimDeviceConditionsLoop C name ns conditionType 1 lastErr w).trace ∨
    ∃ e, e.IsConflict = true ∧
      (PatchResourceClaimDeviceConditionsLoop C name ns conditionType 1 lastErr w).err =
        some (.maxRetriesReached 2 (some e)) ∧
      (PatchResourceClaimDeviceConditionsLoop C name ns conditionType 1 lastErr w).trace =
        [.Get name none, .Patch name (some e)] := by
  simp only [PatchResourceClaimDeviceConditionsLoop]
  rcases C.GetResourceClaim w name ns with ⟨e | rc, w1⟩
  · exact Or.inl (Or.inl ⟨_, e, rfl, rfl⟩)
  · rcases hs : setDeviceConditions C conditionType rc.Devices w1 with ⟨devices, w2⟩
    rcases hp : C.PatchResourceClaim w2 { rc with Devices := devices } rc with ⟨_ | e, w3⟩
    · exact Or.inl (Or.inr (Or.inr (Or.inr (Or.inl ⟨by simp [hs, hp], by simp [hs, hp]⟩))))
    · cases hc : e.IsConflict with
      | false =>
        exact Or.inl (Or.inr (Or.inr (Or.inr (Or.inr
          ⟨"failed to patch ResourceClaim status", e, hc, by simp [hs, hp, hc],
            by simp [hs, hp, hc]⟩))))
      | true =>
        exact Or.inr ⟨e, hc, by simp [hs, hp, hc, PatchOutcome.after, maxRetries],
          by simp [hs, hp, hc, PatchOutcome.after]⟩

theorem PatchResourceClaimDeviceConditions_run {σ : Type} (C : Client σ)
    (name ns conditionType : String) (w : σ) :
    IsReadPatchRun name (PatchResourceClaimDeviceConditions C name ns conditionType w).err
      (PatchResourceClaimDeviceConditions C name ns conditionType w).trace := by
  unfold PatchResourceClaimDeviceConditions
  rw [show maxRetries = 1 + 1 from rfl, PatchResourceClaimDeviceConditionsLoop]
  rcases C.GetResourceClaim w name ns with ⟨e | rc, w1⟩
  · exact Or.inl (Or.inl ⟨_, e, rfl, rfl⟩)
  · rcases hs : setDeviceConditions C conditionType rc.Devices w1 with ⟨devices, w2⟩
    rcases hp : C.PatchResourceClaim w2 { rc with Devices := devices } rc with ⟨_ | e, w3⟩
    · exact Or.inl (Or.inr (Or.inr (Or.inr (Or.inl ⟨by simp [hs, hp], by simp [hs, hp]⟩))))
    · cases hc : e.IsConflict with
      | false =>
        exact Or.inl (Or.inr (Or.inr (Or.inr (Or.inr
          ⟨"failed to patch ResourceClaim status", e, hc, by simp [hs, hp, hc],
            by simp [hs, hp, hc]⟩))))
      | true =>
        refine Or.inr ⟨e, _, hc, by simp [hs, hp, hc, PatchOutcome.after]; rfl, ?_⟩
        simp only [hs, hp, hc, Bool.false_eq_true, if_false, if_true, PatchOutcome.after]
        rcases PatchResourceClaimDeviceConditionsLoop_last C name ns conditionType (some e) w3
          with h | ⟨e2, h2, h3, h4⟩
        · exact Or.inl h
        · exact Or.inr ⟨e2, h2, h4, h3⟩

theorem patchNodeLabel_run {σ : Type} (C : Client σ) (nodeName : String)
    (addLabels deleteLabels : List String) (w : σ) :
    IsPatchOnlyRun nodeName (patchNodeLabel C nodeName addLabels deleteLabels w).err
      (patchNodeLabel C nodeName addLabels deleteLabels w).trace := by
  unfold patchNodeLabel
  cases hm : C.MarshalLabels addLabels deleteLabels with
  | error e => exact Or.inl ⟨_, e, rfl, rfl⟩
  | ok patchBytes =>
    simp only
    rcases patchNodeLabelLoop_runs C nodeName patchBytes w with
      ⟨w1, h⟩ | ⟨e, w1, hc, h⟩ | ⟨e1, w1, hc, h⟩ | ⟨e1, e2, w1, hc1, hc2, h⟩ |
      ⟨e1, e2, w1, hc1, hc2, h⟩
    · rw [h]; exact Or.inr (Or.inl ⟨rfl, rfl⟩)
    · rw [h]; exact Or.inr (Or.inr (Or.inl ⟨_, e, hc, rfl, rfl⟩))
    · rw [h]; exact Or.inr (Or.inr (Or.inr (Or.inl ⟨e1, hc, rfl, rfl⟩)))
    · rw [h]; exact Or.inr (Or.inr (Or.inr (Or.inr (Or.inl ⟨_, e1, e2, hc1, hc2, rfl, rfl⟩))))
    · rw [h]; exact Or.inr (Or.inr (Or.inr (Or.inr (Or.inr ⟨e1, e2, hc1, hc2, rfl, rfl⟩))))

theorem MutationHelper_run_shape {σ : Type} (C : Client σ) (h : MutationHelper) (w : σ) :
    (h.reads = true ∧ IsReadPatchRun h.target (h.run C w).err (h.run C w).trace) ∨
    (h.reads = false ∧ IsPatchOnlyRun h.target (h.run C w).err (h.run C w).trace) := by
  cases h with
  | forNodeLabel nodeName addLabels deleteLabels =>
    exact Or.inr ⟨rfl, patchNodeLabel_run C nodeName addLabels deleteLabels w⟩
  | forResource resourceName key value =>
    exact Or.inl ⟨rfl, PatchComposableResourceAnnotation_run C resourceName key value w⟩
  | forRequestSize requestName count =>
    exact Or.inl ⟨rfl, PatchComposabilityRequestSize_run C requestName count w⟩
  | forClaimConditions name ns conditionType =>
    exact Or.inl ⟨rfl, PatchResourceClaimDeviceConditions_run C name ns conditionType w⟩

/-- The retry budget and the two ways out of it, for a run that reads before it
patches. -/
theorem readPatchRun_budget (name : String) (err : Option HelperError) (t : List ApiCall)
    (h : IsReadPatchRun name err t) :
    (t.filter ApiCall.isPatch).length ≤ 2 ∧
    (∀ e1 e2, (t.filter ApiCall.isPatch).map ApiCall.result = [some e1, some e2] →
      e1.IsConflict = true → e2.IsConflict = true →
      err = some (.maxRetriesReached 2 (some e2))) ∧
    (∀ c ∈ t.dropLast, ¬ (c.isPatch = true ∧ c.result = none)) ∧
    (∀ c, t.getLast? = some c → c.isPatch = true → c.result = none → err = none) := by
  rcases h with
    (⟨ctx, e, rfl, rfl⟩ | ⟨rfl, rfl⟩ | ⟨ctx, e, rfl, rfl⟩ | ⟨rfl, rfl⟩ | ⟨ctx, e, hc, rfl, rfl⟩) |
    ⟨e1, t2, hc1, rfl,
      (⟨ctx, e, rfl, rfl⟩ | ⟨rfl, rfl⟩ | ⟨ctx, e, rfl, rfl⟩ | ⟨rfl, rfl⟩ |
        ⟨ctx, e, hc, rfl, rfl⟩) | ⟨e2, hc2, rfl, rfl⟩⟩
  all_goals
    simp [ApiCall.isPatch, ApiCall.result, List.filter, List.dropLast, List.getLast?]
  all_goals (intros; assumption)

/-- The retry budget and the two ways out of it, for a run of `patchNodeLabel`. -/
theorem patchOnlyRun_budget (name : String) (err : Option HelperError) (t : List ApiCall)
    (h : IsPatchOnlyRun name err t) :
    (t.filter ApiCall.isPatch).length ≤ 2 ∧
    (∀ e1 e2, (t.filter ApiCall.isPatch).map ApiCall.result = [some e1, some e2] →
      e1.IsConflict = true → e2.IsConflict = true →
      err = some (.maxRetriesReached 2 (some e2))) ∧
    (∀ c ∈ t.dropLast, ¬ (c.isPatch = true ∧ c.result = none)) ∧
    (∀ c, t.getLast? = some c → c.isPatch = true → c.result = none → err = none) := by
  rcases h with
    ⟨ctx, e, rfl, rfl⟩ | ⟨rfl, rfl⟩ | ⟨ctx, e, hc, rfl, rfl⟩ | ⟨e1, hc1, rfl, rfl⟩ |
    ⟨ctx, e1, e2, hc1, hc2, rfl, rfl⟩ | ⟨e1, e2, hc1, hc2, rfl, rfl⟩
  all_goals
    simp [ApiCall.isPatch, ApiCall.result, List.filter, List.dropLast, List.getLast?]
  all_goals (intros; assumption)

/-- A failed read or a patch failure that is no conflict ends a run that reads
before it patches. -/
theorem readPatchRun_fatal (name : String) (err : Option HelperError) (t : List ApiCall)
    (h : IsReadPatchRun name err t) :
    (∀ c ∈ t.dropLast, ∀ e, c.result = some e → c.isPatch = true ∧ e.IsConflict = true) ∧
    (∀ c, t.getLast? = some c → ∀ e, c.result = some e →
      (c.isGet = true ∨ e.IsConflict = false) → ∃ ctx, err = some (.wrapped ctx e)) := by
  rcases h with
    (⟨ctx, e, rfl, rfl⟩ | ⟨rfl, rfl⟩ | ⟨ctx, e, rfl, rfl⟩ | ⟨rfl, rfl⟩ | ⟨ctx, e, hc, rfl, rfl⟩) |
    ⟨e1, t2, hc1, rfl,
      (⟨ctx, e, rfl, rfl⟩ | ⟨rfl, rfl⟩ | ⟨ctx, e, rfl, rfl⟩ | ⟨rfl, rfl⟩ |
        ⟨ctx, e, hc, rfl, rfl⟩) | ⟨e2, hc2, rfl, rfl⟩⟩
  all_goals
    simp [ApiCall.isPatch, ApiCall.isGet, ApiCall.result, List.dropLast, List.getLast?, *]

/-- A patch failure that is no conflict ends a run of `patchNodeLabel`. -/
theorem patchOnlyRun_fatal (name : String) (err : Option HelperError) (t : List ApiCall)
    (h : IsPatchOnlyRun name err t) :
    (∀ c ∈ t.dropLast, ∀ e, c.result = some e → c.isPatch = true ∧ e.IsConflict = true) ∧
    (∀ c, t.getLast? = some c → ∀ e, c.result = some e →
      (c.isGet = true ∨ e.IsConflict = false) → ∃ ctx, err = some (.wrapped ctx e)) := by
  rcases h with
    ⟨ctx, e, rfl, rfl⟩ | ⟨rfl, rfl⟩ | ⟨ctx, e, hc, rfl, rfl⟩ | ⟨e1, hc1, rfl, rfl⟩ |
    ⟨ctx, e1, e2, hc1, hc2, rfl, rfl⟩ | ⟨e1, e2, hc1, hc2, rfl, rfl⟩
  all_goals
    simp [ApiCall.isPatch, ApiCall.isGet, ApiCall.result, List.dropLast, List.getLast?, *]

/-- In a run that reads before it patches, each patch attempt comes right after a
successful read of the same object. -/
theorem readPatchRun_reads (name : String) (err : Option HelperError) (t : List ApiCall)
    (h : IsReadPatchRun name err t) :
    (∀ i nm r, t[i]? = some (.Patch nm r) → ∃ j, i = j + 1 ∧ t[j]? = some (.Get nm none)) ∧
    (t.filter ApiCall.isPatch).length ≤ (t.filter ApiCall.isGet).length ∧
    (t.filter ApiCall.isGet).length ≤ (t.filter ApiCall.isPatch).length + 1 ∧
    (∀ c, t.getLast? = some c → c.isPatch = true →
      (t.filter ApiCall.isGet).length = (t.filter ApiCall.isPatch).length) := by
  rcases h with
    (⟨ctx, e, rfl, rfl⟩ | ⟨rfl, rfl⟩ | ⟨ctx, e, rfl, rfl⟩ | ⟨rfl, rfl⟩ | ⟨ctx, e, hc, rfl, rfl⟩) |
    ⟨e1, t2, hc1, rfl,
      (⟨ctx, e, rfl, rfl⟩ | ⟨rfl, rfl⟩ | ⟨ctx, e, rfl, rfl⟩ | ⟨rfl, rfl⟩ |
        ⟨ctx, e, hc, rfl, rfl⟩) | ⟨e2, hc2, rfl, rfl⟩⟩
  all_goals
    refine ⟨?_, by simp [ApiCall.isPatch, ApiCall.isGet, List.filter],
      by simp [ApiCall.isPatch, ApiCall.isGet, List.filter],
      by simp [ApiCall.isPatch, ApiCall.isGet, List.filter, List.getLast?]⟩
    intro i nm r hi
    rcases i with _ | _ | _ | _ | i <;> simp at hi
  all_goals
    obtain ⟨rfl, -⟩ := hi
    exact ⟨_, rfl, rfl⟩

theorem patchOnlyRun_no_read (name : String) (err : Option HelperError) (t : List ApiCall)
    (h : IsPatchOnlyRun name err t) : (t.filter ApiCall.isGet).length = 0 := by
  rcases h with
    ⟨ctx, e, rfl, rfl⟩ | ⟨rfl, rfl⟩ | ⟨ctx, e, hc, rfl, rfl⟩ | ⟨e1, hc1, rfl, rfl⟩ |
    ⟨ctx, e1, e2, hc1, hc2, rfl, rfl⟩ | ⟨e1, e2, hc1, hc2, rfl, rfl⟩
  all_goals simp [ApiCall.isGet, List.filter]

/-- C6: each of the four mutation helpers makes at most `maxRetries = 2` patch
attempts whatever the API answers; when two patch attempts are both answered by
a conflict, the helper returns the error "max retries reached" that carries the
conflict of the second attempt; and a patch attempt that succeeds is the last
call of the run and makes the helper return nil. -/
theorem mutation_helpers_retry_budget {σ : Type} (C : Client σ) (h : MutationHelper) (w : σ) :
    maxRetries = 2 ∧
    ((h.run C w).trace.filter ApiCall.isPatch).length ≤ maxRetries ∧
    (∀ e1 e2,
      ((h.run C w).trace.filter ApiCall.isPatch).map ApiCall.result = [some e1, some e2] →
      e1.IsConflict = true → e2.IsConflict = true →
      (h.run C w).err = some (.maxRetriesReached maxRetries (some e2))) ∧
    (∀ c ∈ (h.run C w).trace.dropLast, ¬ (c.isPatch = true ∧ c.result = none)) ∧
    (∀ c, (h.run C w).trace.getLast? = some c → c.isPatch = true → c.result = none →
      (h.run C w).err = none) := by
  refine ⟨rfl, ?_⟩
  rcases MutationHelper_run_shape C h w with ⟨-, hr⟩ | ⟨-, hr⟩
  · exact readPatchRun_budget _ _ _ hr
  · exact patchOnlyRun_budget _ _ _ hr

/-- Two conflicts in a row make `PatchComposabilityRequestSize` give up with the
second conflict. -/
theorem mutation_helpers_retry_budget_witness :
    (PatchComposabilityRequestSize sampleClient "req" 5 twoConflictsWorld).err =
      some (.maxRetriesReached 2 (some (conflict "c2"))) :=
  (mutation_helpers_retry_budget sampleClient (.forRequestSize "req" 5)
    twoConflictsWorld).2.2.1 (conflict "c1") (conflict "c2") (by decide) rfl rfl

/-- C7: in each of the four mutation helpers, every call that is followed by another
read or patch attempt either succeeded or was a patch attempt answered by a
conflict; so a read that fails, or a patch attempt answered by an error that is no
conflict, is the last call of the run, and the helper then returns a non-nil error
wrapping that error. -/
theorem mutation_helpers_fatal_errors {σ : Type} (C : Client σ) (h : MutationHelper) (w : σ) :
    (∀ c ∈ (h.run C w).trace.dropLast, ∀ e, c.result = some e →
      c.isPatch = true ∧ e.IsConflict = true) ∧
    (∀ c, (h.run C w).trace.getLast? = some c → ∀ e, c.result = some e →
      (c.isGet = true ∨ e.IsConflict = false) →
      ∃ ctx, (h.run C w).err = some (.wrapped ctx e)) := by
  rcases MutationHelper_run_shape C h w with ⟨-, hr⟩ | ⟨-, hr⟩
  · exact readPatchRun_fatal _ _ _ hr
  · exact patchOnlyRun_fatal _ _ _ hr

/-- A read that fails ends `PatchResourceClaimDeviceConditions` with an error
wrapping the failure. -/
theorem mutation_helpers_fatal_errors_witness :
    ∃ ctx, (PatchResourceClaimDeviceConditions sampleClient "claim" "default"
      "FabricDeviceReschedule" failedReadWorld).err = some (.wrapped ctx (failure "gone")) :=
  (mutation_helpers_fatal_errors sampleClient
    (.forClaimConditions "claim" "default" "FabricDeviceReschedule")
    failedReadWorld).2 (.Get "claim" (some (failure "gone"))) (by decide) (failure "gone") rfl
    (Or.inl rfl)

/-- C8 as stated fails: a run of `patchNodeLabel` in which the patch succeeds makes
one patch attempt and no read, so the attempt is not preceded by a Get and the
number of reads differs from the number of patch attempts. -/
theorem patchNodeLabel_reads_counterexample :
    ¬ ((∀ i nm r,
        ((MutationHelper.forNodeLabel "node1" ["p/a"] []).run sampleClient quietWorld).trace[i]? =
          some (.Patch nm r) →
        ∃ j, i = j + 1 ∧
          ((MutationHelper.forNodeLabel "node1" ["p/a"] []).run sampleClient
            quietWorld).trace[j]? = some (.Get nm none)) ∧
      (((MutationHelper.forNodeLabel "node1" ["p/a"] []).run sampleClient
          quietWorld).trace.filter ApiCall.isGet).length =
        (((MutationHelper.forNodeLabel "node1" ["p/a"] []).run sampleClient
          quietWorld).trace.filter ApiCall.isPatch).length) := by
  intro hclaim
  exact absurd hclaim.2 (by decide)

/-- C8 (as amended): in the three helpers that read the object
(the annotation helper, PatchComposabilityRequestSize and
PatchResourceClaimDeviceConditions) every patch attempt, the retry after a conflict
included, comes right after a successful Get of the same object; the number of
reads is the number of patch attempts, or one more when the run ends on a read;
`patchNodeLabel` makes no read at all. -/
theorem mutation_helpers_read_before_patch {σ : Type} (C : Client σ) (h : MutationHelper)
    (w : σ) :
    (h.reads = true →
      (∀ i nm r, (h.run C w).trace[i]? = some (.Patch nm r) →
        ∃ j, i = j + 1 ∧ (h.run C w).trace[j]? = some (.Get nm none)) ∧
      ((h.run C w).trace.filter ApiCall.isPatch).length ≤
        ((h.run C w).trace.filter ApiCall.isGet).length ∧
      ((h.run C w).trace.filter ApiCall.isGet).length ≤
        ((h.run C w).trace.filter ApiCall.isPatch).length + 1 ∧
      (∀ c, (h.run C w).trace.getLast? = some c → c.isPatch = true →
        ((h.run C w).trace.filter ApiCall.isGet).length =
          ((h.run C w).trace.filter ApiCall.isPatch).length)) ∧
    (h.reads = false → ((h.run C w).trace.filter ApiCall.isGet).length = 0) := by
  rcases MutationHelper_run_shape C h w with ⟨hreads, hr⟩ | ⟨hreads, hr⟩
  · refine ⟨fun _ => readPatchRun_reads _ _ _ hr, fun hf => ?_⟩
    rw [hreads] at hf
    exact absurd hf (by decide)
  · refine ⟨fun ht => ?_, fun _ => patchOnlyRun_no_read _ _ _ hr⟩
    rw [hreads] at ht
    exact absurd ht (by decide)

/-- After a conflict, the annotation helper reads the object again
before it patches again: two reads for two patch attempts. -/
theorem mutation_helpers_read_before_patch_witness :
    (( PatchComposableResourceAnnotation sampleClient "res" "p/last-used-time" "t"
        twoConflictsWorld).trace.filter ApiCall.isGet).length = 2 ∧
    (( PatchComposableResourceAnnotation sampleClient "res" "p/last-used-time" "t"
        twoConflictsWorld).trace.filter ApiCall.isPatch).length = 2 ∧
    (( PatchComposableResourceAnnotation sampleClient "res" "p/last-used-time" "t"
        twoConflictsWorld).trace.filter ApiCall.isGet).length =
      (( PatchComposableResourceAnnotation sampleClient "res" "p/last-used-time" "t"
        twoConflictsWorld).trace.filter ApiCall.isPatch).length :=
  ⟨by decide, by decide,
    ((mutation_helpers_read_before_patch sampleClient
      (.forResource "res" "p/last-used-time" "t")
      twoConflictsWorld).1 rfl).2.2.2 (.Patch "res" (some (conflict "c2"))) (by decide) rfl⟩

/-! ## Theorems: processNodeInfo -/

theorem HasPrefix_iff (s p : String) : HasPrefix s p = true ↔ ∃ t, s = p ++ t := by
  unfold HasPrefix
  rw [ List.isPrefixOf_iff_prefix]
  constructor
  · rintro ⟨t, ht⟩
    exact ⟨⟨t⟩, String.ext (by simp [← ht])⟩
  · rintro ⟨t, rfl⟩
    exact ⟨t.data, by simp⟩

theorem HasSuffix_iff (s x : String) : HasSuffix s x = true ↔ ∃ d, s = d ++ x := by
  unfold HasSuffix
  rw [List.isSuffixOf_iff_suffix]
  constructor
  · rintro ⟨t, ht⟩
    exact ⟨⟨t⟩, String.ext (by simp [← ht])⟩
  · rintro ⟨t, rfl⟩
    exact ⟨t.data, by simp⟩

theorem sliceFrom_append (p t : String) : sliceFrom (p ++ t) p.length = t := by
  apply String.ext
  show List.drop p.data.length (p.data ++ t.data) = t.data
  exact List.drop_left _ _

theorem sliceTo_append (d x : String) : sliceTo (d ++ x) ((d ++ x).length - x.length) = d := by
  apply String.ext
  show List.take ((d.data ++ x.data).length - x.data.length) (d.data ++ x.data) = d.data
  rw [List.length_append, Nat.add_sub_cancel]
  exact List.take_left _ _

theorem string_append_right_cancel (a b x : String) (h : a ++ x = b ++ x) : a = b := by
  apply String.ext
  have := congrArg String.data h
  simpa using this

theorem string_append_left_cancel (p a b : String) (h : p ++ a = p ++ b) : a = b := by
  apply String.ext
  have := congrArg String.data h
  simpa using this

theorem size_suffixes_differ (a b : String) : a ++ "-size-max" ≠ b ++ "-size-min" := by
  intro h
  have h1 := congrArg String.data h
  simp only [String.data_append] at h1
  have h2 := congrArg (fun l => l.reverse.take 9) h1
  simp only [List.reverse_append] at h2
  rw [List.take_append_of_le_length (by decide), List.take_append_of_le_length (by decide)] at h2
  revert h2
  decide

theorem size_key_inj (p d1 d2 x : String) (h : p ++ "/" ++ d1 ++ x = p ++ "/" ++ d2 ++ x) :
    d1 = d2 :=
  string_append_left_cancel (p ++ "/") d1 d2 (string_append_right_cancel _ _ x h)

theorem getModelName_eq_find (spec : ComposableDRASpec) (d : String) :
    getModelName spec d =
      match spec.DeviceInfos.find? (fun e => decide (e.K8sDeviceName = d)) with
      | some e => .ok e.CDIModelName
      | none => .error ("unknown device name: " ++ d) := by
  unfold getModelName
  induction spec.DeviceInfos with
  | nil => rfl
  | cons e rest ih =>
    by_cases h : e.K8sDeviceName = d
    · simp [getModelNameLoop, List.find?, h]
    · simp [getModelNameLoop, List.find?, h, ih]

theorem getModelName_error_iff (spec : ComposableDRASpec) (d : String) :
    (∃ msg, getModelName spec d = .error msg) ↔ ∀ e ∈ spec.DeviceInfos, e.K8sDeviceName ≠ d := by
  rw [getModelName_eq_find]
  cases hf : spec.DeviceInfos.find? (fun e => decide (e.K8sDeviceName = d)) with
  | none =>
    have := List.find?_eq_none.1 hf
    simp only [exists_eq', true_iff, Except.error.injEq]
    intro e he
    simpa using this e he
  | some e =>
    have h1 := List.find?_some hf
    have h2 := List.mem_of_find?_eq_some hf
    simp only [false_iff, exists_false, reduceCtorEq]
    intro hall
    exact hall e h2 (by simpa using h1)

theorem processLabel_max (spec : ComposableDRASpec) (models : List ModelConstraints)
    (d val : String) :
    processLabel spec models (spec.LabelPrefix ++ "/" ++ d ++ "-size-max") val =
      match Atoi val with
      | .error err => .error (.invalidInteger val err)
      | .ok max =>
        match getModelName spec d with
        | .error err => .error (.modelName err)
        | .ok model =>
          match setMaxDevice d model max models with
          | some models2 => .ok models2
          | none =>
            .ok (models ++
              [{ DeviceName := d, Model := model, MaxDevice := max, MinDevice := 0 }]) := by
  have hkey : spec.LabelPrefix ++ "/" ++ d ++ "-size-max" =
      (spec.LabelPrefix ++ "/") ++ (d ++ "-size-max") := by
    rw [String.append_assoc]
  have hp : HasPrefix (spec.LabelPrefix ++ "/" ++ d ++ "-size-max") (spec.LabelPrefix ++ "/") =
      true := (HasPrefix_iff _ _).2 ⟨d ++ "-size-max", hkey⟩
  have hs : sliceFrom (spec.LabelPrefix ++ "/" ++ d ++ "-size-max")
      (spec.LabelPrefix ++ "/").length = d ++ "-size-max" := by
    rw [hkey, sliceFrom_append]
  have hx : HasSuffix (d ++ "-size-max") "-size-max" = true := (HasSuffix_iff _ _).2 ⟨d, rfl⟩
  have hd : sliceTo (d ++ "-size-max") ((d ++ "-size-max").length - 9) = d :=
    sliceTo_append d "-size-max"
  unfold processLabel
  simp only [hp, hs, hx, hd, Bool.not_true, Bool.false_eq_true, if_false, if_true]

theorem processLabel_min (spec : ComposableDRASpec) (models : List ModelConstraints)
    (d val : String) :
    processLabel spec models (spec.LabelPrefix ++ "/" ++ d ++ "-size-min") val =
      match Atoi val with
      | .error err => .error (.invalidInteger val err)
      | .ok min =>
        match getModelName spec d with
        | .error err => .error (.modelName err)
        | .ok model =>
          match setMinDevice d model min models with
          | some models2 => .ok models2
          | none =>
            .ok (models ++
              [{ DeviceName := d, Model := model, MinDevice := min, MaxDevice := 0 }]) := by
  have hkey : spec.LabelPrefix ++ "/" ++ d ++ "-size-min" =
      (spec.LabelPrefix ++ "/") ++ (d ++ "-size-min") := by
    rw [String.append_assoc]
  have hp : HasPrefix (spec.LabelPrefix ++ "/" ++ d ++ "-size-min") (spec.LabelPrefix ++ "/") =
      true := (HasPrefix_iff _ _).2 ⟨d ++ "-size-min", hkey⟩
  have hs : sliceFrom (spec.LabelPrefix ++ "/" ++ d ++ "-size-min")
      (spec.LabelPrefix ++ "/").length = d ++ "-size-min" := by
    rw [hkey, sliceFrom_append]
  have hx : HasSuffix (d ++ "-size-min") "-size-min" = true := (HasSuffix_iff _ _).2 ⟨d, rfl⟩
  have hnx : HasSuffix (d ++ "-size-min") "-size-max" = false := by
    rw [← Bool.not_eq_true, HasSuffix_iff]
    rintro ⟨d2, h2⟩
    exact size_suffixes_differ d2 d h2.symm
  have hd : sliceTo (d ++ "-size-min") ((d ++ "-size-min").length - 9) = d :=
    sliceTo_append d "-size-min"
  unfold processLabel
  simp only [hp, hs, hx, hnx, hd, Bool.not_true, Bool.false_eq_true, if_false, if_true]

theorem processLabel_other (spec : ComposableDRASpec) (models : List ModelConstraints)
    (key val : String)
    (hmax : ∀ d, key ≠ spec.LabelPrefix ++ "/" ++ d ++ "-size-max")
    (hmin : ∀ d, key ≠ spec.LabelPrefix ++ "/" ++ d ++ "-size-min") :
    processLabel spec models key val = .ok models := by
  unfold processLabel
  by_cases hp : HasPrefix key (spec.LabelPrefix ++ "/") = true
  · obtain ⟨t, ht⟩ := (HasPrefix_iff _ _).1 hp
    have hs : sliceFrom key (spec.LabelPrefix ++ "/").length = t := by
      rw [ht, sliceFrom_append]
    have h1 : HasSuffix t "-size-max" = false := by
      rw [← Bool.not_eq_true, HasSuffix_iff]
      rintro ⟨d, hd⟩
      exact hmax d (by rw [ht, hd]; simp only [String.append_assoc])
    have h2 : HasSuffix t "-size-min" = false := by
      rw [← Bool.not_eq_true, HasSuffix_iff]
      rintro ⟨d, hd⟩
      exact hmin d (by rw [ht, hd]; simp only [String.append_assoc])
    simp only [hp, hs, h1, h2, Bool.not_true, Bool.false_eq_true, if_false]
  · simp [hp]

theorem size_label_outcome_error_iff (spec : ComposableDRASpec) (d val : String)
    (f : Int → String → Except ProcessError (List ModelConstraints))
    (hf : ∀ n model, ∃ ms, f n model = .ok ms) :
    (∃ err, (match Atoi val with
      | .error err => .error (.invalidInteger val err)
      | .ok n =>
        match getModelName spec d with
        | .error err => .error (.modelName err)
        | .ok model => f n model) = Except.error err) ↔
      ((∀ n, Atoi val ≠ .ok n) ∨ ∀ e ∈ spec.DeviceInfos, e.K8sDeviceName ≠ d) := by
  rw [← getModelName_error_iff]
  cases ha : Atoi val with
  | error err => simp
  | ok n =>
    cases hg : getModelName spec d with
    | error msg => simp
    | ok model =>
      obtain ⟨ms, hms⟩ := hf n model
      simp [hms]

theorem processLabel_error_iff (spec : ComposableDRASpec) (models : List ModelConstraints)
    (key val : String) :
    (∃ err, processLabel spec models key val = .error err) ↔ IsBadSizeLabel spec key val := by
  unfold IsBadSizeLabel
  by_cases hmax : ∃ d, key = spec.LabelPrefix ++ "/" ++ d ++ "-size-max"
  · obtain ⟨d0, rfl⟩ := hmax
    rw [processLabel_max, size_label_outcome_error_iff spec d0 val
      (fun n model => match setMaxDevice d0 model n models with
        | some models2 => .ok models2
        | none => .ok (models ++
            [{ DeviceName := d0, Model := model, MaxDevice := n, MinDevice := 0 }]))
      (by intro n model; cases h : setMaxDevice d0 model n models <;> simp [h])]
    constructor
    · intro h
      exact ⟨d0, Or.inr rfl, h⟩
    · rintro ⟨d, hk | hk, h⟩
      · exact absurd hk (size_suffixes_differ _ _)
      · rw [size_key_inj _ _ _ _ hk]; exact h
  · by_cases hmin : ∃ d, key = spec.LabelPrefix ++ "/" ++ d ++ "-size-min"
    · obtain ⟨d0, rfl⟩ := hmin
      rw [processLabel_min, size_label_outcome_error_iff spec d0 val
        (fun n model => match setMinDevice d0 model n models with
          | some models2 => .ok models2
          | none => .ok (models ++
              [{ DeviceName := d0, Model := model, MinDevice := n, MaxDevice := 0 }]))
        (by intro n model; cases h : setMinDevice d0 model n models <;> simp [h])]
      constructor
      · intro h
        exact ⟨d0, Or.inl rfl, h⟩
      · rintro ⟨d, hk | hk, h⟩
        · rw [size_key_inj _ _ _ _ hk]; exact h
        · exact absurd hk.symm (size_suffixes_differ _ _)
    · rw [processLabel_other spec models key val (fun d hd => hmax ⟨d, hd⟩)
        (fun d hd => hmin ⟨d, hd⟩)]
      constructor
      · rintro ⟨err, h⟩
        cases h
      · rintro ⟨d, hk | hk, -⟩
        · exact absurd ⟨d, hk⟩ hmin
        · exact absurd ⟨d, hk⟩ hmax

theorem processLabels_error_iff (spec : ComposableDRASpec) (labels : List (String × String))
    (models : List ModelConstraints) :
    (∃ err, processLabels spec labels models = .error err) ↔
      ∃ kv ∈ labels, IsBadSizeLabel spec kv.1 kv.2 := by
  induction labels generalizing models with
  | nil => simp [processLabels]
  | cons kv rest ih =>
    obtain ⟨key, val⟩ := kv
    simp only [processLabels, List.mem_cons, exists_eq_or_imp]
    rw [← processLabel_error_iff spec models key val]
    cases hp : processLabel spec models key val with
    | error err => simp
    | ok models2 =>
      simp only [ih models2]
      simp

theorem processNodes_error_iff (spec : ComposableDRASpec) (nodes : List Node)
    (acc : List NodeInfo) :
    (∃ err, processNodes spec nodes acc = .error err) ↔
      ∃ node ∈ nodes, ∃ kv ∈ node.Labels, IsBadSizeLabel spec kv.1 kv.2 := by
  induction nodes generalizing acc with
  | nil => simp [processNodes]
  | cons node rest ih =>
    simp only [processNodes, List.mem_cons, exists_eq_or_imp]
    rw [← processLabels_error_iff spec node.Labels []]
    cases hp : processLabels spec node.Labels [] with
    | error err => simp
    | ok models =>
      simp only [ih]
      simp

theorem processNodes_length (spec : ComposableDRASpec) (nodes : List Node)
    (acc infos : List NodeInfo) (h : processNodes spec nodes acc = .ok infos) :
    infos.length = acc.length + nodes.length := by
  induction nodes generalizing acc with
  | nil =>
    simp only [processNodes, Except.ok.injEq] at h
    simp [← h]
  | cons node rest ih =>
    simp only [processNodes] at h
    cases hp : processLabels spec node.Labels [] with
    | error err => simp [hp] at h
    | ok models =>
      simp only [hp] at h
      rw [ih _ h]
      simp
      omega

/-- C9: `processNodeInfo` returns an error (and with it no NodeInfo list at all) if
and only if some node carries a label whose key is `LabelPrefix + "/" + d +
"-size-min"` or `LabelPrefix + "/" + d + "-size-max"` for some `d` and whose value
`strconv.Atoi` rejects or whose `d` is the K8sDeviceName of no catalog entry;
otherwise it succeeds with one NodeInfo per node. This holds for every order in
which the labels are visited. -/
theorem processNodeInfo_error_iff (nodes : List Node) (spec : ComposableDRASpec) :
    ((∃ err, processNodeInfo nodes spec = .error err) ↔
      ∃ node ∈ nodes, ∃ kv ∈ node.Labels, ∃ d : String,
        (kv.1 = spec.LabelPrefix ++ "/" ++ d ++ "-size-min" ∨
         kv.1 = spec.LabelPrefix ++ "/" ++ d ++ "-size-max") ∧
        ((∀ n, Atoi kv.2 ≠ .ok n) ∨ ∀ e ∈ spec.DeviceInfos, e.K8sDeviceName ≠ d)) ∧
    ((¬ ∃ node ∈ nodes, ∃ kv ∈ node.Labels, ∃ d : String,
        (kv.1 = spec.LabelPrefix ++ "/" ++ d ++ "-size-min" ∨
         kv.1 = spec.LabelPrefix ++ "/" ++ d ++ "-size-max") ∧
        ((∀ n, Atoi kv.2 ≠ .ok n) ∨ ∀ e ∈ spec.DeviceInfos, e.K8sDeviceName ≠ d)) →
      ∃ infos, processNodeInfo nodes spec = .ok infos ∧ infos.length = nodes.length) := by
  have hiff := processNodes_error_iff spec nodes []
  unfold IsBadSizeLabel at hiff
  refine ⟨hiff, fun hgood => ?_⟩
  cases hp : processNodeInfo nodes spec with
  | error err => exact absurd (hiff.1 ⟨err, hp⟩) hgood
  | ok infos =>
    refine ⟨infos, rfl, ?_⟩
    have := processNodes_length spec nodes [] infos hp
    simpa using this

/-- Scenario D: a node whose size label names a device that is not in the catalog
makes `processNodeInfo` fail, also for the node before it whose labels are all
valid. -/
theorem processNodeInfo_error_iff_witness :
    ∃ err, processNodeInfo [testNode, unknownDeviceNode] testSpec = .error err :=
  (processNodeInfo_error_iff [testNode, unknownDeviceNode] testSpec).1.2
    ⟨unknownDeviceNode, by simp,
      ("composable.fsastech.com/nvidia-a100-40g-size-min", "2"), by simp [unknownDeviceNode],
      "nvidia-a100-40g", Or.inl (by decide), Or.inr (by decide)⟩

theorem firstEntry_cons_of_eq (d : String) (x : ModelConstraints) (rest : List ModelConstraints)
    (h : x.DeviceName = d) : firstEntry d (x :: rest) = some x := by
  simp [firstEntry, List.find?, h]

theorem firstEntry_cons_of_ne (d : String) (x : ModelConstraints) (rest : List ModelConstraints)
    (h : x.DeviceName ≠ d) : firstEntry d (x :: rest) = firstEntry d rest := by
  simp [firstEntry, List.find?, h]

theorem firstEntry_append_singleton (d : String) (ms : List ModelConstraints)
    (new : ModelConstraints) :
    firstEntry d (ms ++ [new]) =
      match firstEntry d ms with
      | some m => some m
      | none => if new.DeviceName = d then some new else none := by
  induction ms with
  | nil =>
    by_cases h : new.DeviceName = d
    · simp [firstEntry, List.find?, h]
    · simp [firstEntry, List.find?, h]
  | cons x rest ih =>
    by_cases hx : x.DeviceName = d
    · rw [List.cons_append, firstEntry_cons_of_eq d x _ hx, firstEntry_cons_of_eq d x _ hx]
    · rw [List.cons_append, firstEntry_cons_of_ne d x _ hx, firstEntry_cons_of_ne d x _ hx, ih]

theorem firstEntry_setMaxDevice_same (d model : String) (b : Int)
    (ms ms2 : List ModelConstraints) (h : setMaxDevice d model b ms = some ms2) :
    ∃ m, firstEntry d ms = some m ∧
      firstEntry d ms2 = some { m with MaxDevice := b, Model := model } := by
  induction ms generalizing ms2 with
  | nil => simp [setMaxDevice] at h
  | cons x rest ih =>
    by_cases hx : x.DeviceName = d
    · unfold setMaxDevice at h
      rw [if_pos hx] at h
      cases h
      exact ⟨x, firstEntry_cons_of_eq d x _ hx, firstEntry_cons_of_eq d _ _ hx⟩
    · simp only [setMaxDevice, hx, if_false, Option.map_eq_some'] at h
      obtain ⟨r2, hr, rfl⟩ := h
      obtain ⟨m, h1, h2⟩ := ih r2 hr
      exact ⟨m, by rw [firstEntry_cons_of_ne d x _ hx, h1],
        by rw [firstEntry_cons_of_ne d x _ hx, h2]⟩

theorem firstEntry_setMaxDevice_other (d d2 model : String) (b : Int) (hne : d2 ≠ d)
    (ms ms2 : List ModelConstraints) (h : setMaxDevice d2 model b ms = some ms2) :
    firstEntry d ms2 = firstEntry d ms := by
  induction ms generalizing ms2 with
  | nil => simp [setMaxDevice] at h
  | cons x rest ih =>
    by_cases hx : x.DeviceName = d2
    · unfold setMaxDevice at h
      rw [if_pos hx] at h
      cases h
      have hxd : x.DeviceName ≠ d := by rw [hx]; exact hne
      rw [firstEntry_cons_of_ne d x rest hxd]
      exact firstEntry_cons_of_ne d _ rest hxd
    · simp only [setMaxDevice, hx, if_false, Option.map_eq_some'] at h
      obtain ⟨r2, hr, rfl⟩ := h
      by_cases hxd : x.DeviceName = d
      · rw [firstEntry_cons_of_eq d x _ hxd, firstEntry_cons_of_eq d x _ hxd]
      · rw [firstEntry_cons_of_ne d x _ hxd, firstEntry_cons_of_ne d x _ hxd, ih r2 hr]

theorem firstEntry_of_setMaxDevice_none (d model : String) (b : Int)
    (ms : List ModelConstraints) (h : setMaxDevice d model b ms = none) :
    firstEntry d ms = none := by
  induction ms with
  | nil => rfl
  | cons x rest ih =>
    by_cases hx : x.DeviceName = d
    · simp [setMaxDevice, hx] at h
    · simp only [setMaxDevice, hx, if_false, Option.map_eq_none'] at h
      rw [firstEntry_cons_of_ne d x _ hx, ih h]

theorem firstEntry_setMinDevice_same (d model : String) (a : Int)
    (ms ms2 : List ModelConstraints) (h : setMinDevice d model a ms = some ms2) :
    ∃ m, firstEntry d ms = some m ∧
      firstEntry d ms2 = some { m with MinDevice := a, Model := model } := by
  induction ms generalizing ms2 with
  | nil => simp [setMinDevice] at h
  | cons x rest ih =>
    by_cases hx : x.DeviceName = d
    · unfold setMinDevice at h
      rw [if_pos hx] at h
      cases h
      exact ⟨x, firstEntry_cons_of_eq d x _ hx, firstEntry_cons_of_eq d _ _ hx⟩
    · simp only [setMinDevice, hx, if_false, Option.map_eq_some'] at h
      obtain ⟨r2, hr, rfl⟩ := h
      obtain ⟨m, h1, h2⟩ := ih r2 hr
      exact ⟨m, by rw [firstEntry_cons_of_ne d x _ hx, h1],
        by rw [firstEntry_cons_of_ne d x _ hx, h2]⟩

theorem firstEntry_setMinDevice_other (d d2 model : String) (a : Int) (hne : d2 ≠ d)
    (ms ms2 : List ModelConstraints) (h : setMinDevice d2 model a ms = some ms2) :
    firstEntry d ms2 = firstEntry d ms := by
  induction ms generalizing ms2 with
  | nil => simp [setMinDevice] at h
  | cons x rest ih =>
    by_cases hx : x.DeviceName = d2
    · unfold setMinDevice at h
      rw [if_pos hx] at h
      cases h
      have hxd : x.DeviceName ≠ d := by rw [hx]; exact hne
      rw [firstEntry_cons_of_ne d x rest hxd]
      exact firstEntry_cons_of_ne d _ rest hxd
    · simp only [setMinDevice, hx, if_false, Option.map_eq_some'] at h
      obtain ⟨r2, hr, rfl⟩ := h
      by_cases hxd : x.DeviceName = d
      · rw [firstEntry_cons_of_eq d x _ hxd, firstEntry_cons_of_eq d x _ hxd]
      · rw [firstEntry_cons_of_ne d x _ hxd, firstEntry_cons_of_ne d x _ hxd, ih r2 hr]

theorem firstEntry_of_setMinDevice_none (d model : String) (a : Int)
    (ms : List ModelConstraints) (h : setMinDevice d model a ms = none) :
    firstEntry d ms = none := by
  induction ms with
  | nil => rfl
  | cons x rest ih =>
    by_cases hx : x.DeviceName = d
    · simp [setMinDevice, hx] at h
    · simp only [setMinDevice, hx, if_false, Option.map_eq_none'] at h
      rw [firstEntry_cons_of_ne d x _ hx, ih h]

theorem processLabel_frame (spec : ComposableDRASpec) (ms ms2 : List ModelConstraints)
    (key val d : String)
    (hmin : key ≠ spec.LabelPrefix ++ "/" ++ d ++ "-size-min")
    (hmax : key ≠ spec.LabelPrefix ++ "/" ++ d ++ "-size-max")
    (h : processLabel spec ms key val = .ok ms2) :
    firstEntry d ms2 = firstEntry d ms := by
  by_cases hkmax : ∃ d2, key = spec.LabelPrefix ++ "/" ++ d2 ++ "-size-max"
  · obtain ⟨d2, rfl⟩ := hkmax
    have hne : d2 ≠ d := fun hd => hmax (by rw [hd])
    rw [processLabel_max] at h
    cases ha : Atoi val with
    | error err => simp [ha] at h
    | ok n =>
      cases hg : getModelName spec d2 with
      | error msg => simp [ha, hg] at h
      | ok model =>
        cases hs : setMaxDevice d2 model n ms with
        | none =>
          simp only [ha, hg, hs, Except.ok.injEq] at h
          rw [← h, firstEntry_append_singleton]
          cases firstEntry d ms with
          | none => simp [hne]
          | some m => rfl
        | some ms3 =>
          simp only [ha, hg, hs, Except.ok.injEq] at h
          rw [← h]
          exact firstEntry_setMaxDevice_other d d2 model n hne ms ms3 hs
  · by_cases hkmin : ∃ d2, key = spec.LabelPrefix ++ "/" ++ d2 ++ "-size-min"
    · obtain ⟨d2, rfl⟩ := hkmin
      have hne : d2 ≠ d := fun hd => hmin (by rw [hd])
      rw [processLabel_min] at h
      cases ha : Atoi val with
      | error err => simp [ha] at h
      | ok n =>
        cases hg : getModelName spec d2 with
        | error msg => simp [ha, hg] at h
        | ok model =>
          cases hs : setMinDevice d2 model n ms with
          | none =>
            simp only [ha, hg, hs, Except.ok.injEq] at h
            rw [← h, firstEntry_append_singleton]
            cases firstEntry d ms with
            | none => simp [hne]
            | some m => rfl
          | some ms3 =>
            simp only [ha, hg, hs, Except.ok.injEq] at h
            rw [← h]
            exact firstEntry_setMinDevice_other d d2 model n hne ms ms3 hs
    · rw [processLabel_other spec ms key val (fun d2 hd => hkmax ⟨d2, hd⟩)
        (fun d2 hd => hkmin ⟨d2, hd⟩)] at h
      simp only [Except.ok.injEq] at h
      rw [h]

theorem processLabel_max_effect (spec : ComposableDRASpec) (ms ms2 : List ModelConstraints)
    (d vb model : String) (b : Int)
    (h : processLabel spec ms (spec.LabelPrefix ++ "/" ++ d ++ "-size-max") vb = .ok ms2)
    (hb : Atoi vb = .ok b) (hg : getModelName spec d = .ok model) :
    firstEntry d ms2 = some (match firstEntry d ms with
      | some m => { m with MaxDevice := b, Model := model }
      | none => { DeviceName := d, Model := model, MaxDevice := b, MinDevice := 0 }) := by
  rw [processLabel_max] at h
  cases hs : setMaxDevice d model b ms with
  | none =>
    simp only [hb, hg, hs, Except.ok.injEq] at h
    rw [← h, firstEntry_append_singleton, firstEntry_of_setMaxDevice_none d model b ms hs]
    simp
  | some ms3 =>
    simp only [hb, hg, hs, Except.ok.injEq] at h
    obtain ⟨m, h1, h2⟩ := firstEntry_setMaxDevice_same d model b ms ms3 hs
    rw [← h, h2, h1]

theorem processLabel_min_effect (spec : ComposableDRASpec) (ms ms2 : List ModelConstraints)
    (d va model : String) (a : Int)
    (h : processLabel spec ms (spec.LabelPrefix ++ "/" ++ d ++ "-size-min") va = .ok ms2)
    (ha : Atoi va = .ok a) (hg : getModelName spec d = .ok model) :
    firstEntry d ms2 = some (match firstEntry d ms with
      | some m => { m with MinDevice := a, Model := model }
      | none => { DeviceName := d, Model := model, MinDevice := a, MaxDevice := 0 }) := by
  rw [processLabel_min] at h
  cases hs : setMinDevice d model a ms with
  | none =>
    simp only [ha, hg, hs, Except.ok.injEq] at h
    rw [← h, firstEntry_append_singleton, firstEntry_of_setMinDevice_none d model a ms hs]
    simp
  | some ms3 =>
    simp only [ha, hg, hs, Except.ok.injEq] at h
    obtain ⟨m, h1, h2⟩ := firstEntry_setMinDevice_same d model a ms ms3 hs
    rw [← h, h2, h1]

theorem processLabels_append (spec : ComposableDRASpec) (l1 l2 : List (String × String))
    (ms ms2 : List ModelConstraints) (h : processLabels spec (l1 ++ l2) ms = .ok ms2) :
    ∃ mid, processLabels spec l1 ms = .ok mid ∧ processLabels spec l2 mid = .ok ms2 := by
  induction l1 generalizing ms with
  | nil => exact ⟨ms, rfl, h⟩
  | cons kv rest ih =>
    obtain ⟨key, val⟩ := kv
    simp only [List.cons_append, processLabels] at h ⊢
    cases hp : processLabel spec ms key val with
    | error err => simp [hp] at h
    | ok ms3 =>
      simp only [hp] at h ⊢
      exact ih ms3 h

theorem processLabels_cons (spec : ComposableDRASpec) (key val : String)
    (rest : List (String × String)) (ms ms2 : List ModelConstraints)
    (h : processLabels spec ((key, val) :: rest) ms = .ok ms2) :
    ∃ mid, processLabel spec ms key val = .ok mid ∧ processLabels spec rest mid = .ok ms2 := by
  simp only [processLabels] at h
  cases hp : processLabel spec ms key val with
  | error err => simp [hp] at h
  | ok ms3 =>
    simp only [hp] at h
    exact ⟨ms3, rfl, h⟩

theorem processLabels_frame (spec : ComposableDRASpec) (d : String)
    (labels : List (String × String)) (ms ms2 : List ModelConstraints)
    (hkeys : ∀ kv ∈ labels, kv.1 ≠ spec.LabelPrefix ++ "/" ++ d ++ "-size-min" ∧
      kv.1 ≠ spec.LabelPrefix ++ "/" ++ d ++ "-size-max")
    (h : processLabels spec labels ms = .ok ms2) :
    firstEntry d ms2 = firstEntry d ms := by
  induction labels generalizing ms with
  | nil =>
    simp only [processLabels, Except.ok.injEq] at h
    rw [h]
  | cons kv rest ih =>
    obtain ⟨key, val⟩ := kv
    obtain ⟨mid, h1, h2⟩ := processLabels_cons spec key val rest ms ms2 h
    have hk := hkeys (key, val) (List.mem_cons_self _ _)
    rw [ih mid (fun kv hkv => hkeys kv (List.mem_cons_of_mem _ hkv)) h2,
      processLabel_frame spec ms mid key val d hk.1 hk.2 h1]

theorem keys_differ_of_nodup (s t : List (String × String)) (k v : String)
    (h : ((s ++ (k, v) :: t).map Prod.fst).Nodup) :
    (∀ kv ∈ s, kv.1 ≠ k) ∧ (∀ kv ∈ t, kv.1 ≠ k) := by
  simp only [List.map_append, List.map_cons, List.nodup_append, List.nodup_cons,
    List.mem_map, not_exists, not_and] at h
  obtain ⟨-, ⟨hnt, -⟩, hdisj⟩ := h
  constructor
  · intro kv hkv heq
    exact hdisj (List.mem_map.2 ⟨kv, hkv, rfl⟩) (by rw [heq]; exact List.mem_cons_self _ _)
  · intro kv hkv heq
    exact hnt kv hkv heq

theorem processLabels_min_max (spec : ComposableDRASpec) (d va vb model : String) (a b : Int)
    (labels : List (String × String)) (ms : List ModelConstraints)
    (hnodup : (labels.map Prod.fst).Nodup)
    (hmin : (spec.LabelPrefix ++ "/" ++ d ++ "-size-min", va) ∈ labels)
    (hmax : (spec.LabelPrefix ++ "/" ++ d ++ "-size-max", vb) ∈ labels)
    (ha : Atoi va = .ok a) (hb : Atoi vb = .ok b) (hg : getModelName spec d = .ok model)
    (h : processLabels spec labels [] = .ok ms) :
    firstEntry d ms = some ⟨model, d, b, a⟩ := by
  have hkk : spec.LabelPrefix ++ "/" ++ d ++ "-size-max" ≠
      spec.LabelPrefix ++ "/" ++ d ++ "-size-min" := size_suffixes_differ _ _
  obtain ⟨s, t, rfl⟩ := List.append_of_mem hmin
  have hk := keys_differ_of_nodup s t _ va hnodup
  rcases List.mem_append.1 hmax with hs | hs
  · -- the maximum is visited before the minimum
    obtain ⟨s1, s2, rfl⟩ := List.append_of_mem hs
    have hnodup2 : ((s1 ++ (spec.LabelPrefix ++ "/" ++ d ++ "-size-max", vb) ::
        (s2 ++ (spec.LabelPrefix ++ "/" ++ d ++ "-size-min", va) :: t)).map Prod.fst).Nodup := by
      simpa [List.append_assoc] using hnodup
    have hk2 := keys_differ_of_nodup s1 _ _ vb hnodup2
    rw [List.append_assoc, List.cons_append] at h
    obtain ⟨m1, h1, h⟩ := processLabels_append spec _ _ _ _ h
    obtain ⟨m2, h2, h⟩ := processLabels_cons spec _ _ _ _ _ h
    obtain ⟨m3, h3, h⟩ := processLabels_append spec _ _ _ _ h
    obtain ⟨m4, h4, h5⟩ := processLabels_cons spec _ _ _ _ _ h
    have e1 : firstEntry d m1 = none := by
      rw [processLabels_frame spec d s1 [] m1
        (fun kv hkv => ⟨hk.1 kv (List.mem_append_left _ hkv), hk2.1 kv hkv⟩) h1]
      rfl
    have e2 := processLabel_max_effect spec m1 m2 d vb model b h2 hb hg
    rw [e1] at e2
    have e3 : firstEntry d m3 = firstEntry d m2 :=
      processLabels_frame spec d s2 m2 m3
        (fun kv hkv => ⟨hk.1 kv (List.mem_append_right _ (List.mem_cons_of_mem _ hkv)),
          hk2.2 kv (List.mem_append_left _ hkv)⟩) h3
    have e4 := processLabel_min_effect spec m3 m4 d va model a h4 ha hg
    rw [e3, e2] at e4
    have e5 : firstEntry d ms = firstEntry d m4 :=
      processLabels_frame spec d t m4 ms
        (fun kv hkv => ⟨hk.2 kv hkv,
          hk2.2 kv (List.mem_append_right _ (List.mem_cons_of_mem _ hkv))⟩) h5
    rw [e5, e4]
  · -- the minimum is visited before the maximum
    rcases List.mem_cons.1 hs with hs | hs
    · exact absurd (congrArg Prod.fst hs) hkk
    · obtain ⟨t1, t2, rfl⟩ := List.append_of_mem hs
      have hnodup2 : (((s ++ (spec.LabelPrefix ++ "/" ++ d ++ "-size-min", va) :: t1) ++
          (spec.LabelPrefix ++ "/" ++ d ++ "-size-max", vb) :: t2).map Prod.fst).Nodup := by
        simpa [List.append_assoc] using hnodup
      have hk2 := keys_differ_of_nodup _ t2 _ vb hnodup2
      obtain ⟨m1, h1, h⟩ := processLabels_append spec _ _ _ _ h
      obtain ⟨m2, h2, h⟩ := processLabels_cons spec _ _ _ _ _ h
      obtain ⟨m3, h3, h⟩ := processLabels_append spec _ _ _ _ h
      obtain ⟨m4, h4, h5⟩ := processLabels_cons spec _ _ _ _ _ h
      have e1 : firstEntry d m1 = none := by
        rw [processLabels_frame spec d s [] m1
          (fun kv hkv => ⟨hk.1 kv hkv, hk2.1 kv (List.mem_append_left _ hkv)⟩) h1]
        rfl
      have e2 := processLabel_min_effect spec m1 m2 d va model a h2 ha hg
      rw [e1] at e2
      have e3 : firstEntry d m3 = firstEntry d m2 :=
        processLabels_frame spec d t1 m2 m3
          (fun kv hkv => ⟨hk.2 kv (List.mem_append_left _ hkv),
            hk2.1 kv (List.mem_append_right _ (List.mem_cons_of_mem _ hkv))⟩) h3
      have e4 := processLabel_max_effect spec m3 m4 d vb model b h4 hb hg
      rw [e3, e2] at e4
      have e5 : firstEntry d ms = firstEntry d m4 :=
        processLabels_frame spec d t2 m4 ms
          (fun kv hkv => ⟨hk.2 kv (List.mem_append_right _ (List.mem_cons_of_mem _ hkv)),
            hk2.2 kv hkv⟩) h5
      rw [e5, e4]

theorem processNodes_extends (spec : ComposableDRASpec) (nodes : List Node)
    (acc infos : List NodeInfo) (h : processNodes spec nodes acc = .ok infos) :
    ∃ tail, infos = acc ++ tail := by
  induction nodes generalizing acc with
  | nil =>
    simp only [processNodes, Except.ok.injEq] at h
    exact ⟨[], by simp [h]⟩
  | cons node rest ih =>
    simp only [processNodes] at h
    cases hp : processLabels spec node.Labels [] with
    | error err => simp [hp] at h
    | ok models =>
      simp only [hp] at h
      obtain ⟨tail, ht⟩ := ih _ h
      exact ⟨⟨node.Name, models⟩ :: tail, by simp [ht]⟩

theorem processNodes_getElem (spec : ComposableDRASpec) (nodes : List Node)
    (acc infos : List NodeInfo) (h : processNodes spec nodes acc = .ok infos)
    (i : Nat) (node : Node) (hi : nodes[i]? = some node) :
    ∃ models, processLabels spec node.Labels [] = .ok models ∧
      infos[acc.length + i]? = some ⟨node.Name, models⟩ := by
  induction nodes generalizing acc i with
  | nil => simp at hi
  | cons node0 rest ih =>
    simp only [processNodes] at h
    cases hp : processLabels spec node0.Labels [] with
    | error err => simp [hp] at h
    | ok models0 =>
      simp only [hp] at h
      cases i with
      | zero =>
        simp only [List.getElem?_cons_zero, Option.some.injEq] at hi
        subst hi
        obtain ⟨tail, ht⟩ := processNodes_extends spec rest _ infos h
        refine ⟨models0, hp, ?_⟩
        rw [ht, List.append_assoc, Nat.add_zero,
          List.getElem?_append_right (Nat.le_refl _), Nat.sub_self]
        simp
      | succ j =>
        simp only [List.getElem?_cons_succ] at hi
        obtain ⟨models, h1, h2⟩ := ih _ h j hi
        refine ⟨models, h1, ?_⟩
        rw [← h2]
        congr 1
        simp
        omega

/-- C10: when `processNodeInfo` succeeds and a node (the `i`-th of the list, its
labels having distinct keys and being visited in any order) carries
`LabelPrefix/<d>-size-min = va` and `LabelPrefix/<d>-size-max = vb` with `va` and
`vb` parsing to the integers `a` and `b`, and `e` is the first catalog entry whose
K8sDeviceName is `d`, then the `i`-th NodeInfo returned has the node's name and
contains the entry with DeviceName `d`, Model `e.CDIModelName`, MinDevice `a` and
MaxDevice `b`, which is also the first entry of that device name. -/
theorem processNodeInfo_min_max_entry (nodes : List Node) (spec : ComposableDRASpec)
    (infos : List NodeInfo) (i : Nat) (node : Node) (d va vb : String) (a b : Int)
    (e : DeviceInfo)
    (hok : processNodeInfo nodes spec = .ok infos)
    (hnode : nodes[i]? = some node)
    (hkeys : (node.Labels.map Prod.fst).Nodup)
    (hmin : (spec.LabelPrefix ++ "/" ++ d ++ "-size-min", va) ∈ node.Labels)
    (hmax : (spec.LabelPrefix ++ "/" ++ d ++ "-size-max", vb) ∈ node.Labels)
    (ha : Atoi va = .ok a) (hb : Atoi vb = .ok b)
    (he : spec.DeviceInfos.find? (fun x => decide (x.K8sDeviceName = d)) = some e) :
    ∃ info, infos[i]? = some info ∧ info.Name = node.Name ∧
      ({ DeviceName := d, Model := e.CDIModelName, MinDevice := a, MaxDevice := b } :
        ModelConstraints) ∈ info.Models ∧
      info.Models.find? (fun m => decide (m.DeviceName = d)) =
        some { DeviceName := d, Model := e.CDIModelName, MinDevice := a, MaxDevice := b } := by
  obtain ⟨models, h1, h2⟩ := processNodes_getElem spec nodes [] infos hok i node hnode
  have hg : getModelName spec d = .ok e.CDIModelName := by
    rw [getModelName_eq_find, he]
  have hfirst := processLabels_min_max spec d va vb e.CDIModelName a b node.Labels models
    hkeys hmin hmax ha hb hg h1
  refine ⟨⟨node.Name, models⟩, by simpa using h2, rfl, ?_, hfirst⟩
  exact List.mem_of_find?_eq_some hfirst

/-- The normal case of `TestGetNodeInfo`, with the labels visited so that the
maximum comes before the minimum: the NodeInfo of `node1` has the entry
(`A100 80G`, `nvidia-a100-80g`, max 6, min 2). -/
theorem processNodeInfo_min_max_entry_witness :
    ∃ info, ([⟨"node1", [⟨"A100 80G", "nvidia-a100-80g", 6, 2⟩]⟩] : List NodeInfo)[0]? =
        some info ∧ info.Name = testNodeReversed.Name ∧
      ({ DeviceName := "nvidia-a100-80g", Model := "A100 80G", MinDevice := 2,
          MaxDevice := 6 } : ModelConstraints) ∈ info.Models ∧
      info.Models.find? (fun m => decide (m.DeviceName = "nvidia-a100-80g")) =
        some ⟨"A100 80G", "nvidia-a100-80g", 6, 2⟩ :=
  processNodeInfo_min_max_entry [testNodeReversed] testSpec
    [⟨"node1", [⟨"A100 80G", "nvidia-a100-80g", 6, 2⟩]⟩] 0 testNodeReversed
    "nvidia-a100-80g" "2" "6" 2 6 ⟨1, "A100 80G", "nvidia-a100-80g", "", []⟩
    rfl rfl (by decide) (by decide) (by decide) rfl rfl (by decide)

/-! ## Theorems: one entry per device name, getModelName -/

theorem setMaxDevice_names (d model : String) (b : Int) (ms ms2 : List ModelConstraints)
    (h : setMaxDevice d model b ms = some ms2) :
    ms2.map (fun m => m.DeviceName) = ms.map (fun m => m.DeviceName) := by
  induction ms generalizing ms2 with
  | nil => simp [setMaxDevice] at h
  | cons x rest ih =>
    by_cases hx : x.DeviceName = d
    · unfold setMaxDevice at h
      rw [if_pos hx] at h
      cases h
      rfl
    · simp only [setMaxDevice, hx, if_false, Option.map_eq_some'] at h
      obtain ⟨r2, hr, rfl⟩ := h
      simp [ih r2 hr]

theorem setMinDevice_names (d model : String) (a : Int) (ms ms2 : List ModelConstraints)
    (h : setMinDevice d model a ms = some ms2) :
    ms2.map (fun m => m.DeviceName) = ms.map (fun m => m.DeviceName) := by
  induction ms generalizing ms2 with
  | nil => simp [setMinDevice] at h
  | cons x rest ih =>
    by_cases hx : x.DeviceName = d
    · unfold setMinDevice at h
      rw [if_pos hx] at h
      cases h
      rfl
    · simp only [setMinDevice, hx, if_false, Option.map_eq_some'] at h
      obtain ⟨r2, hr, rfl⟩ := h
      simp [ih r2 hr]

theorem not_mem_names_of_firstEntry_none (d : String) (ms : List ModelConstraints)
    (h : firstEntry d ms = none) : d ∉ ms.map (fun m => m.DeviceName) := by
  intro hmem
  obtain ⟨m, hm, hd⟩ := List.mem_map.1 hmem
  have := List.find?_eq_none.1 h m hm
  simp [hd] at this

theorem names_nodup_append (d model : String) (a b : Int) (ms : List ModelConstraints)
    (hn : (ms.map (fun m => m.DeviceName)).Nodup) (h : firstEntry d ms = none) :
    ((ms ++ [(⟨model, d, b, a⟩ : ModelConstraints)]).map (fun m => m.DeviceName)).Nodup := by
  rw [List.map_append, List.nodup_append]
  refine ⟨hn, by simp, ?_⟩
  intro x hx1 hx2
  simp only [List.map_cons, List.map_nil, List.mem_singleton] at hx2
  exact not_mem_names_of_firstEntry_none d ms h (hx2 ▸ hx1)

theorem processLabel_names_nodup (spec : ComposableDRASpec) (ms ms2 : List ModelConstraints)
    (key val : String) (hn : (ms.map (fun m => m.DeviceName)).Nodup)
    (h : processLabel spec ms key val = .ok ms2) :
    (ms2.map (fun m => m.DeviceName)).Nodup := by
  by_cases hkmax : ∃ d, key = spec.LabelPrefix ++ "/" ++ d ++ "-size-max"
  · obtain ⟨d, rfl⟩ := hkmax
    rw [processLabel_max] at h
    cases ha : Atoi val with
    | error err => simp [ha] at h
    | ok n =>
      cases hg : getModelName spec d with
      | error msg => simp [ha, hg] at h
      | ok model =>
        cases hs : setMaxDevice d model n ms with
        | none =>
          simp only [ha, hg, hs, Except.ok.injEq] at h
          rw [← h]
          exact names_nodup_append d model 0 n ms hn
            (firstEntry_of_setMaxDevice_none d model n ms hs)
        | some ms3 =>
          simp only [ha, hg, hs, Except.ok.injEq] at h
          rw [← h, setMaxDevice_names d model n ms ms3 hs]
          exact hn
  · by_cases hkmin : ∃ d, key = spec.LabelPrefix ++ "/" ++ d ++ "-size-min"
    · obtain ⟨d, rfl⟩ := hkmin
      rw [processLabel_min] at h
      cases ha : Atoi val with
      | error err => simp [ha] at h
      | ok n =>
        cases hg : getModelName spec d with
        | error msg => simp [ha, hg] at h
        | ok model =>
          cases hs : setMinDevice d model n ms with
          | none =>
            simp only [ha, hg, hs, Except.ok.injEq] at h
            rw [← h]
            exact names_nodup_append d model n 0 ms hn
              (firstEntry_of_setMinDevice_none d model n ms hs)
          | some ms3 =>
            simp only [ha, hg, hs, Except.ok.injEq] at h
            rw [← h, setMinDevice_names d model n ms ms3 hs]
            exact hn
    · rw [processLabel_other spec ms key val (fun d hd => hkmax ⟨d, hd⟩)
        (fun d hd => hkmin ⟨d, hd⟩)] at h
      simp only [Except.ok.injEq] at h
      rw [← h]
      exact hn

theorem processLabels_names_nodup (spec : ComposableDRASpec) (labels : List (String × String))
    (ms ms2 : List ModelConstraints) (hn : (ms.map (fun m => m.DeviceName)).Nodup)
    (h : processLabels spec labels ms = .ok ms2) :
    (ms2.map (fun m => m.DeviceName)).Nodup := by
  induction labels generalizing ms with
  | nil =>
    simp only [processLabels, Except.ok.injEq] at h
    rw [← h]
    exact hn
  | cons kv rest ih =>
    obtain ⟨key, val⟩ := kv
    obtain ⟨mid, h1, h2⟩ := processLabels_cons spec key val rest ms ms2 h
    exact ih mid (processLabel_names_nodup spec ms mid key val hn h1) h2

theorem processNodes_names_nodup (spec : ComposableDRASpec) (nodes : List Node)
    (acc infos : List NodeInfo)
    (hacc : ∀ info ∈ acc, (info.Models.map (fun m => m.DeviceName)).Nodup)
    (h : processNodes spec nodes acc = .ok infos) :
    ∀ info ∈ infos, (info.Models.map (fun m => m.DeviceName)).Nodup := by
  induction nodes generalizing acc with
  | nil =>
    simp only [processNodes, Except.ok.injEq] at h
    rw [← h]
    exact hacc
  | cons node rest ih =>
    simp only [processNodes] at h
    cases hp : processLabels spec node.Labels [] with
    | error err => simp [hp] at h
    | ok models =>
      simp only [hp] at h
      refine ih _ ?_ h
      intro info hinfo
      rcases List.mem_append.1 hinfo with hi | hi
      · exact hacc info hi
      · simp only [List.mem_singleton] at hi
        rw [hi]
        exact processLabels_names_nodup spec node.Labels [] models (by simp) hp

/-- C11: whenever `processNodeInfo` succeeds, the device names of the Models of every
NodeInfo it returns are pairwise distinct: no device name occurs more than once,
for every node list, every label list (in any order, with or without repeated
keys) and every catalog. -/
theorem processNodeInfo_one_entry_per_device (nodes : List Node) (spec : ComposableDRASpec)
    (infos : List NodeInfo) (hok : processNodeInfo nodes spec = .ok infos) :
    ∀ info ∈ infos,
      (info.Models.map (fun m => m.DeviceName)).Nodup ∧
      ∀ d, (info.Models.map (fun m => m.DeviceName)).count d ≤ 1 := by
  intro info hinfo
  have hn := processNodes_names_nodup spec nodes [] infos (by simp) hok info hinfo
  exact ⟨hn, fun d => List.nodup_iff_count_le_one.1 hn d⟩

/-- The NodeInfo of the test node has one entry for its one device name. -/
theorem processNodeInfo_one_entry_per_device_witness :
    ((⟨"node1", [⟨"A100 80G", "nvidia-a100-80g", 6, 2⟩]⟩ : NodeInfo).Models.map
      (fun m => m.DeviceName)).Nodup :=
  (processNodeInfo_one_entry_per_device [testNode] testSpec
    [⟨"node1", [⟨"A100 80G", "nvidia-a100-80g", 6, 2⟩]⟩] rfl
    ⟨"node1", [⟨"A100 80G", "nvidia-a100-80g", 6, 2⟩]⟩ (List.mem_singleton.2 rfl)).1

/-- C12: for every catalog and device name `d`, `getModelName` returns, with no
error, the CDIModelName of the first catalog entry whose K8sDeviceName is `d`; it
returns an error if and only if no catalog entry has that K8sDeviceName; and the
message of the error is exactly "unknown device name: " followed by `d`. -/
theorem getModelName_first_entry (spec : ComposableDRASpec) (d : String) :
    (∀ e, spec.DeviceInfos.find? (fun x => decide (x.K8sDeviceName = d)) = some e →
      getModelName spec d = .ok e.CDIModelName) ∧
    ((∃ msg, getModelName spec d = .error msg) ↔
      ∀ e ∈ spec.DeviceInfos, e.K8sDeviceName ≠ d) ∧
    (∀ msg, getModelName spec d = .error msg → msg = "unknown device name: " ++ d) ∧
    ((∀ e ∈ spec.DeviceInfos, e.K8sDeviceName ≠ d) →
      getModelName spec d = .error ("unknown device name: " ++ d)) := by
  refine ⟨?_, getModelName_error_iff spec d, ?_, ?_⟩
  · intro e he
    rw [getModelName_eq_find, he]
  · intro msg h
    rw [getModelName_eq_find] at h
    cases hf : spec.DeviceInfos.find? (fun x => decide (x.K8sDeviceName = d)) with
    | none =>
      simp only [hf, Except.error.injEq] at h
      exact h.symm
    | some e => simp [hf] at h
  · intro hall
    rw [getModelName_eq_find]
    have hf : spec.DeviceInfos.find? (fun x => decide (x.K8sDeviceName = d)) = none := by
      rw [List.find?_eq_none]
      intro e he
      simpa using hall e he
    rw [hf]

/-- The two cases of `TestGetModelName`: the known device name gives the model
"A100 40G", the unknown one the error "unknown device name: nvidia-a33". -/
theorem getModelName_first_entry_witness :
    getModelName ⟨"", [⟨1, "A100 40G", "nvidia-a100-40", "", []⟩], []⟩ "nvidia-a100-40" =
      .ok "A100 40G" ∧
    getModelName ⟨"", [⟨1, "A100 40G", "nvidia-a100-40", "", []⟩], []⟩ "nvidia-a33" =
      .error "unknown device name: nvidia-a33" :=
  ⟨(getModelName_first_entry ⟨"", [⟨1, "A100 40G", "nvidia-a100-40", "", []⟩], []⟩
      "nvidia-a100-40").1 ⟨1, "A100 40G", "nvidia-a100-40", "", []⟩ (by decide),
    (getModelName_first_entry ⟨"", [⟨1, "A100 40G", "nvidia-a100-40", "", []⟩], []⟩
      "nvidia-a33").2.2.2 (by decide)⟩

/-! ## Theorems: the conditions that PatchResourceClaimDeviceConditions sets -/

theorem replaceCondition_none (T : String) (nc : Condition) (l : List Condition)
    (h : ∀ c ∈ l, c.ConditionType ≠ T) : replaceCondition T nc l = none := by
  induction l with
  | nil => rfl
  | cons x rest ih =>
    have hx := h x (List.mem_cons_self _ _)
    simp only [replaceCondition, hx, if_false, Option.map_eq_none']
    exact ih (fun c hc => h c (List.mem_cons_of_mem _ hc))

theorem replaceCondition_first (T : String) (nc : Condition) (pre post : List Condition)
    (c : Condition) (hpre : ∀ x ∈ pre, x.ConditionType ≠ T) (hc : c.ConditionType = T) :
    replaceCondition T nc (pre ++ c :: post) =
      some (pre ++ (if c.Status ≠ nc.Status then nc else c) :: post) := by
  induction pre with
  | nil =>
    simp only [List.nil_append, replaceCondition, hc, if_true]
    split <;> rfl
  | cons x rest ih =>
    have hx := hpre x (List.mem_cons_self _ _)
    rw [List.cons_append, replaceCondition, if_neg hx,
      ih (fun y hy => hpre y (List.mem_cons_of_mem _ hy))]
    rfl

theorem exists_first_of_type (T : String) (l : List Condition)
    (h : ∃ c ∈ l, c.ConditionType = T) :
    ∃ pre c post, l = pre ++ c :: post ∧ (∀ x ∈ pre, x.ConditionType ≠ T) ∧
      c.ConditionType = T := by
  induction l with
  | nil => simp at h
  | cons x rest ih =>
    by_cases hx : x.ConditionType = T
    · exact ⟨[], x, rest, rfl, by simp, hx⟩
    · obtain ⟨c, hc, hct⟩ := h
      rcases List.mem_cons.1 hc with rfl | hc
      · exact absurd hct hx
      · obtain ⟨pre, c2, post, hl, hpre, hc2⟩ := ih ⟨c, hc, hct⟩
        refine ⟨x :: pre, c2, post, by rw [hl]; rfl, ?_, hc2⟩
        intro y hy
        rcases List.mem_cons.1 hy with rfl | hy
        · exact hx
        · exact hpre y hy

theorem setDeviceCondition_absent (T : String) (now : Int) (d : AllocatedDeviceStatus)
    (h : ∀ c ∈ d.Conditions.getD [], c.ConditionType ≠ T) :
    (setDeviceCondition T now d).Conditions = some (d.Conditions.getD [] ++ [⟨T, "True", now⟩]) := by
  unfold setDeviceCondition
  simp only [replaceCondition_none T _ _ h]

theorem setDeviceCondition_present (T : String) (now : Int) (d : AllocatedDeviceStatus)
    (pre post : List Condition) (c : Condition)
    (hl : d.Conditions.getD [] = pre ++ c :: post)
    (hpre : ∀ x ∈ pre, x.ConditionType ≠ T) (hc : c.ConditionType = T) :
    (setDeviceCondition T now d).Conditions =
      some (pre ++ (if c.Status ≠ "True" then ⟨T, "True", now⟩ else c) :: post) := by
  unfold setDeviceCondition
  simp only [hl, replaceCondition_first T _ pre post c hpre hc]

theorem setDeviceCondition_fields (T : String) (now : Int) (d : AllocatedDeviceStatus) :
    (setDeviceCondition T now d).Driver = d.Driver ∧
    (setDeviceCondition T now d).Pool = d.Pool ∧
    (setDeviceCondition T now d).Device = d.Device := by
  unfold setDeviceCondition
  cases h : replaceCondition T ⟨T, "True", now⟩ (d.Conditions.getD []) <;> simp [h]

theorem setDeviceCondition_others (T : String) (now : Int) (d : AllocatedDeviceStatus) :
    ((setDeviceCondition T now d).Conditions.getD []).length ≤
      (d.Conditions.getD []).length + 1 ∧
    (d.Conditions.getD []).length ≤ ((setDeviceCondition T now d).Conditions.getD []).length ∧
    ∀ (j : Nat) (c : Condition), (d.Conditions.getD [])[j]? = some c → c.ConditionType ≠ T →
      ((setDeviceCondition T now d).Conditions.getD [])[j]? = some c := by
  by_cases h : ∃ c ∈ d.Conditions.getD [], c.ConditionType = T
  · obtain ⟨pre, c, post, hl, hpre, hc⟩ := exists_first_of_type T _ h
    rw [setDeviceCondition_present T now d pre post c hl hpre hc, hl]
    refine ⟨by simp, by simp, ?_⟩
    intro j x hj hx
    simp only [Option.getD_some]
    rcases Nat.lt_trichotomy j pre.length with hlt | heq | hgt
    · rw [List.getElem?_append_left hlt] at hj ⊢
      exact hj
    · rw [heq, List.getElem?_append_right (Nat.le_refl _), Nat.sub_self] at hj
      simp only [List.getElem?_cons_zero, Option.some.injEq] at hj
      exact absurd (hj ▸ hc) hx
    · obtain ⟨k, rfl⟩ : ∃ k, j = pre.length + (k + 1) := ⟨j - pre.length - 1, by omega⟩
      rw [List.getElem?_append_right (by omega)] at hj ⊢
      rw [show pre.length + (k + 1) - pre.length = k + 1 by omega] at hj ⊢
      simpa using hj
  · have h2 : ∀ c ∈ d.Conditions.getD [], c.ConditionType ≠ T := fun c hc hct => h ⟨c, hc, hct⟩
    rw [setDeviceCondition_absent T now d h2]
    refine ⟨by simp, by simp, ?_⟩
    intro j x hj hx
    simp only [Option.getD_some]
    have hlt : j < (d.Conditions.getD []).length := by
      by_contra hge
      rw [List.getElem?_eq_none (by omega)] at hj
      cases hj
    rw [List.getElem?_append_left hlt]
    exact hj

theorem setDeviceConditions_getElem {σ : Type} (C : Client σ) (T : String)
    (devices : List AllocatedDeviceStatus) (w : σ) :
    (setDeviceConditions C T devices w).1.length = devices.length ∧
    ∀ (i : Nat) (d : AllocatedDeviceStatus), devices[i]? = some d →
      ∃ now, (setDeviceConditions C T devices w).1[i]? = some (setDeviceCondition T now d) := by
  induction devices generalizing w with
  | nil => simp [setDeviceConditions]
  | cons x rest ih =>
    rcases hn : C.Now w with ⟨now, w1⟩
    rcases hr : setDeviceConditions C T rest w1 with ⟨rest2, w2⟩
    have ih1 := ih w1
    rw [hr] at ih1
    simp only [setDeviceConditions, hn, hr, List.length_cons]
    refine ⟨by rw [ih1.1], ?_⟩
    intro i d hi
    cases i with
    | zero =>
      simp only [List.getElem?_cons_zero, Option.some.injEq] at hi
      exact ⟨now, by simp [hi]⟩
    | succ j =>
      simp only [List.getElem?_cons_succ] at hi ⊢
      exact ih1.2 j d hi

theorem PatchResourceClaimDeviceConditionsLoop_succ {σ : Type} (C : Client σ)
    (name ns conditionType : String) (n : Nat) (lastErr : Option Error) (w w1 : σ)
    (existingRC : ResourceClaim) (hget : C.GetResourceClaim w name ns = (.ok existingRC, w1)) :
    PatchResourceClaimDeviceConditionsLoop C name ns conditionType (n + 1) lastErr w =
      match C.PatchResourceClaim (setDeviceConditions C conditionType existingRC.Devices w1).2
          (modifiedRC C conditionType existingRC w1) existingRC with
      | (some err, w3) =>
        if err.IsConflict then
          (PatchResourceClaimDeviceConditionsLoop C name ns conditionType n (some err) w3).after
            [.Get name none, .Patch name (some err)]
        else
          ⟨some (.wrapped "failed to patch ResourceClaim status" err), w3,
            [.Get name none, .Patch name (some err)]⟩
      | (none, w3) => ⟨none, w3, [.Get name none, .Patch name none]⟩ := by
  rw [PatchResourceClaimDeviceConditionsLoop, hget]
  rfl

/-- C20: the claim that `PatchResourceClaimDeviceConditions` builds for the patch
has the same status devices, in the same order and with the same driver, pool and
device name; the condition list of each is the original list with one change: when
no condition has type `T`, the condition (`T`, "True") is appended at the end;
otherwise the first condition of type `T` is replaced by (`T`, "True") when its
status is not "True" and is left as it is when its status is "True". Every
condition of another type keeps its value and its position, and the list grows by
at most one entry. -/
theorem modifiedRC_conditions {σ : Type} (C : Client σ) (T : String) (rc : ResourceClaim)
    (w : σ) :
    (modifiedRC C T rc w).Devices.length = rc.Devices.length ∧
    ∀ (i : Nat) (d : AllocatedDeviceStatus), rc.Devices[i]? = some d →
      ∃ d2 now, (modifiedRC C T rc w).Devices[i]? = some d2 ∧
        d2.Driver = d.Driver ∧ d2.Pool = d.Pool ∧ d2.Device = d.Device ∧
        ((∀ c ∈ d.Conditions.getD [], c.ConditionType ≠ T) →
          d2.Conditions = some (d.Conditions.getD [] ++ [⟨T, "True", now⟩])) ∧
        (∀ pre c post, d.Conditions.getD [] = pre ++ c :: post →
          (∀ x ∈ pre, x.ConditionType ≠ T) → c.ConditionType = T →
          d2.Conditions =
            some (pre ++ (if c.Status ≠ "True" then ⟨T, "True", now⟩ else c) :: post)) ∧
        (∀ (j : Nat) (c : Condition), (d.Conditions.getD [])[j]? = some c →
          c.ConditionType ≠ T → (d2.Conditions.getD [])[j]? = some c) ∧
        (d2.Conditions.getD []).length ≤ (d.Conditions.getD []).length + 1 := by
  have h := setDeviceConditions_getElem C T rc.Devices w
  refine ⟨h.1, ?_⟩
  intro i d hi
  obtain ⟨now, hnow⟩ := h.2 i d hi
  have hf := setDeviceCondition_fields T now d
  have ho := setDeviceCondition_others T now d
  exact ⟨setDeviceCondition T now d, now, hnow, hf.1, hf.2.1, hf.2.2,
    setDeviceCondition_absent T now d,
    fun pre c post hl hpre hc => setDeviceCondition_present T now d pre post c hl hpre hc,
    ho.2.2, ho.1⟩

/-- On the sample claim the reschedule condition, which is not true, is replaced in
place and the condition of the other type stays first. -/
theorem modifiedRC_conditions_witness :
    (modifiedRC sampleClient "FabricDeviceReschedule" sampleClaim quietWorld).Devices.length =
      sampleClaim.Devices.length ∧
    (modifiedRC sampleClient "FabricDeviceReschedule" sampleClaim quietWorld).Devices =
      [⟨"gpu.nvidia.com", "pool", "gpu-1",
        some [⟨"Other", "True", 0⟩, ⟨"FabricDeviceReschedule", "True", 0⟩]⟩] :=
  ⟨(modifiedRC_conditions sampleClient "FabricDeviceReschedule" sampleClaim quietWorld).1,
    by decide⟩

/-! ## Theorems: the maximum is not enforced -/

theorem scanRequests_ignores_limit {σ : Type} (E : Env σ) (g : NodeInfo → String → Int × Int)
    (r : ResourceMonitorReconciler) (nodeInfo : NodeInfo) (spec : ComposableDRASpec)
    (device : DeviceInfo) (c : Int) (items : List ComposabilityRequest) (w : σ) :
    scanRequests { E with GetModelLimit := g } r nodeInfo spec device c items w =
      scanRequests E r nodeInfo spec device c items w := by
  induction items with
  | nil => rfl
  | cons cr rest ih =>
    unfold scanRequests
    rw [ih]

theorem handleDevice_ignores_max {σ : Type} (E : Env σ) (g : NodeInfo → String → Int × Int)
    (hmin : ∀ n m, (g n m).2 = (E.GetModelLimit n m).2)
    (r : ResourceMonitorReconciler) (nodeInfo : NodeInfo) (claims : List ResourceClaimInfo)
    (slices : List ResourceSliceInfo) (spec : ComposableDRASpec)
    (items : List ComposabilityRequest) (device : DeviceInfo) (w : σ) :
    handleDevice { E with GetModelLimit := g } r nodeInfo claims slices spec items device w =
      handleDevice E r nodeInfo claims slices spec items device w := by
  unfold handleDevice
  simp only [hmin, scanRequests_ignores_limit]

theorem handleDevicesLoop_ignores_max {σ : Type} (E : Env σ)
    (g : NodeInfo → String → Int × Int)
    (hmin : ∀ n m, (g n m).2 = (E.GetModelLimit n m).2)
    (r : ResourceMonitorReconciler) (nodeInfo : NodeInfo) (claims : List ResourceClaimInfo)
    (slices : List ResourceSliceInfo) (spec : ComposableDRASpec)
    (items : List ComposabilityRequest) (devices : List DeviceInfo) (w : σ) :
    handleDevicesLoop { E with GetModelLimit := g } r nodeInfo claims slices spec items devices w =
      handleDevicesLoop E r nodeInfo claims slices spec items devices w := by
  induction devices generalizing w with
  | nil => rfl
  | cons d rest ih =>
    unfold handleDevicesLoop
    simp only [handleDevice_ignores_max E g hmin, ih]

/-- C18: two runs of `handleDevices` that differ only in the maximum that
GetModelLimit returns (same minimum, same counts, same listed requests, same
answers to the calls) end with the same error, in the same world and with the same
sequence of calls, sizes included; and in an iteration whose clamped count
`max counted minLimit` exceeds the maximum, every call issued asks for that count,
which is larger than the maximum. -/
theorem handleDevices_ignores_max {σ : Type} (E : Env σ) (g : NodeInfo → String → Int × Int)
    (hmin : ∀ n m, (g n m).2 = (E.GetModelLimit n m).2)
    (r : ResourceMonitorReconciler) (nodeInfo : NodeInfo) (claims : List ResourceClaimInfo)
    (slices : List ResourceSliceInfo) (spec : ComposableDRASpec) (w : σ) :
    handleDevices { E with GetModelLimit := g } r nodeInfo claims slices spec w =
      handleDevices E r nodeInfo claims slices spec w ∧
    ∀ (items : List ComposabilityRequest) (device : DeviceInfo) (w1 w2 : σ) (counted : Int),
      E.GetConfiguredDeviceCount w1 device.CDIModelName nodeInfo.Name claims slices =
        (.ok counted, w2) →
      (E.GetModelLimit nodeInfo device.CDIModelName).1 <
        max counted (E.GetModelLimit nodeInfo device.CDIModelName).2 →
      (∀ call ∈ (handleDevice E r nodeInfo claims slices spec items device w1).calls,
        call.count = max counted (E.GetModelLimit nodeInfo device.CDIModelName).2 ∧
        (E.GetModelLimit nodeInfo device.CDIModelName).1 < call.count) ∧
      ((∀ x ∈ items, ¬ (x.Model = device.CDIModelName ∧ x.TargetNode = nodeInfo.Name)) →
        0 < max counted (E.GetModelLimit nodeInfo device.CDIModelName).2 →
        (handleDevice E r nodeInfo claims slices spec items device w1).calls =
          [Call.DynamicAttach none (max counted (E.GetModelLimit nodeInfo device.CDIModelName).2)
            (E.GetDriverType device.DriverName) device.CDIModelName nodeInfo.Name]) := by
  constructor
  · unfold handleDevices
    show (match E.ListComposabilityRequests w with
      | (.error err, w1) => (⟨some err, w1, []⟩ : Outcome σ)
      | (.ok items, w1) =>
        handleDevicesLoop { E with GetModelLimit := g } r nodeInfo claims slices spec items
          spec.DeviceInfos w1) = _
    simp only [handleDevicesLoop_ignores_max E g hmin]
  · intro items device w1 w2 counted hcount hgt
    constructor
    · intro call hcall
      cases hf : items.find? (requestMatches device nodeInfo) with
      | none =>
        have hnone : ∀ x ∈ items, requestMatches device nodeInfo x = false := by
          intro x hx
          have := List.find?_eq_none.1 hf x hx
          simpa using this
        rw [handleDevice_calls_of_no_match E r nodeInfo claims slices spec items device w1 w2
          counted hcount hnone, clampCount_eq_max] at hcall
        split at hcall
        · simp only [List.mem_singleton] at hcall
          subst hcall
          exact ⟨rfl, hgt⟩
        · simp at hcall
      | some cr =>
        rw [handleDevice_calls_of_match E r nodeInfo claims slices spec items device w1 w2
          counted cr hcount hf, clampCount_eq_max] at hcall
        split at hcall
        · simp only [List.mem_singleton] at hcall
          subst hcall
          exact ⟨rfl, hgt⟩
        · split at hcall
          · simp only [List.mem_singleton] at hcall
            subst hcall
            exact ⟨rfl, hgt⟩
          · simp at hcall
    · intro hno hpos
      have hnone : ∀ x ∈ items, requestMatches device nodeInfo x = false := by
        intro x hx
        have h := hno x hx
        rw [← requestMatches_iff] at h
        simpa using h
      rw [handleDevice_calls_of_no_match E r nodeInfo claims slices spec items device w1 w2
        counted hcount hnone, clampCount_eq_max]
      simp [hpos]

/-- With a count of 9 and no request, the create asks for 9 devices whether the
maximum of the node is 6 or 100. -/
theorem handleDevices_ignores_max_witness :
    handleDevices (sampleEnvWithMax 6 9 []) sampleReconciler sampleNode [] [] sampleSpec 0 =
      handleDevices (sampleEnv 9 []) sampleReconciler sampleNode [] [] sampleSpec 0 ∧
    (handleDevices (sampleEnvWithMax 6 9 []) sampleReconciler sampleNode [] [] sampleSpec 0).calls =
      [Call.DynamicAttach none 9 "gpu" "M" "node1"] ∧
    (handleDevices (sampleEnvWithMax 100 9 []) sampleReconciler sampleNode [] [] sampleSpec
      0).calls = [Call.DynamicAttach none 9 "gpu" "M" "node1"] :=
  ⟨(handleDevices_ignores_max (sampleEnv 9 []) (fun _ _ => (6, 2)) (fun _ _ => rfl)
      sampleReconciler sampleNode [] [] sampleSpec 0).1, by decide, by decide⟩

/-! ## Theorems: GetResourceClaimInfo -/

/-- A device whose condition list is nil gets the empty state. -/
theorem deviceState_nil : deviceState none = .ok "" := rfl

/-- Only the first condition of a list that has one decides the state. -/
theorem deviceState_cons (first : Condition) (rest : List Condition) :
    deviceState (some (first :: rest)) =
      .ok (if first.ConditionType = "FabricDeviceReschedule" ∧ first.Status = "True" then
            "Reschedule"
          else if first.ConditionType = "FabricDeviceFailed" ∧ first.Status = "True" then
            "Failed"
          else "Preparing") := by
  simp only [deviceState]
  split_ifs <;> rfl

/-- The state is defined for every condition list but the empty one that is not nil. -/
theorem deviceState_ok_of_ne (conditions : Option (List Condition))
    (h : conditions ≠ some []) : ∃ state, deviceState conditions = .ok state := by
  match conditions, h with
  | none, _ => exact ⟨_, rfl⟩
  | some [], h => exact absurd rfl h
  | some (first :: rest), _ => exact ⟨_, deviceState_cons first rest⟩

/-- Looking for the slice of a device leaves name, namespace and devices alone. -/
theorem locateClaim_fields (slices : List ResourceSlice) (device : AllocatedDeviceStatus)
    (info : ResourceClaimInfo) :
    (locateClaim slices device info).Name = info.Name ∧
    (locateClaim slices device info).Namespace = info.Namespace ∧
    (locateClaim slices device info).Devices = info.Devices := by
  unfold locateClaim
  split_ifs
  · cases findSliceOfDevice device slices <;> exact ⟨rfl, rfl, rfl⟩
  · exact ⟨rfl, rfl, rfl⟩

/-- What the loop over the status devices of a claim returns: name and namespace
are kept and one device is added per status device, in order, with the name of the
status device and the state of its condition list. -/
theorem claimDevices_spec (slices : List ResourceSlice) :
    ∀ (devices : List AllocatedDeviceStatus) (info out : ResourceClaimInfo),
      claimDevices slices devices info = .ok out →
      out.Name = info.Name ∧ out.Namespace = info.Namespace ∧
      ∃ added, out.Devices = info.Devices ++ added ∧
        List.Forall₂ (fun (device : AllocatedDeviceStatus) (entry : ResourceClaimDevice) =>
          entry.Name = device.Device ∧ deviceState device.Conditions = .ok entry.State)
          devices added := by
  intro devices
  induction devices with
  | nil =>
    intro info out h
    simp only [claimDevices, Except.ok.injEq] at h
    subst h
    exact ⟨rfl, rfl, [], by simp, List.Forall₂.nil⟩
  | cons device rest ih =>
    intro info out h
    rw [claimDevices] at h
    cases hstate : deviceState device.Conditions with
    | error p => simp [hstate] at h
    | ok state =>
      simp only [hstate] at h
      obtain ⟨hname, hns, added, hdev, hall⟩ := ih _ _ h
      obtain ⟨lname, lns, ldev⟩ := locateClaim_fields slices device info
      refine ⟨hname.trans lname, hns.trans lns, ⟨device.Device, "", state⟩ :: added, ?_, ?_⟩
      · rw [hdev]
        simp only [ldev, List.append_assoc, List.singleton_append]
      · exact List.Forall₂.cons ⟨rfl, hstate⟩ hall

/-- The loop over the status devices returns unless the state of a device is
undefined. -/
theorem claimDevices_ok (slices : List ResourceSlice) :
    ∀ (devices : List AllocatedDeviceStatus) (info : ResourceClaimInfo),
      (∀ device ∈ devices, device.Conditions ≠ some []) →
      ∃ out, claimDevices slices devices info = .ok out := by
  intro devices
  induction devices with
  | nil => intro info _; exact ⟨info, rfl⟩
  | cons device rest ih =>
    intro info h
    obtain ⟨state, hstate⟩ := deviceState_ok_of_ne device.Conditions
      (h device (List.mem_cons_self _ _))
    rw [claimDevices]
    simp only [hstate]
    exact ih _ (fun d hd => h d (List.mem_cons_of_mem _ hd))

/-- What the loop over the listed claims returns: one entry is added per claim that
is reserved, in order, and none for the others. -/
theorem claimInfos_spec (slices : List ResourceSlice) :
    ∀ (claims : List ResourceClaim) (acc out : List ResourceClaimInfo),
      claimInfos slices claims acc = .ok out →
      ∃ added, out = acc ++ added ∧
        List.Forall₂ IsEntryOf (claims.filter (fun rc => decide (rc.ReservedFor ≠ []))) added := by
  intro claims
  induction claims with
  | nil =>
    intro acc out h
    simp only [claimInfos, Except.ok.injEq] at h
    subst h
    exact ⟨[], by simp, by simp⟩
  | cons rc rest ih =>
    intro acc out h
    rw [claimInfos] at h
    by_cases hres : rc.ReservedFor.length = 0
    · rw [if_pos hres] at h
      obtain ⟨added, hout, hall⟩ := ih _ _ h
      have hnil : rc.ReservedFor = [] := List.length_eq_zero.mp hres
      refine ⟨added, hout, ?_⟩
      rw [List.filter_cons_of_neg (by simp [hnil])]
      exact hall
    · rw [if_neg hres] at h
      have hne : rc.ReservedFor ≠ [] := fun hnil => hres (by rw [hnil]; rfl)
      cases hdev : claimDevices slices rc.Devices
          ⟨rc.Name, rc.Namespace, "", "", rc.CreationTimestamp, []⟩ with
      | error p => simp [hdev] at h
      | ok info =>
        simp only [hdev] at h
        obtain ⟨added, hout, hall⟩ := ih _ _ h
        obtain ⟨hname, hns, devs, hdevs, hfor⟩ := claimDevices_spec slices _ _ _ hdev
        refine ⟨info :: added, ?_, ?_⟩
        · rw [hout]
          simp only [List.append_assoc, List.singleton_append]
        · rw [List.filter_cons_of_pos (by simp [hne])]
          refine List.Forall₂.cons ⟨hname, hns, ?_⟩ hall
          rw [hdevs]
          exact hfor

/-- The loop over the listed claims returns unless the state of a device of a
reserved claim is undefined. -/
theorem claimInfos_ok (slices : List ResourceSlice) :
    ∀ (claims : List ResourceClaim) (acc : List ResourceClaimInfo),
      (∀ rc ∈ claims, rc.ReservedFor ≠ [] → ∀ device ∈ rc.Devices, device.Conditions ≠ some []) →
      ∃ out, claimInfos slices claims acc = .ok out := by
  intro claims
  induction claims with
  | nil => intro acc _; exact ⟨acc, rfl⟩
  | cons rc rest ih =>
    intro acc h
    rw [claimInfos]
    by_cases hres : rc.ReservedFor.length = 0
    · rw [if_pos hres]
      exact ih _ (fun c hc => h c (List.mem_cons_of_mem _ hc))
    · rw [if_neg hres]
      have hne : rc.ReservedFor ≠ [] := fun hnil => hres (by rw [hnil]; rfl)
      obtain ⟨info, hinfo⟩ := claimDevices_ok slices rc.Devices
        ⟨rc.Name, rc.Namespace, "", "", rc.CreationTimestamp, []⟩
        (h rc (List.mem_cons_self _ _) hne)
      simp only [hinfo]
      exact ih _ (fun c hc => h c (List.mem_cons_of_mem _ hc))

/-- The output of `GetResourceClaimInfo` when both listings succeed and no device of
a reserved claim has a condition list that is empty without being nil: one entry per
reserved claim, in the order of the listing, and no error. -/
theorem GetResourceClaimInfo_entries {σ : Type} (R : Reader σ) (w w1 w2 : σ)
    (claims : List ResourceClaim) (slices : List ResourceSlice)
    (hclaims : R.ListResourceClaims w = (.ok claims, w1))
    (hslices : R.ListResourceSlices w1 = (.ok slices, w2))
    (hcond : ∀ rc ∈ claims, rc.ReservedFor ≠ [] →
      ∀ device ∈ rc.Devices, device.Conditions ≠ some []) :
    ∃ infos, (GetResourceClaimInfo R w).result = .ok (infos, none) ∧
      List.Forall₂ IsEntryOf (claims.filter (fun rc => decide (rc.ReservedFor ≠ []))) infos := by
  obtain ⟨out, hout⟩ := claimInfos_ok slices claims [] hcond
  obtain ⟨added, hadd, hall⟩ := claimInfos_spec slices claims [] out hout
  refine ⟨out, ?_, ?_⟩
  · simp only [GetResourceClaimInfo, hclaims, hslices, hout]
  · rw [hadd, List.nil_append]
    exact hall

/-- C13, the diverging run: the device of the reserved claim `emptyConditionsClaim`
has no condition (its list is empty without being nil), and `GetResourceClaimInfo`
does not leave its state empty: the index `[0]` of line 65 panics and nothing is
returned, while a device whose list is nil gets the empty state. -/
theorem GetResourceClaimInfo_no_condition_panics :
    emptyConditionsClaim.ReservedFor ≠ [] ∧
    emptyConditionsClaim.Devices.map (fun device => device.Conditions) = [some []] ∧
    (GetResourceClaimInfo (sampleReader [emptyConditionsClaim] [testSlice] [] (.ok [])) 0).result =
      .error .indexOutOfRange ∧
    deviceState none = .ok "" :=
  ⟨by decide, rfl, rfl, rfl⟩

/-- C14, the diverging run: both `testClaim` and `emptyConditionsClaim` are reserved,
and `GetResourceClaimInfo` returns no output at all for the listing of the two, hence
no entry for either of them; without the second claim the entry of `testClaim` is
returned. -/
theorem GetResourceClaimInfo_no_output_on_panic :
    testClaim.ReservedFor ≠ [] ∧ emptyConditionsClaim.ReservedFor ≠ [] ∧
    (GetResourceClaimInfo
      (sampleReader [testClaim, emptyConditionsClaim] [testSlice] [] (.ok [])) 0).result =
      .error .indexOutOfRange ∧
    (GetResourceClaimInfo (sampleReader [testClaim] [testSlice] [] (.ok [])) 0).result =
      .ok ([⟨"test-claim-1", "default", "node1", "test-resourceslice-1", 0,
        [⟨"gpu-1", "", "Reschedule"⟩, ⟨"gpu-2", "", "Failed"⟩, ⟨"gpu-3", "", "Preparing"⟩]⟩],
        none) :=
  ⟨by decide, by decide, rfl, rfl⟩

/-! ## Theorems: collectInfo -/

/-- `GetConfigMapInfo` returns the zero value of the config when the ConfigMap cannot
be read. -/
theorem GetConfigMapInfo_of_get_error {σ : Type} (R : Reader σ) (w w1 : σ) (e : Error)
    (h : R.GetConfigMap w = (.error e, w1)) :
    (GetConfigMapInfo R w).result =
      .ok (zeroSpec, some (.helper (.wrapped "failed to get ConfigMap" e))) := by
  simp only [GetConfigMapInfo, h]

/-- C15, counterexample: the claim list, the slice list and the config read succeed
and the node list fails; `collectInfo` returns the error of the node list together
with the config that was read, which is not the zero value. -/
theorem collectInfo_config_counterexample :
    ∃ vals err,
      (collectInfo (sampleReader [] [] testSpec.DeviceInfos (.error (failure "down"))) 0).result =
        .ok (vals, some err) ∧
      (collectInfo (sampleReader [] [] testSpec.DeviceInfos (.error (failure "down"))) 0).steps =
        collectSteps ∧
      vals.composableDRASpec = ⟨"p", testSpec.DeviceInfos, []⟩ ∧
      vals.composableDRASpec ≠ zeroSpec :=
  ⟨⟨[], [], [], ⟨"p", testSpec.DeviceInfos, []⟩⟩,
    .helper (.wrapped "failed to list Nodes" (failure "down")), rfl, rfl, rfl, by decide⟩

/-- What `collectInfo` has done when it returns: the steps run are an initial part
of the four steps; a returned error is the one of the last step run, with empty
collections and the config of the source; without an error all four steps ran
without error and their values are returned. -/
theorem collectInfo_of_result {σ : Type} (R : Reader σ) (w : σ) :
    (collectInfo R w).steps <+: collectSteps ∧
    (∀ vals err, (collectInfo R w).result = .ok (vals, some err) →
      vals.resourceClaimInfos = [] ∧ vals.resourceSliceInfos = [] ∧ vals.nodeInfos = [] ∧
      (((collectInfo R w).steps = [.GetResourceClaimInfo] ∧
          (∃ x, (GetResourceClaimInfo R w).result = .ok (x, some err)) ∧
          vals.composableDRASpec = zeroSpec) ∨
       (∃ claims, (GetResourceClaimInfo R w).result = .ok (claims, none) ∧
        (((collectInfo R w).steps = [.GetResourceClaimInfo, .GetResourceSliceInfo] ∧
            (∃ x, (GetResourceSliceInfo R (GetResourceClaimInfo R w).world).result =
              .ok (x, some err)) ∧
            vals.composableDRASpec = zeroSpec) ∨
         (∃ slices, (GetResourceSliceInfo R (GetResourceClaimInfo R w).world).result =
            .ok (slices, none) ∧
          (((collectInfo R w).steps =
                [.GetResourceClaimInfo, .GetResourceSliceInfo, .GetConfigMapInfo] ∧
              (GetConfigMapInfo R
                (GetResourceSliceInfo R (GetResourceClaimInfo R w).world).world).result =
                .ok (vals.composableDRASpec, some err)) ∨
           ((collectInfo R w).steps = collectSteps ∧
              (GetConfigMapInfo R
                (GetResourceSliceInfo R (GetResourceClaimInfo R w).world).world).result =
                .ok (vals.composableDRASpec, none) ∧
              ∃ x, (GetNodeInfo R vals.composableDRASpec
                (GetConfigMapInfo R
                  (GetResourceSliceInfo R (GetResourceClaimInfo R w).world).world).world).result =
                .ok (x, some err)))))))) ∧
    (∀ vals, (collectInfo R w).result = .ok (vals, none) →
      (collectInfo R w).steps = collectSteps ∧
      (GetResourceClaimInfo R w).result = .ok (vals.resourceClaimInfos, none) ∧
      (GetResourceSliceInfo R (GetResourceClaimInfo R w).world).result =
        .ok (vals.resourceSliceInfos, none) ∧
      (GetConfigMapInfo R
        (GetResourceSliceInfo R (GetResourceClaimInfo R w).world).world).result =
        .ok (vals.composableDRASpec, none) ∧
      (GetNodeInfo R vals.composableDRASpec
        (GetConfigMapInfo R
          (GetResourceSliceInfo R (GetResourceClaimInfo R w).world).world).world).result =
        .ok (vals.nodeInfos, none)) ∧
    (∀ w0 w1 e, R.GetConfigMap w0 = (.error e, w1) →
      (GetConfigMapInfo R w0).result =
        .ok (zeroSpec, some (.helper (.wrapped "failed to get ConfigMap" e)))) := by
  have hcfg := fun w0 w1 e h => GetConfigMapInfo_of_get_error R w0 w1 e h
  cases h1 : GetResourceClaimInfo R w with
  | mk res1 w1 =>
  rcases res1 with p | ⟨claims, _ | e1⟩
  · refine ⟨?_, ?_, ?_, hcfg⟩ <;> simp [collectInfo, h1, collectSteps]
  · cases h2 : GetResourceSliceInfo R w1 with
    | mk res2 w2 =>
    rcases res2 with p | ⟨slices, _ | e2⟩
    · refine ⟨?_, ?_, ?_, hcfg⟩ <;> simp [collectInfo, h1, h2, collectSteps]
    · cases h3 : GetConfigMapInfo R w2 with
      | mk res3 w3 =>
      rcases res3 with p | ⟨cfg, _ | e3⟩
      · refine ⟨?_, ?_, ?_, hcfg⟩ <;> simp [collectInfo, h1, h2, h3, collectSteps]
      · cases h4 : GetNodeInfo R cfg w3 with
        | mk res4 w4 =>
        rcases res4 with p | ⟨nodes, _ | e4⟩
        · refine ⟨?_, ?_, ?_, hcfg⟩ <;> simp [collectInfo, h1, h2, h3, h4, collectSteps]
        · refine ⟨?_, ?_, ?_, hcfg⟩ <;> simp [collectInfo, h1, h2, h3, h4, collectSteps]
        · refine ⟨?_, ?_, ?_, hcfg⟩ <;> simp [collectInfo, h1, h2, h3, h4, collectSteps]
      · refine ⟨?_, ?_, ?_, hcfg⟩ <;> simp [collectInfo, h1, h2, h3, collectSteps]
    · refine ⟨?_, ?_, ?_, hcfg⟩ <;> simp [collectInfo, h1, h2, collectSteps]
  · refine ⟨?_, ?_, ?_, hcfg⟩ <;> simp [collectInfo, h1, collectSteps]

/-- The run of `collectInfo`, step by step: the step that returns an error ends the
function, which returns that error with empty collections and with the config as it
stands (the zero value before the config read, the value of `GetConfigMapInfo` from
then on); when the four steps return no error their values are returned. -/
theorem collectInfo_steps {σ : Type} (R : Reader σ) (w : σ) :
    (∀ x err w1, GetResourceClaimInfo R w = ⟨.ok (x, some err), w1⟩ →
      collectInfo R w =
        ⟨.ok (⟨[], [], [], zeroSpec⟩, some err), w1, [.GetResourceClaimInfo]⟩) ∧
    (∀ claims w1 x err w2, GetResourceClaimInfo R w = ⟨.ok (claims, none), w1⟩ →
      GetResourceSliceInfo R w1 = ⟨.ok (x, some err), w2⟩ →
      collectInfo R w =
        ⟨.ok (⟨[], [], [], zeroSpec⟩, some err), w2,
          [.GetResourceClaimInfo, .GetResourceSliceInfo]⟩) ∧
    (∀ claims w1 slices w2 cfg err w3, GetResourceClaimInfo R w = ⟨.ok (claims, none), w1⟩ →
      GetResourceSliceInfo R w1 = ⟨.ok (slices, none), w2⟩ →
      GetConfigMapInfo R w2 = ⟨.ok (cfg, some err), w3⟩ →
      collectInfo R w =
        ⟨.ok (⟨[], [], [], cfg⟩, some err), w3,
          [.GetResourceClaimInfo, .GetResourceSliceInfo, .GetConfigMapInfo]⟩) ∧
    (∀ claims w1 slices w2 cfg w3 x err w4,
      GetResourceClaimInfo R w = ⟨.ok (claims, none), w1⟩ →
      GetResourceSliceInfo R w1 = ⟨.ok (slices, none), w2⟩ →
      GetConfigMapInfo R w2 = ⟨.ok (cfg, none), w3⟩ →
      GetNodeInfo R cfg w3 = ⟨.ok (x, some err), w4⟩ →
      collectInfo R w = ⟨.ok (⟨[], [], [], cfg⟩, some err), w4, collectSteps⟩) ∧
    (∀ claims w1 slices w2 cfg w3 nodes w4,
      GetResourceClaimInfo R w = ⟨.ok (claims, none), w1⟩ →
      GetResourceSliceInfo R w1 = ⟨.ok (slices, none), w2⟩ →
      GetConfigMapInfo R w2 = ⟨.ok (cfg, none), w3⟩ →
      GetNodeInfo R cfg w3 = ⟨.ok (nodes, none), w4⟩ →
      collectInfo R w = ⟨.ok (⟨claims, slices, nodes, cfg⟩, none), w4, collectSteps⟩) ∧
    (∀ w0 configMap w1 deviceInfos e, R.GetConfigMap w0 = (.ok configMap, w1) →
      R.UnmarshalDeviceInfos (configMap.get "device-info") = (deviceInfos, some e) →
      (GetConfigMapInfo R w0).result =
        .ok (⟨"", deviceInfos, []⟩, some (.helper (.wrapped "failed to parse device-info" e)))) ∧
    (∀ w0 configMap w1 deviceInfos fabricIDRange e, R.GetConfigMap w0 = (.ok configMap, w1) →
      R.UnmarshalDeviceInfos (configMap.get "device-info") = (deviceInfos, none) →
      R.UnmarshalFabricIDRange (configMap.get "fabric-id-range") = (fabricIDRange, some e) →
      (GetConfigMapInfo R w0).result =
        .ok (⟨configMap.get "label-prefix", deviceInfos, fabricIDRange⟩,
          some (.helper (.wrapped "failed to parse fabric-id-range" e)))) := by
  refine ⟨?_, ?_, ?_, ?_, ?_, ?_, ?_⟩
  · intro x err w1 h1
    simp only [collectInfo, h1]
  · intro claims w1 x err w2 h1 h2
    simp only [collectInfo, h1, h2]
  · intro claims w1 slices w2 cfg err w3 h1 h2 h3
    simp only [collectInfo, h1, h2, h3]
  · intro claims w1 slices w2 cfg w3 x err w4 h1 h2 h3 h4
    simp only [collectInfo, h1, h2, h3, h4, collectSteps]
  · intro claims w1 slices w2 cfg w3 nodes w4 h1 h2 h3 h4
    simp only [collectInfo, h1, h2, h3, h4, collectSteps]
  · intro w0 configMap w1 deviceInfos e hget hdev
    simp only [GetConfigMapInfo, hget, hdev, zeroSpec]
  · intro w0 configMap w1 deviceInfos fabricIDRange e hget hdev hfab
    simp only [GetConfigMapInfo, hget, hdev, hfab]

/-- C15, amended: `collectInfo` runs the claim list, the slice list, the config read
and the node list in this order. When a step returns an error, `collectInfo` runs no
later step and returns that error with empty claim, slice and node collections; the
config returned is the zero value when the claim list or the slice list failed, and
the value returned by `GetConfigMapInfo` when the config read or the node list
failed (the zero value when the ConfigMap could not be read, the config as far as
it was filled when a document could not be parsed). When no step returns an error
the four values are returned. Conversely every returned error is the one of the
last step run, and the steps run are always an initial part of the four steps. -/
theorem collectInfo_fail_fast {σ : Type} (R : Reader σ) (w : σ) :
    ((∀ x err w1, GetResourceClaimInfo R w = ⟨.ok (x, some err), w1⟩ →
      collectInfo R w =
        ⟨.ok (⟨[], [], [], zeroSpec⟩, some err), w1, [.GetResourceClaimInfo]⟩) ∧
    (∀ claims w1 x err w2, GetResourceClaimInfo R w = ⟨.ok (claims, none), w1⟩ →
      GetResourceSliceInfo R w1 = ⟨.ok (x, some err), w2⟩ →
      collectInfo R w =
        ⟨.ok (⟨[], [], [], zeroSpec⟩, some err), w2,
          [.GetResourceClaimInfo, .GetResourceSliceInfo]⟩) ∧
    (∀ claims w1 slices w2 cfg err w3, GetResourceClaimInfo R w = ⟨.ok (claims, none), w1⟩ →
      GetResourceSliceInfo R w1 = ⟨.ok (slices, none), w2⟩ →
      GetConfigMapInfo R w2 = ⟨.ok (cfg, some err), w3⟩ →
      collectInfo R w =
        ⟨.ok (⟨[], [], [], cfg⟩, some err), w3,
          [.GetResourceClaimInfo, .GetResourceSliceInfo, .GetConfigMapInfo]⟩) ∧
    (∀ claims w1 slices w2 cfg w3 x err w4,
      GetResourceClaimInfo R w = ⟨.ok (claims, none), w1⟩ →
      GetResourceSliceInfo R w1 = ⟨.ok (slices, none), w2⟩ →
      GetConfigMapInfo R w2 = ⟨.ok (cfg, none), w3⟩ →
      GetNodeInfo R cfg w3 = ⟨.ok (x, some err), w4⟩ →
      collectInfo R w = ⟨.ok (⟨[], [], [], cfg⟩, some err), w4, collectSteps⟩) ∧
    (∀ claims w1 slices w2 cfg w3 nodes w4,
      GetResourceClaimInfo R w = ⟨.ok (claims, none), w1⟩ →
      GetResourceSliceInfo R w1 = ⟨.ok (slices, none), w2⟩ →
      GetConfigMapInfo R w2 = ⟨.ok (cfg, none), w3⟩ →
      GetNodeInfo R cfg w3 = ⟨.ok (nodes, none), w4⟩ →
      collectInfo R w = ⟨.ok (⟨claims, slices, nodes, cfg⟩, none), w4, collectSteps⟩) ∧
    (∀ w0 configMap w1 deviceInfos e, R.GetConfigMap w0 = (.ok configMap, w1) →
      R.UnmarshalDeviceInfos (configMap.get "device-info") = (deviceInfos, some e) →
      (GetConfigMapInfo R w0).result =
        .ok (⟨"", deviceInfos, []⟩, some (.helper (.wrapped "failed to parse device-info" e)))) ∧
    (∀ w0 configMap w1 deviceInfos fabricIDRange e, R.GetConfigMap w0 = (.ok configMap, w1) →
      R.UnmarshalDeviceInfos (configMap.get "device-info") = (deviceInfos, none) →
      R.UnmarshalFabricIDRange (configMap.get "fabric-id-range") = (fabricIDRange, some e) →
      (GetConfigMapInfo R w0).result =
        .ok (⟨configMap.get "label-prefix", deviceInfos, fabricIDRange⟩,
          some (.helper (.wrapped "failed to parse fabric-id-range" e))))) ∧
    ((collectInfo R w).steps <+: collectSteps ∧
    (∀ vals err, (collectInfo R w).result = .ok (vals, some err) →
      vals.resourceClaimInfos = [] ∧ vals.resourceSliceInfos = [] ∧ vals.nodeInfos = [] ∧
      (((collectInfo R w).steps = [.GetResourceClaimInfo] ∧
          (∃ x, (GetResourceClaimInfo R w).result = .ok (x, some err)) ∧
          vals.composableDRASpec = zeroSpec) ∨
       (∃ claims, (GetResourceClaimInfo R w).result = .ok (claims, none) ∧
        (((collectInfo R w).steps = [.GetResourceClaimInfo, .GetResourceSliceInfo] ∧
            (∃ x, (GetResourceSliceInfo R (GetResourceClaimInfo R w).world).result =
              .ok (x, some err)) ∧
            vals.composableDRASpec = zeroSpec) ∨
         (∃ slices, (GetResourceSliceInfo R (GetResourceClaimInfo R w).world).result =
            .ok (slices, none) ∧
          (((collectInfo R w).steps =
                [.GetResourceClaimInfo, .GetResourceSliceInfo, .GetConfigMapInfo] ∧
              (GetConfigMapInfo R
                (GetResourceSliceInfo R (GetResourceClaimInfo R w).world).world).result =
                .ok (vals.composableDRASpec, some err)) ∨
           ((collectInfo R w).steps = collectSteps ∧
              (GetConfigMapInfo R
                (GetResourceSliceInfo R (GetResourceClaimInfo R w).world).world).result =
                .ok (vals.composableDRASpec, none) ∧
              ∃ x, (GetNodeInfo R vals.composableDRASpec
                (GetConfigMapInfo R
                  (GetResourceSliceInfo R (GetResourceClaimInfo R w).world).world).world).result =
                .ok (x, some err)))))))) ∧
    (∀ vals, (collectInfo R w).result = .ok (vals, none) →
      (collectInfo R w).steps = collectSteps ∧
      (GetResourceClaimInfo R w).result = .ok (vals.resourceClaimInfos, none) ∧
      (GetResourceSliceInfo R (GetResourceClaimInfo R w).world).result =
        .ok (vals.resourceSliceInfos, none) ∧
      (GetConfigMapInfo R
        (GetResourceSliceInfo R (GetResourceClaimInfo R w).world).world).result =
        .ok (vals.composableDRASpec, none) ∧
      (GetNodeInfo R vals.composableDRASpec
        (GetConfigMapInfo R
          (GetResourceSliceInfo R (GetResourceClaimInfo R w).world).world).world).result =
        .ok (vals.nodeInfos, none)) ∧
    (∀ w0 w1 e, R.GetConfigMap w0 = (.error e, w1) →
      (GetConfigMapInfo R w0).result =
        .ok (zeroSpec, some (.helper (.wrapped "failed to get ConfigMap" e))))) :=
  ⟨collectInfo_steps R w, collectInfo_of_result R w⟩

/-- C15 at a concrete run: the claim list, the slice list and the config read
succeed and the node list fails; the four steps are run, the error of the node list
is returned with empty collections and the config that was read. -/
theorem collectInfo_fail_fast_witness :
    collectInfo (sampleReader [] [] testSpec.DeviceInfos (.error (failure "down"))) 0 =
      ⟨.ok (⟨[], [], [], ⟨"p", testSpec.DeviceInfos, []⟩⟩,
        some (.helper (.wrapped "failed to list Nodes" (failure "down")))), 5, collectSteps⟩ :=
  (collectInfo_fail_fast (sampleReader [] [] testSpec.DeviceInfos (.error (failure "down")))
    0).1.2.2.2.1 [] 2 [] 3 ⟨"p", testSpec.DeviceInfos, []⟩ 4 []
    (.helper (.wrapped "failed to list Nodes" (failure "down"))) 5 rfl rfl rfl rfl

/-! ## Theorems: handleNodes -/

/-- The keys of the steps of one node are its four planned steps. -/
theorem expectedNodeSteps_keys {σ : Type} (P : Passes σ) (E : Env σ) (C : Client σ)
    (r : ResourceMonitorReconciler) (claims : List ResourceClaimInfo)
    (slices : List ResourceSliceInfo) (spec : ComposableDRASpec) (nodeInfo : NodeInfo) (w : σ) :
    (expectedNodeSteps P E C r claims slices spec nodeInfo w).map StepRecord.key =
      plannedSteps [nodeInfo] := rfl

/-- The run of one iteration of `handleNodes`: the steps run are the first steps of
the node, each with the arguments of the source; without an error all four were run
and none returned an error; with an error, that error is the one of the last step
run and no step before it returned an error. -/
theorem handleNode_run {σ : Type} (P : Passes σ) (E : Env σ) (C : Client σ)
    (r : ResourceMonitorReconciler) (claims : List ResourceClaimInfo)
    (slices : List ResourceSliceInfo) (spec : ComposableDRASpec) (nodeInfo : NodeInfo) (w : σ) :
    (handleNode P E C r claims slices spec nodeInfo w).steps <+:
      expectedNodeSteps P E C r claims slices spec nodeInfo w ∧
    ((handleNode P E C r claims slices spec nodeInfo w).err = none →
      (handleNode P E C r claims slices spec nodeInfo w).steps =
        expectedNodeSteps P E C r claims slices spec nodeInfo w ∧
      ∀ s ∈ (handleNode P E C r claims slices spec nodeInfo w).steps, s.err = none) ∧
    (∀ e, (handleNode P E C r claims slices spec nodeInfo w).err = some e →
      ∃ init last, (handleNode P E C r claims slices spec nodeInfo w).steps = init ++ [last] ∧
        last.err = some e ∧ ∀ s ∈ init, s.err = none) := by
  rcases h1 : P.RescheduleFailedNotification w nodeInfo
    (claims.filter (fun resourceClaimInfo => resourceClaimInfo.NodeName == nodeInfo.Name))
    slices spec with ⟨⟨c1, _ | e1⟩, w1⟩
  · rcases h2 : P.RescheduleNotification w1 c1 slices spec.LabelPrefix r.DeviceNoAllocation
      with ⟨⟨c2, _ | e2⟩, w2⟩
    · cases h3 : (handleDevices E r nodeInfo c2 slices spec w2).err with
      | none =>
        cases h4 : (UpdateNodeLabel C nodeInfo.Name spec
          (handleDevices E r nodeInfo c2 slices spec w2).world).err with
        | none =>
          refine ⟨?_, ?_, ?_⟩ <;> simp [handleNode, expectedNodeSteps, h1, h2, h3, h4]
        | some e4 =>
          refine ⟨?_, ?_, ?_⟩
          · simp [handleNode, expectedNodeSteps, h1, h2, h3, h4]
          · simp [handleNode, expectedNodeSteps, h1, h2, h3, h4]
          · intro e he
            simp only [handleNode, h1, h2, h3, h4, Option.some.injEq] at he ⊢
            subst he
            exact ⟨[⟨nodeInfo.Name, .RescheduleFailedNotification, _, none⟩,
              ⟨nodeInfo.Name, .RescheduleNotification, c1, none⟩,
              ⟨nodeInfo.Name, .handleDevices, c2, none⟩],
              ⟨nodeInfo.Name, .UpdateNodeLabel, [], some (.helper e4)⟩, rfl, rfl, by simp⟩
      | some e3 =>
        refine ⟨?_, ?_, ?_⟩
        · simp [handleNode, expectedNodeSteps, h1, h2, h3]
        · simp [handleNode, expectedNodeSteps, h1, h2, h3]
        · intro e he
          simp only [handleNode, h1, h2, h3, Option.some.injEq] at he ⊢
          subst he
          exact ⟨[⟨nodeInfo.Name, .RescheduleFailedNotification, _, none⟩,
            ⟨nodeInfo.Name, .RescheduleNotification, c1, none⟩],
            ⟨nodeInfo.Name, .handleDevices, c2, some (.api e3)⟩, rfl, rfl, by simp⟩
    · refine ⟨?_, ?_, ?_⟩
      · simp [handleNode, expectedNodeSteps, h1, h2]
      · simp [handleNode, expectedNodeSteps, h1, h2]
      · intro e he
        simp only [handleNode, h1, h2, Option.some.injEq] at he ⊢
        subst he
        exact ⟨[⟨nodeInfo.Name, .RescheduleFailedNotification, _, none⟩],
          ⟨nodeInfo.Name, .RescheduleNotification, c1, some e2⟩, rfl, rfl, by simp⟩
  · refine ⟨?_, ?_, ?_⟩
    · simp [handleNode, expectedNodeSteps, h1]
    · simp [handleNode, expectedNodeSteps, h1]
    · intro e he
      simp only [handleNode, h1, Option.some.injEq] at he ⊢
      subst he
      exact ⟨[], ⟨nodeInfo.Name, .RescheduleFailedNotification, _, some e1⟩, rfl, rfl, by simp⟩

/-- The planned steps of a list of nodes start with those of its first node. -/
theorem plannedSteps_cons (nodeInfo : NodeInfo) (rest : List NodeInfo) :
    plannedSteps (nodeInfo :: rest) = plannedSteps [nodeInfo] ++ plannedSteps rest := by
  simp [plannedSteps]

/-- The run of `handleNodes` when the iteration of the first node returns an error. -/
theorem handleNodes_cons_error {σ : Type} (P : Passes σ) (E : Env σ) (C : Client σ)
    (r : ResourceMonitorReconciler) (claims : List ResourceClaimInfo)
    (slices : List ResourceSliceInfo) (spec : ComposableDRASpec) (nodeInfo : NodeInfo)
    (rest : List NodeInfo) (w : σ) (e : CycleError)
    (h : (handleNode P E C r claims slices spec nodeInfo w).err = some e) :
    handleNodes P E C r claims slices spec (nodeInfo :: rest) w =
      ⟨some e, (handleNode P E C r claims slices spec nodeInfo w).world,
        (handleNode P E C r claims slices spec nodeInfo w).steps⟩ := by
  rw [handleNodes]
  simp only [h]

/-- The run of `handleNodes` when the iteration of the first node returns no error. -/
theorem handleNodes_cons_ok {σ : Type} (P : Passes σ) (E : Env σ) (C : Client σ)
    (r : ResourceMonitorReconciler) (claims : List ResourceClaimInfo)
    (slices : List ResourceSliceInfo) (spec : ComposableDRASpec) (nodeInfo : NodeInfo)
    (rest : List NodeInfo) (w : σ)
    (h : (handleNode P E C r claims slices spec nodeInfo w).err = none) :
    handleNodes P E C r claims slices spec (nodeInfo :: rest) w =
      ⟨(handleNodes P E C r claims slices spec rest
          (handleNode P E C r claims slices spec nodeInfo w).world).err,
        (handleNodes P E C r claims slices spec rest
          (handleNode P E C r claims slices spec nodeInfo w).world).world,
        (handleNode P E C r claims slices spec nodeInfo w).steps ++
          (handleNodes P E C r claims slices spec rest
            (handleNode P E C r claims slices spec nodeInfo w).world).steps⟩ := by
  rw [handleNodes]
  simp only [h]

/-- The run of `handleNodes`, by induction on the nodes. -/
theorem handleNodes_run {σ : Type} (P : Passes σ) (E : Env σ) (C : Client σ)
    (r : ResourceMonitorReconciler) (claims : List ResourceClaimInfo)
    (slices : List ResourceSliceInfo) (spec : ComposableDRASpec) :
    ∀ (nodes : List NodeInfo) (w : σ),
      (handleNodes P E C r claims slices spec nodes w).steps.map StepRecord.key <+:
        plannedSteps nodes ∧
      ((handleNodes P E C r claims slices spec nodes w).err = none →
        (handleNodes P E C r claims slices spec nodes w).steps.map StepRecord.key =
          plannedSteps nodes ∧
        ∀ s ∈ (handleNodes P E C r claims slices spec nodes w).steps, s.err = none) ∧
      (∀ e, (handleNodes P E C r claims slices spec nodes w).err = some e →
        ∃ init last, (handleNodes P E C r claims slices spec nodes w).steps = init ++ [last] ∧
          last.err = some e ∧ ∀ s ∈ init, s.err = none) ∧
      (∀ s ∈ (handleNodes P E C r claims slices spec nodes w).steps,
        ∃ nodeInfo ∈ nodes, ∃ w1,
          s ∈ expectedNodeSteps P E C r claims slices spec nodeInfo w1) := by
  intro nodes
  induction nodes with
  | nil =>
    intro w
    simp [handleNodes, plannedSteps]
  | cons nodeInfo rest ih =>
    intro w
    obtain ⟨hpre, hok, herr⟩ := handleNode_run P E C r claims slices spec nodeInfo w
    cases h : (handleNode P E C r claims slices spec nodeInfo w).err with
    | some e =>
      rw [handleNodes_cons_error P E C r claims slices spec nodeInfo rest w e h]
      refine ⟨?_, ?_, ?_, ?_⟩
      · rw [plannedSteps_cons, ← expectedNodeSteps_keys P E C r claims slices spec nodeInfo w]
        exact (List.IsPrefix.map _ hpre).trans (List.prefix_append _ _)
      · intro hnone
        simp at hnone
      · intro e1 he1
        simp only [Option.some.injEq] at he1
        subst he1
        exact herr e h
      · intro s hs
        exact ⟨nodeInfo, List.mem_cons_self _ _, w, hpre.subset hs⟩
    | none =>
      rw [handleNodes_cons_ok P E C r claims slices spec nodeInfo rest w h]
      obtain ⟨hsteps, hnone⟩ := hok h
      obtain ⟨ipre, iok, ierr, imem⟩ := ih (handleNode P E C r claims slices spec nodeInfo w).world
      have hkeys : (handleNode P E C r claims slices spec nodeInfo w).steps.map StepRecord.key =
          plannedSteps [nodeInfo] := by
        rw [hsteps, expectedNodeSteps_keys]
      refine ⟨?_, ?_, ?_, ?_⟩
      · rw [plannedSteps_cons, List.map_append, hkeys]
        exact (List.prefix_append_right_inj _).mpr ipre
      · intro hn
        obtain ⟨k1, k2⟩ := iok hn
        refine ⟨?_, ?_⟩
        · rw [plannedSteps_cons, List.map_append, hkeys, k1]
        · intro s hs
          rcases List.mem_append.mp hs with hs | hs
          · exact hnone s hs
          · exact k2 s hs
      · intro e he
        obtain ⟨init, last, k1, k2, k3⟩ := ierr e he
        refine ⟨(handleNode P E C r claims slices spec nodeInfo w).steps ++ init, last, ?_, k2, ?_⟩
        · show _ ++ _ = _
          rw [k1, List.append_assoc]
        · intro s hs
          rcases List.mem_append.mp hs with hs | hs
          · exact hnone s hs
          · exact k3 s hs
      · intro s hs
        rcases List.mem_append.mp hs with hs | hs
        · exact ⟨nodeInfo, List.mem_cons_self _ _, w, hsteps ▸ hs⟩
        · obtain ⟨n, hn, w1, hw⟩ := imem s hs
          exact ⟨n, List.mem_cons_of_mem _ hn, w1, hw⟩

/-- The claims handed to the steps of one node: the failed-claim pass is handed the
claims of the node. -/
theorem expectedNodeSteps_failed_claims {σ : Type} (P : Passes σ) (E : Env σ) (C : Client σ)
    (r : ResourceMonitorReconciler) (claims : List ResourceClaimInfo)
    (slices : List ResourceSliceInfo) (spec : ComposableDRASpec) (nodeInfo : NodeInfo) (w : σ)
    (s : StepRecord) (hs : s ∈ expectedNodeSteps P E C r claims slices spec nodeInfo w) :
    s.nodeName = nodeInfo.Name ∧
    (s.kind = .RescheduleFailedNotification →
      s.claims = claims.filter (fun c => c.NodeName == s.nodeName)) := by
  simp only [expectedNodeSteps, List.mem_cons, List.mem_singleton, List.not_mem_nil,
    or_false] at hs
  rcases hs with rfl | rfl | rfl | rfl <;> simp

/-- When the two passes return only claims they were handed, every claim handed to a
step of a node is one of the claims of that node. -/
theorem expectedNodeSteps_claims_of_node {σ : Type} (P : Passes σ) (E : Env σ) (C : Client σ)
    (r : ResourceMonitorReconciler) (claims : List ResourceClaimInfo)
    (slices : List ResourceSliceInfo) (spec : ComposableDRASpec) (nodeInfo : NodeInfo) (w : σ)
    (hfailed : ∀ w n cs sl sp, (P.RescheduleFailedNotification w n cs sl sp).1.1 ⊆ cs)
    (htimeout : ∀ w cs sl lp d, (P.RescheduleNotification w cs sl lp d).1.1 ⊆ cs)
    (s : StepRecord) (hs : s ∈ expectedNodeSteps P E C r claims slices spec nodeInfo w) :
    ∀ c ∈ s.claims, c ∈ claims ∧ c.NodeName = s.nodeName := by
  have hfilter : ∀ c ∈ claims.filter (fun c => c.NodeName == nodeInfo.Name),
      c ∈ claims ∧ c.NodeName = nodeInfo.Name := by
    intro c hc
    rw [List.mem_filter] at hc
    exact ⟨hc.1, by simpa using hc.2⟩
  simp only [expectedNodeSteps, List.mem_cons, List.mem_singleton, List.not_mem_nil,
    or_false] at hs
  rcases hs with rfl | rfl | rfl | rfl
  · exact hfilter
  · intro c hc
    exact hfilter c (hfailed _ _ _ _ _ hc)
  · intro c hc
    exact hfilter c (hfailed _ _ _ _ _ (htimeout _ _ _ _ _ hc))
  · intro c hc
    simp at hc

/-- C16: `handleNodes` visits the nodes in list order and runs, for each node, the
failed-claim pass, the timeout pass, `handleDevices` and `UpdateNodeLabel` in this
order: the steps run are an initial part of the planned steps, each with the
arguments of the source (the failed-claim pass is handed the claims whose NodeName is
the name of the node, each later step the claims the pass before it returned, which
are claims of the node when the passes only drop claims). When no step returns an
error all planned steps are run and nil is returned; when a step returns an error,
it is the last step run, no step before it returned an error, and `handleNodes`
returns that same error. -/
theorem handleNodes_fail_fast {σ : Type} (P : Passes σ) (E : Env σ) (C : Client σ)
    (r : ResourceMonitorReconciler) (claims : List ResourceClaimInfo)
    (slices : List ResourceSliceInfo) (spec : ComposableDRASpec) (nodes : List NodeInfo)
    (w : σ) :
    (handleNodes P E C r claims slices spec nodes w).steps.map StepRecord.key <+:
      plannedSteps nodes ∧
    ((handleNodes P E C r claims slices spec nodes w).err = none →
      (handleNodes P E C r claims slices spec nodes w).steps.map StepRecord.key =
        plannedSteps nodes ∧
      ∀ s ∈ (handleNodes P E C r claims slices spec nodes w).steps, s.err = none) ∧
    (∀ e, (handleNodes P E C r claims slices spec nodes w).err = some e →
      ∃ init last, (handleNodes P E C r claims slices spec nodes w).steps = init ++ [last] ∧
        last.err = some e ∧ ∀ s ∈ init, s.err = none) ∧
    (∀ s ∈ (handleNodes P E C r claims slices spec nodes w).steps,
      (∃ nodeInfo ∈ nodes, ∃ w1,
        s ∈ expectedNodeSteps P E C r claims slices spec nodeInfo w1) ∧
      (s.kind = .RescheduleFailedNotification →
        s.claims = claims.filter (fun c => c.NodeName == s.nodeName))) ∧
    ((∀ w n cs sl sp, (P.RescheduleFailedNotification w n cs sl sp).1.1 ⊆ cs) →
      (∀ w cs sl lp d, (P.RescheduleNotification w cs sl lp d).1.1 ⊆ cs) →
      ∀ s ∈ (handleNodes P E C r claims slices spec nodes w).steps,
        ∀ c ∈ s.claims, c ∈ claims ∧ c.NodeName = s.nodeName) := by
  obtain ⟨h1, h2, h3, h4⟩ := handleNodes_run P E C r claims slices spec nodes w
  refine ⟨h1, h2, h3, ?_, ?_⟩
  · intro s hs
    obtain ⟨n, hn, w1, hw⟩ := h4 s hs
    exact ⟨⟨n, hn, w1, hw⟩,
      (expectedNodeSteps_failed_claims P E C r claims slices spec n w1 s hw).2⟩
  · intro hfailed htimeout s hs
    obtain ⟨n, _, w1, hw⟩ := h4 s hs
    exact expectedNodeSteps_claims_of_node P E C r claims slices spec n w1 hfailed htimeout s hw

/-- C16 at a concrete run: over `node1` and `node2`, with a failed-claim pass that
returns an error on `node2`, the four steps of `node1` and the failed-claim pass of
`node2` are run, nothing after it, and the error of that pass is returned. -/
theorem handleNodes_fail_fast_witness :
    (handleNodes (samplePasses "node2") (quietEnv 0) sampleClient sampleReconciler
        sampleClaimInfos [] sampleCatalog sampleNodes quietWorld).steps.map StepRecord.key <+:
      plannedSteps sampleNodes ∧
    (handleNodes (samplePasses "node2") (quietEnv 0) sampleClient sampleReconciler
        sampleClaimInfos [] sampleCatalog sampleNodes quietWorld).steps.map StepRecord.key =
      [("node1", .RescheduleFailedNotification), ("node1", .RescheduleNotification),
       ("node1", .handleDevices), ("node1", .UpdateNodeLabel),
       ("node2", .RescheduleFailedNotification)] ∧
    (handleNodes (samplePasses "node2") (quietEnv 0) sampleClient sampleReconciler
        sampleClaimInfos [] sampleCatalog sampleNodes quietWorld).err =
      some (.api (failure "failed pass")) :=
  ⟨(handleNodes_fail_fast (samplePasses "node2") (quietEnv 0) sampleClient sampleReconciler
      sampleClaimInfos [] sampleCatalog sampleNodes quietWorld).1, by decide, by decide⟩

/-! ## Theorems: a second pass after the mutations of a first pass -/

/-- The first size of a list that starts with a request for the model on the node. -/
theorem firstSize_cons_pos (y : ComposabilityRequest) (rest : List ComposabilityRequest)
    (nodeName model : String) (h : y.Model = model ∧ y.TargetNode = nodeName) :
    firstSize (y :: rest) nodeName model = some y.Size := by
  have hb : (y.Model == model && y.TargetNode == nodeName) = true := by
    simp [h.1, h.2]
  simp only [firstSize, List.find?_cons, hb, Option.map_some']

/-- The first size of a list that starts with another request. -/
theorem firstSize_cons_neg (y : ComposabilityRequest) (rest : List ComposabilityRequest)
    (nodeName model : String) (h : ¬ (y.Model = model ∧ y.TargetNode = nodeName)) :
    firstSize (y :: rest) nodeName model = firstSize rest nodeName model := by
  have hb : (y.Model == model && y.TargetNode == nodeName) = false := by
    rw [Bool.eq_false_iff]
    intro hc
    simp only [Bool.and_eq_true, beq_iff_eq] at hc
    exact h hc
  simp only [firstSize, List.find?_cons, hb]

/-- The first size after a request has been added at the end of the list. -/
theorem firstSize_append (items : List ComposabilityRequest) (x : ComposabilityRequest)
    (model : String) :
    firstSize (items ++ [x]) x.TargetNode model =
      if model = x.Model then
        match firstSize items x.TargetNode model with
        | some size => some size
        | none => some x.Size
      else firstSize items x.TargetNode model := by
  induction items with
  | nil =>
    by_cases h : model = x.Model
    · rw [List.nil_append, firstSize_cons_pos x [] _ _ ⟨h.symm, rfl⟩, if_pos h]
      rfl
    · rw [List.nil_append, firstSize_cons_neg x [] _ _ (fun hc => h hc.1.symm), if_neg h]
  | cons y rest ih =>
    by_cases hy : y.Model = model ∧ y.TargetNode = x.TargetNode
    · rw [List.cons_append, firstSize_cons_pos y _ _ _ hy, firstSize_cons_pos y _ _ _ hy]
      split_ifs <;> rfl
    · rw [List.cons_append, firstSize_cons_neg y _ _ _ hy, firstSize_cons_neg y _ _ _ hy, ih]

/-- The first size after the size of the matched request has been set. -/
theorem firstSize_setSize (cr : ComposabilityRequest) (count : Int)
    (items : List ComposabilityRequest) (model : String) :
    firstSize (setSize cr count items) cr.TargetNode model =
      if model = cr.Model then (firstSize items cr.TargetNode model).map (fun _ => count)
      else firstSize items cr.TargetNode model := by
  induction items with
  | nil => simp [setSize, firstSize]
  | cons y rest ih =>
    by_cases hy : y.Model = cr.Model ∧ y.TargetNode = cr.TargetNode
    · rw [setSize, if_pos hy]
      by_cases h : model = cr.Model
      · have hy2 : y.Model = model ∧ y.TargetNode = cr.TargetNode := ⟨hy.1.trans h.symm, hy.2⟩
        rw [firstSize_cons_pos _ _ _ _ (show ({ y with Size := count } : ComposabilityRequest).Model
          = model ∧ ({ y with Size := count } : ComposabilityRequest).TargetNode = cr.TargetNode
          from hy2), firstSize_cons_pos y _ _ _ hy2, if_pos h]
        rfl
      · have hy2 : ¬ (y.Model = model ∧ y.TargetNode = cr.TargetNode) :=
          fun hc => h (hc.1.symm.trans hy.1)
        rw [firstSize_cons_neg _ _ _ _ (show ¬ (({ y with Size := count } :
          ComposabilityRequest).Model = model ∧ ({ y with Size := count } :
          ComposabilityRequest).TargetNode = cr.TargetNode) from hy2),
          firstSize_cons_neg y _ _ _ hy2, if_neg h]
    · rw [setSize, if_neg hy]
      by_cases hm : y.Model = model ∧ y.TargetNode = cr.TargetNode
      · have hne : ¬ model = cr.Model := fun e => hy ⟨hm.1.trans e, hm.2⟩
        rw [firstSize_cons_pos y _ _ _ hm, firstSize_cons_pos y _ _ _ hm, if_neg hne]
      · rw [firstSize_cons_neg y _ _ _ hm, firstSize_cons_neg y _ _ _ hm, ih]

/-- The first size that `handleDevices` looks at is the size of the request its scan
finds. -/
theorem firstSize_eq_find (items : List ComposabilityRequest) (device : DeviceInfo)
    (nodeInfo : NodeInfo) :
    firstSize items nodeInfo.Name device.CDIModelName =
      (items.find? (requestMatches device nodeInfo)).map (fun cr => cr.Size) := rfl

/-- Applying the mutations of two runs one after the other. -/
theorem applyCalls_append (a b : List Call) (items : List ComposabilityRequest) :
    applyCalls (a ++ b) items = applyCalls b (applyCalls a items) := by
  simp [applyCalls, List.foldl_append]

/-- A list in which nothing is changed settles a model that was settled at the
start. -/
theorem settle_nothing (target : String → Int) (items cur : List ComposabilityRequest)
    (nodeName model : String) (hJ : IsTouchedOnly target items cur nodeName)
    (h : IsSettled target items nodeName model) : IsSettled target cur nodeName model := by
  rcases hJ model with e | e
  · unfold IsSettled
    rw [e]
    exact h
  · exact Or.inl e

/-- Adding a request of the target size for a model without a request at the start
settles the model and unsettles no other. -/
theorem settle_append (target : String → Int) (items cur : List ComposabilityRequest)
    (x : ComposabilityRequest) (hsize : x.Size = target x.Model)
    (hJ : IsTouchedOnly target items cur x.TargetNode)
    (hnone : firstSize items x.TargetNode x.Model = none) :
    IsTouchedOnly target items (cur ++ [x]) x.TargetNode ∧
    (∀ m, IsSettled target cur x.TargetNode m → IsSettled target (cur ++ [x]) x.TargetNode m) ∧
    IsSettled target (cur ++ [x]) x.TargetNode x.Model := by
  have hself : firstSize (cur ++ [x]) x.TargetNode x.Model = some (target x.Model) := by
    rw [firstSize_append, if_pos rfl]
    rcases hJ x.Model with e | e
    · rw [e, hnone, hsize]
    · rw [e]
  refine ⟨?_, ?_, Or.inl hself⟩
  · intro m
    by_cases hm : m = x.Model
    · subst hm
      exact Or.inr hself
    · rw [firstSize_append, if_neg hm]
      exact hJ m
  · intro m hs
    by_cases hm : m = x.Model
    · subst hm
      exact Or.inl hself
    · unfold IsSettled
      rw [firstSize_append, if_neg hm]
      exact hs

/-- Setting the size of the matched request of a model to the target settles the
model, when it had a request at the start, and unsettles no other. -/
theorem settle_setSize (target : String → Int) (items cur : List ComposabilityRequest)
    (cr : ComposabilityRequest) (size : Int)
    (hJ : IsTouchedOnly target items cur cr.TargetNode)
    (hsome : firstSize items cr.TargetNode cr.Model = some size) :
    IsTouchedOnly target items (setSize cr (target cr.Model) cur) cr.TargetNode ∧
    (∀ m, IsSettled target cur cr.TargetNode m →
      IsSettled target (setSize cr (target cr.Model) cur) cr.TargetNode m) ∧
    IsSettled target (setSize cr (target cr.Model) cur) cr.TargetNode cr.Model := by
  have hself : firstSize (setSize cr (target cr.Model) cur) cr.TargetNode cr.Model =
      some (target cr.Model) := by
    rw [firstSize_setSize, if_pos rfl]
    rcases hJ cr.Model with e | e
    · rw [e, hsome]
      rfl
    · rw [e]
      rfl
  refine ⟨?_, ?_, Or.inl hself⟩
  · intro m
    by_cases hm : m = cr.Model
    · subst hm
      exact Or.inr hself
    · rw [firstSize_setSize, if_neg hm]
      exact hJ m
  · intro m hs
    by_cases hm : m = cr.Model
    · subst hm
      exact Or.inl hself
    · unfold IsSettled
      rw [firstSize_setSize, if_neg hm]
      exact hs

/-- Applying the calls that `handleDevices` issues for one catalog entry settles the
model of the entry and unsettles no other model. -/
theorem handleDevice_apply {σ : Type} (E : Env σ) (r : ResourceMonitorReconciler)
    (nodeInfo : NodeInfo) (claims : List ResourceClaimInfo) (slices : List ResourceSliceInfo)
    (spec : ComposableDRASpec) (items cur : List ComposabilityRequest) (device : DeviceInfo)
    (w w1 : σ) (counted : Int) (target : String → Int)
    (hcount : E.GetConfiguredDeviceCount w device.CDIModelName nodeInfo.Name claims slices =
      (.ok counted, w1))
    (htarget : target device.CDIModelName =
      clampCount counted (E.GetModelLimit nodeInfo device.CDIModelName).2)
    (hJ : IsTouchedOnly target items cur nodeInfo.Name) :
    IsTouchedOnly target items
      (applyCalls (handleDevice E r nodeInfo claims slices spec items device w).calls cur)
      nodeInfo.Name ∧
    (∀ m, IsSettled target cur nodeInfo.Name m →
      IsSettled target
        (applyCalls (handleDevice E r nodeInfo claims slices spec items device w).calls cur)
        nodeInfo.Name m) ∧
    IsSettled target
      (applyCalls (handleDevice E r nodeInfo claims slices spec items device w).calls cur)
      nodeInfo.Name device.CDIModelName := by
  cases hfind : items.find? (requestMatches device nodeInfo) with
  | none =>
    have hnone : ∀ x ∈ items, requestMatches device nodeInfo x = false := by
      intro x hx
      have := List.find?_eq_none.mp hfind x hx
      simpa using this
    have hfs : firstSize items nodeInfo.Name device.CDIModelName = none := by
      rw [firstSize_eq_find, hfind]
      rfl
    rw [handleDevice_calls_of_no_match E r nodeInfo claims slices spec items device w w1 counted
      hcount hnone, ← htarget]
    by_cases hpos : target device.CDIModelName > 0
    · rw [if_pos hpos]
      exact settle_append target items cur
        ⟨"", device.CDIModelName, nodeInfo.Name, target device.CDIModelName,
          E.GetDriverType device.DriverName⟩ rfl hJ hfs
    · rw [if_neg hpos]
      exact ⟨hJ, fun m h => h,
        settle_nothing target items cur _ _ hJ (Or.inr ⟨hfs, not_lt.mp hpos⟩)⟩
  | some cr =>
    have hcr : requestMatches device nodeInfo cr = true := by
      simpa using List.find?_some hfind
    obtain ⟨hm, hn⟩ := (requestMatches_iff device nodeInfo cr).mp hcr
    have hfs : firstSize items cr.TargetNode cr.Model = some cr.Size := by
      rw [hm, hn, firstSize_eq_find, hfind]
      rfl
    have hJ2 : IsTouchedOnly target items cur cr.TargetNode := by
      rw [hn]
      exact hJ
    have hset := settle_setSize target items cur cr cr.Size hJ2 hfs
    rw [hn, hm] at hset
    rw [handleDevice_calls_of_match E r nodeInfo claims slices spec items device w w1 counted cr
      hcount hfind, ← htarget]
    by_cases h1 : target device.CDIModelName > cr.Size
    · rw [if_pos h1]
      exact hset
    · rw [if_neg h1]
      by_cases h2 : target device.CDIModelName < cr.Size
      · rw [if_pos h2]
        exact hset
      · rw [if_neg h2]
        have heq : cr.Size = target device.CDIModelName := by omega
        refine ⟨hJ, fun m h => h, settle_nothing target items cur _ _ hJ (Or.inl ?_)⟩
        rw [firstSize_eq_find, hfind, ← heq]
        rfl

/-- Applying the calls of a run of the loop over the catalog settles the model of
every catalog entry when the run returns no error, and unsettles no model. -/
theorem handleDevicesLoop_apply {σ : Type} (E : Env σ) (r : ResourceMonitorReconciler)
    (nodeInfo : NodeInfo) (claims : List ResourceClaimInfo) (slices : List ResourceSliceInfo)
    (spec : ComposableDRASpec) (count : String → Int)
    (hcount : ∀ w model, ∃ w1,
      E.GetConfiguredDeviceCount w model nodeInfo.Name claims slices = (.ok (count model), w1))
    (items : List ComposabilityRequest) :
    ∀ (ds : List DeviceInfo) (w : σ) (cur : List ComposabilityRequest),
      IsTouchedOnly (fun m => clampCount (count m) (E.GetModelLimit nodeInfo m).2) items cur
        nodeInfo.Name →
      IsTouchedOnly (fun m => clampCount (count m) (E.GetModelLimit nodeInfo m).2) items
        (applyCalls (handleDevicesLoop E r nodeInfo claims slices spec items ds w).calls cur)
        nodeInfo.Name ∧
      (∀ m, IsSettled (fun m => clampCount (count m) (E.GetModelLimit nodeInfo m).2) cur
          nodeInfo.Name m →
        IsSettled (fun m => clampCount (count m) (E.GetModelLimit nodeInfo m).2)
          (applyCalls (handleDevicesLoop E r nodeInfo claims slices spec items ds w).calls cur)
          nodeInfo.Name m) ∧
      ((handleDevicesLoop E r nodeInfo claims slices spec items ds w).err = none →
        ∀ d ∈ ds, IsSettled (fun m => clampCount (count m) (E.GetModelLimit nodeInfo m).2)
          (applyCalls (handleDevicesLoop E r nodeInfo claims slices spec items ds w).calls cur)
          nodeInfo.Name d.CDIModelName) := by
  intro ds
  induction ds with
  | nil =>
    intro w cur hJ
    exact ⟨hJ, fun m h => h, fun _ d hd => absurd hd (List.not_mem_nil d)⟩
  | cons d rest ih =>
    intro w cur hJ
    obtain ⟨w1, hc⟩ := hcount w d.CDIModelName
    obtain ⟨a1, a2, a3⟩ := handleDevice_apply E r nodeInfo claims slices spec items cur d w w1
      (count d.CDIModelName) (fun m => clampCount (count m) (E.GetModelLimit nodeInfo m).2)
      hc rfl hJ
    cases herr : (handleDevice E r nodeInfo claims slices spec items d w).err with
    | some e =>
      have hloop : handleDevicesLoop E r nodeInfo claims slices spec items (d :: rest) w =
          ⟨some e, (handleDevice E r nodeInfo claims slices spec items d w).world,
            (handleDevice E r nodeInfo claims slices spec items d w).calls⟩ := by
        simp only [handleDevicesLoop, herr]
      rw [hloop]
      exact ⟨a1, a2, fun hn => by simp at hn⟩
    | none =>
      have hloop : handleDevicesLoop E r nodeInfo claims slices spec items (d :: rest) w =
          ⟨(handleDevicesLoop E r nodeInfo claims slices spec items rest
              (handleDevice E r nodeInfo claims slices spec items d w).world).err,
            (handleDevicesLoop E r nodeInfo claims slices spec items rest
              (handleDevice E r nodeInfo claims slices spec items d w).world).world,
            (handleDevice E r nodeInfo claims slices spec items d w).calls ++
              (handleDevicesLoop E r nodeInfo claims slices spec items rest
                (handleDevice E r nodeInfo claims slices spec items d w).world).calls⟩ := by
        simp only [handleDevicesLoop, herr]
      rw [hloop]
      simp only [applyCalls_append]
      obtain ⟨b1, b2, b3⟩ := ih (handleDevice E r nodeInfo claims slices spec items d w).world
        (applyCalls (handleDevice E r nodeInfo claims slices spec items d w).calls cur) a1
      refine ⟨b1, fun m h => b2 m (a2 m h), ?_⟩
      intro hn d1 hd1
      rcases List.mem_cons.mp hd1 with e | hmem
      · subst e
        exact b2 _ a3
      · exact b3 hn d1 hmem

/-- On a request list that is settled for the model of a catalog entry, the
iteration of the entry issues no call and returns no error. -/
theorem handleDevice_settled {σ : Type} (E : Env σ) (r : ResourceMonitorReconciler)
    (nodeInfo : NodeInfo) (claims : List ResourceClaimInfo) (slices : List ResourceSliceInfo)
    (spec : ComposableDRASpec) (items : List ComposabilityRequest) (device : DeviceInfo)
    (w w1 : σ) (counted : Int)
    (hcount : E.GetConfiguredDeviceCount w device.CDIModelName nodeInfo.Name claims slices =
      (.ok counted, w1))
    (hs : IsSettled (fun m => clampCount counted (E.GetModelLimit nodeInfo m).2) items
      nodeInfo.Name device.CDIModelName) :
    handleDevice E r nodeInfo claims slices spec items device w = ⟨none, w1, []⟩ := by
  rcases hs with h | ⟨h, hle⟩
  · rw [firstSize_eq_find] at h
    cases hfind : items.find? (requestMatches device nodeInfo) with
    | none => simp [hfind] at h
    | some cr =>
      simp only [hfind, Option.map_some', Option.some.injEq] at h
      have hcr : requestMatches device nodeInfo cr = true := by
        simpa using List.find?_some hfind
      unfold handleDevice
      rw [hcount]
      simp only
      rw [scanRequests_first_match E r nodeInfo spec device _ items w1 cr hfind]
      simp [scanRequests, hcr, h]
  · rw [firstSize_eq_find] at h
    have hfind : items.find? (requestMatches device nodeInfo) = none := by
      cases hf : items.find? (requestMatches device nodeInfo) with
      | none => rfl
      | some cr => simp [hf] at h
    have hnone : ∀ x ∈ items, requestMatches device nodeInfo x = false := by
      intro x hx
      have := List.find?_eq_none.mp hfind x hx
      simpa using this
    unfold handleDevice
    rw [hcount]
    simp only
    rw [scanRequests_no_match E r nodeInfo spec device _ items w1 hnone]
    have hnot : ¬ clampCount counted (E.GetModelLimit nodeInfo device.CDIModelName).2 > 0 :=
      not_lt.mpr hle
    simp [hnot]

/-- On a request list that is settled for the model of every catalog entry, the loop
over the catalog issues no call and returns no error. -/
theorem handleDevicesLoop_settled {σ : Type} (E : Env σ) (r : ResourceMonitorReconciler)
    (nodeInfo : NodeInfo) (claims : List ResourceClaimInfo) (slices : List ResourceSliceInfo)
    (spec : ComposableDRASpec) (count : String → Int)
    (hcount : ∀ w model, ∃ w1,
      E.GetConfiguredDeviceCount w model nodeInfo.Name claims slices = (.ok (count model), w1))
    (items : List ComposabilityRequest) :
    ∀ (ds : List DeviceInfo) (w : σ),
      (∀ d ∈ ds, IsSettled (fun m => clampCount (count m) (E.GetModelLimit nodeInfo m).2) items
        nodeInfo.Name d.CDIModelName) →
      (handleDevicesLoop E r nodeInfo claims slices spec items ds w).calls = [] ∧
      (handleDevicesLoop E r nodeInfo claims slices spec items ds w).err = none := by
  intro ds
  induction ds with
  | nil => intro w _; exact ⟨rfl, rfl⟩
  | cons d rest ih =>
    intro w hs
    obtain ⟨w1, hc⟩ := hcount w d.CDIModelName
    have hd := handleDevice_settled E r nodeInfo claims slices spec items d w w1
      (count d.CDIModelName) hc (hs d (List.mem_cons_self _ _))
    obtain ⟨i1, i2⟩ := ih w1 (fun x hx => hs x (List.mem_cons_of_mem _ hx))
    simp only [handleDevicesLoop, hd, i1, i2, List.append_nil, and_self]

/-- C17, counterexample: the catalog holds the models `A` and `B`, no request exists
and two devices of each model are wanted. The first pass issues the create for `A`,
which returns an error, and ends there. With that create applied to the request
list and the counts and limits unchanged, the second pass calls `DynamicAttach` to
create the request for `B`. -/
theorem handleDevices_second_pass_counterexample :
    (handleDevices listEnv sampleReconciler sampleNode [] [] sampleCatalog []).calls =
      [Call.DynamicAttach none 2 "gpu" "A" "node1"] ∧
    (handleDevices listEnv sampleReconciler sampleNode [] [] sampleCatalog []).err =
      some (failure "attach") ∧
    applyCalls (handleDevices listEnv sampleReconciler sampleNode [] [] sampleCatalog []).calls
      [] = [⟨"", "A", "node1", 2, "gpu"⟩] ∧
    (handleDevices listEnv sampleReconciler sampleNode [] [] sampleCatalog
      (applyCalls (handleDevices listEnv sampleReconciler sampleNode [] [] sampleCatalog
        []).calls [])).calls = [Call.DynamicAttach none 2 "gpu" "B" "node1"] := by
  refine ⟨?_, ?_, ?_, ?_⟩ <;> decide

/-- C17, amended: when a `handleDevices` pass returns no error, the mutations it
issued are applied to the request list it read, and every count read succeeds with
the same count for the same model (the minimum limits are those of the same node),
a second pass that reads the updated list calls neither `DynamicAttach` nor
`DynamicDetach`, and returns no error. -/
theorem handleDevices_second_pass {σ : Type} (E : Env σ) (r : ResourceMonitorReconciler)
    (nodeInfo : NodeInfo) (claims : List ResourceClaimInfo) (slices : List ResourceSliceInfo)
    (spec : ComposableDRASpec) (count : String → Int) (items : List ComposabilityRequest)
    (w w1 v v1 : σ)
    (hcount : ∀ w model, ∃ w1,
      E.GetConfiguredDeviceCount w model nodeInfo.Name claims slices = (.ok (count model), w1))
    (hlist : E.ListComposabilityRequests w = (.ok items, w1))
    (herr : (handleDevices E r nodeInfo claims slices spec w).err = none)
    (hlist2 : E.ListComposabilityRequests v =
      (.ok (applyCalls (handleDevices E r nodeInfo claims slices spec w).calls items), v1)) :
    (handleDevices E r nodeInfo claims slices spec v).calls = [] ∧
    (handleDevices E r nodeInfo claims slices spec v).err = none := by
  have h1 : handleDevices E r nodeInfo claims slices spec w =
      handleDevicesLoop E r nodeInfo claims slices spec items spec.DeviceInfos w1 := by
    simp only [handleDevices, hlist]
  have h2 : handleDevices E r nodeInfo claims slices spec v =
      handleDevicesLoop E r nodeInfo claims slices spec
        (applyCalls (handleDevices E r nodeInfo claims slices spec w).calls items)
        spec.DeviceInfos v1 := by
    simp only [handleDevices, hlist2]
  rw [h2]
  rw [h1] at herr ⊢
  have hsettled := (handleDevicesLoop_apply E r nodeInfo claims slices spec count hcount items
    spec.DeviceInfos w1 items (fun _ => Or.inl rfl)).2.2 herr
  exact handleDevicesLoop_settled E r nodeInfo claims slices spec count hcount _
    spec.DeviceInfos v1 hsettled

/-- C17 at a concrete run: on `node1` with the catalog of model `B` alone and no
request, the first pass creates a request of size 2 and returns no error, and the
second pass over the list with that request issues no call. -/
theorem handleDevices_second_pass_witness :
    (handleDevices listEnv sampleReconciler sampleNode [] []
      ⟨"p", [⟨2, "B", "b", "gpu.nvidia.com", []⟩], []⟩ []).calls =
      [Call.DynamicAttach none 2 "gpu" "B" "node1"] ∧
    (handleDevices listEnv sampleReconciler sampleNode [] []
      ⟨"p", [⟨2, "B", "b", "gpu.nvidia.com", []⟩], []⟩
      [⟨"", "B", "node1", 2, "gpu"⟩]).calls = [] ∧
    (handleDevices listEnv sampleReconciler sampleNode [] []
      ⟨"p", [⟨2, "B", "b", "gpu.nvidia.com", []⟩], []⟩
      [⟨"", "B", "node1", 2, "gpu"⟩]).err = none :=
  ⟨by decide,
    handleDevices_second_pass listEnv sampleReconciler sampleNode [] []
      ⟨"p", [⟨2, "B", "b", "gpu.nvidia.com", []⟩], []⟩ (fun _ => 1) []
      [] [] [⟨"", "B", "node1", 2, "gpu"⟩] [⟨"", "B", "node1", 2, "gpu"⟩]
      (fun w _ => ⟨w, rfl⟩) rfl (by decide) rfl⟩

/-! ## Theorems: the deferred shrink -/

/-- C19: when the size of the existing request of a catalog entry exceeds the clamped
configured count, `handleDevices` issues for the entry the one call
`DynamicDetach(cr, count, node, LabelPrefix, DeviceNoRemoval)` and nothing else; and
`DynamicDetach`, as modelled from the spec, defers the shrink entirely when a
provisioned device that the shrink can remove has a lastUsedTime newer than
`now - DeviceNoRemoval`: it returns nil without reading or patching the request, so
the size stays as it is; otherwise it patches the size to the whole `count`. -/
theorem DynamicDetach_deferred {σ : Type} (E : Env σ) (C : Client σ)
    (parseTime : String → Option Int) (r : ResourceMonitorReconciler) (nodeInfo : NodeInfo)
    (claims : List ResourceClaimInfo) (slices : List ResourceSliceInfo)
    (spec : ComposableDRASpec) :
    (∀ (items : List ComposabilityRequest) (device : DeviceInfo) (w w1 : σ) (counted : Int)
        (cr : ComposabilityRequest),
      E.GetConfiguredDeviceCount w device.CDIModelName nodeInfo.Name claims slices =
        (.ok counted, w1) →
      items.find? (requestMatches device nodeInfo) = some cr →
      clampCount counted (E.GetModelLimit nodeInfo device.CDIModelName).2 < cr.Size →
      (handleDevice E r nodeInfo claims slices spec items device w).calls =
        [Call.DynamicDetach cr
          (clampCount counted (E.GetModelLimit nodeInfo device.CDIModelName).2)
          nodeInfo.Name spec.LabelPrefix r.DeviceNoRemoval]) ∧
    (∀ (cr : ComposabilityRequest) (count : Int) (w w1 w2 : σ)
        (resources : List ComposableResource) (now : Int),
      C.ListComposableResources w = (.ok resources, w1) →
      C.Now w1 = (now, w2) →
      ((∃ rs ∈ resources, rs.Model = cr.Model ∧ rs.TargetNode = nodeInfo.Name ∧
          ∃ used, lastUsedTime parseTime spec.LabelPrefix rs = some used ∧
            used > now - r.DeviceNoRemoval) →
        DynamicDetach C parseTime cr count nodeInfo.Name spec.LabelPrefix r.DeviceNoRemoval w =
          ⟨none, w2, []⟩) ∧
      ((¬ ∃ rs ∈ resources, rs.Model = cr.Model ∧ rs.TargetNode = nodeInfo.Name ∧
          ∃ used, lastUsedTime parseTime spec.LabelPrefix rs = some used ∧
            used > now - r.DeviceNoRemoval) →
        DynamicDetach C parseTime cr count nodeInfo.Name spec.LabelPrefix r.DeviceNoRemoval w =
          PatchComposabilityRequestSize C cr.Name count w2)) := by
  refine ⟨?_, ?_⟩
  · intro items device w w1 counted cr hcount hfirst hlt
    rw [handleDevice_calls_of_match E r nodeInfo claims slices spec items device w w1 counted cr
      hcount hfirst, if_neg (by omega), if_pos hlt]
  · intro cr count w w1 w2 resources now hlist hnow
    have hany : (removalCandidates cr nodeInfo.Name resources).any
        (inNoRemovalWindow parseTime spec.LabelPrefix now r.DeviceNoRemoval) = true ↔
        ∃ rs ∈ resources, rs.Model = cr.Model ∧ rs.TargetNode = nodeInfo.Name ∧
          ∃ used, lastUsedTime parseTime spec.LabelPrefix rs = some used ∧
            used > now - r.DeviceNoRemoval := by
      simp only [removalCandidates, List.any_eq_true, List.mem_filter, Bool.and_eq_true,
        beq_iff_eq]
      constructor
      · rintro ⟨rs, ⟨hmem, hm, hn⟩, hwin⟩
        refine ⟨rs, hmem, hm, hn, ?_⟩
        unfold inNoRemovalWindow at hwin
        cases hu : lastUsedTime parseTime spec.LabelPrefix rs with
        | none => simp [hu] at hwin
        | some used =>
          simp only [hu, decide_eq_true_eq] at hwin
          exact ⟨used, rfl, hwin⟩
      · rintro ⟨rs, hmem, hm, hn, used, hu, hgt⟩
        refine ⟨rs, ⟨hmem, hm, hn⟩, ?_⟩
        unfold inNoRemovalWindow
        simp only [hu, decide_eq_true_eq]
        exact hgt
    refine ⟨?_, ?_⟩
    · intro h
      simp only [DynamicDetach, hlist, hnow, hany.mpr h, if_true]
    · intro h
      have hfalse : ¬ (removalCandidates cr nodeInfo.Name resources).any
          (inNoRemovalWindow parseTime spec.LabelPrefix now r.DeviceNoRemoval) = true :=
        fun hc => h (hany.mp hc)
      simp [DynamicDetach, hlist, hnow, hfalse]

/-- C19 at a concrete run (scenario C): the request has size 5, the clamped count is
2 and the provisioned device of the model on the node was used at time 100, which is
newer than 150 - 600; `handleDevices` calls `DynamicDetach` with size 2, and
`DynamicDetach` returns nil with no read and no patch of the request. -/
theorem DynamicDetach_deferred_witness :
    (handleDevice (quietEnv 0) sampleReconciler sampleNode [] [] sampleSpec
      recentlyUsedWorld.requests ⟨1, "M", "m", "gpu.nvidia.com", []⟩ recentlyUsedWorld).calls =
      [Call.DynamicDetach ⟨"req", "M", "node1", 5, "gpu"⟩ 2 "node1" "p" 600] ∧
    DynamicDetach sampleClient sampleParseTime ⟨"req", "M", "node1", 5, "gpu"⟩ 2 "node1" "p" 600
      recentlyUsedWorld = ⟨none, { recentlyUsedWorld with clock := 151 }, []⟩ :=
  ⟨(DynamicDetach_deferred (quietEnv 0) sampleClient sampleParseTime sampleReconciler sampleNode
      [] [] sampleSpec).1 recentlyUsedWorld.requests ⟨1, "M", "m", "gpu.nvidia.com", []⟩
      recentlyUsedWorld recentlyUsedWorld 0 ⟨"req", "M", "node1", 5, "gpu"⟩ rfl rfl (by decide),
    ((DynamicDetach_deferred (quietEnv 0) sampleClient sampleParseTime sampleReconciler
      sampleNode [] [] sampleSpec).2 ⟨"req", "M", "node1", 5, "gpu"⟩ 2 recentlyUsedWorld
      recentlyUsedWorld { recentlyUsedWorld with clock := 151 } recentlyUsedWorld.resources 150
      rfl rfl).1
      ⟨⟨"res", "M", "node1", "Online", "id", some [("p/last-used-time", "recent")]⟩,
        by decide, rfl, rfl, 100, rfl, by decide⟩⟩

/-! ## Theorems: totality of the state classification and of GetResourceSliceInfo -/

/-- C21, the diverging input: for a condition list that is present but has length 0
the classification of lines 64-72 reads `device.Conditions[0]` and panics with an
index out of range, so no state is produced for the device of the reserved claim
`emptyConditionsClaim`; every other condition list gets a state. -/
theorem deviceState_empty_list_panics :
    deviceState (some []) = .error .indexOutOfRange ∧
    emptyConditionsClaim.ReservedFor ≠ [] ∧
    claimDevices [testSlice] emptyConditionsClaim.Devices ⟨"claim", "default", "", "", 0, []⟩ =
      .error .indexOutOfRange ∧
    claimInfos [testSlice] [emptyConditionsClaim] [] = .error .indexOutOfRange ∧
    (∀ conditions : Option (List Condition), conditions ≠ some [] →
      ∃ state, deviceState conditions = .ok state) :=
  ⟨rfl, by decide, rfl, rfl, deviceState_ok_of_ne⟩

/-- The loop over the attributes returns unless an attribute `uuid` has a nil
`StringValue`. -/
theorem sliceDeviceUUID_ok (attributes : List (String × DeviceAttribute))
    (h : ∀ attr ∈ attributes, attr.1 = "uuid" → attr.2.StringValue ≠ none) :
    ∀ uuid, ∃ out, sliceDeviceUUID attributes uuid = .ok out := by
  induction attributes with
  | nil => intro uuid; exact ⟨uuid, rfl⟩
  | cons attr rest ih =>
    intro uuid
    obtain ⟨attrName, attrValue⟩ := attr
    have ih2 := ih (fun a ha => h a (List.mem_cons_of_mem _ ha))
    by_cases hn : attrName = "uuid"
    · cases hv : attrValue.StringValue with
      | none => exact absurd hv (h (attrName, attrValue) (List.mem_cons_self _ _) hn)
      | some value =>
        simp only [sliceDeviceUUID, hn, hv, if_true]
        exact ih2 value
    · simp only [sliceDeviceUUID, hn, if_false]
      exact ih2 uuid

/-- What the loop over the devices of a slice returns: one entry is added per device
with a Basic section, in order and with the name of the device. -/
theorem sliceDevices_spec :
    ∀ (devices : List Device) (acc out : List ResourceSliceDevice),
      sliceDevices devices acc = .ok out →
      ∃ added, out = acc ++ added ∧
        List.Forall₂ (fun (device : Device) (entry : ResourceSliceDevice) =>
          entry.Name = device.Name)
          (devices.filter (fun device => device.Basic.isSome)) added := by
  intro devices
  induction devices with
  | nil =>
    intro acc out h
    simp only [sliceDevices, Except.ok.injEq] at h
    subst h
    exact ⟨[], by simp, by simp⟩
  | cons device rest ih =>
    intro acc out h
    rw [sliceDevices] at h
    cases hb : device.Basic with
    | none =>
      simp only [hb] at h
      obtain ⟨added, hout, hall⟩ := ih _ _ h
      refine ⟨added, hout, ?_⟩
      rw [List.filter_cons_of_neg (by simp [hb])]
      exact hall
    | some basic =>
      simp only [hb] at h
      cases hu : sliceDeviceUUID basic.Attributes "" with
      | error p => simp [hu] at h
      | ok uuid =>
        simp only [hu] at h
        obtain ⟨added, hout, hall⟩ := ih _ _ h
        refine ⟨⟨device.Name, uuid⟩ :: added, ?_, ?_⟩
        · rw [hout]
          simp only [List.append_assoc, List.singleton_append]
        · rw [List.filter_cons_of_pos (by simp [hb])]
          exact List.Forall₂.cons rfl hall

/-- What the loop over the listed slices returns: one entry per slice, in order. -/
theorem sliceInfos_spec :
    ∀ (slices : List ResourceSlice) (acc out : List ResourceSliceInfo),
      sliceInfos slices acc = .ok out →
      ∃ added, out = acc ++ added ∧ List.Forall₂ IsSliceEntryOf slices added := by
  intro slices
  induction slices with
  | nil =>
    intro acc out h
    simp only [sliceInfos, Except.ok.injEq] at h
    subst h
    exact ⟨[], by simp, List.Forall₂.nil⟩
  | cons rs rest ih =>
    intro acc out h
    rw [sliceInfos] at h
    cases hd : sliceDevices rs.Devices [] with
    | error p => simp [hd] at h
    | ok devices =>
      simp only [hd] at h
      obtain ⟨added, hout, hall⟩ := ih _ _ h
      obtain ⟨devs, hdevs, hfor⟩ := sliceDevices_spec rs.Devices [] devices hd
      refine ⟨(⟨rs.Name, rs.NodeName, rs.CreationTimestamp, rs.Driver, devices, rs.Pool⟩ :
          ResourceSliceInfo) :: added, ?_,
        List.Forall₂.cons ⟨rfl, rfl, rfl, rfl, rfl, ?_⟩ hall⟩
      · rw [hout]
        simp only [List.append_assoc, List.singleton_append]
      · rw [hdevs, List.nil_append]
        exact hfor

/-- The loops over the slices return unless an attribute `uuid` of a device with a
Basic section has a nil `StringValue`. -/
theorem sliceInfos_ok :
    ∀ (slices : List ResourceSlice) (acc : List ResourceSliceInfo),
      (∀ rs ∈ slices, ∀ device ∈ rs.Devices, ∀ basic, device.Basic = some basic →
        ∀ attr ∈ basic.Attributes, attr.1 = "uuid" → attr.2.StringValue ≠ none) →
      ∃ out, sliceInfos slices acc = .ok out := by
  have hdev : ∀ (devices : List Device) (acc : List ResourceSliceDevice),
      (∀ device ∈ devices, ∀ basic, device.Basic = some basic →
        ∀ attr ∈ basic.Attributes, attr.1 = "uuid" → attr.2.StringValue ≠ none) →
      ∃ out, sliceDevices devices acc = .ok out := by
    intro devices
    induction devices with
    | nil => intro acc _; exact ⟨acc, rfl⟩
    | cons device rest ih =>
      intro acc h
      have ih2 := fun a => ih a (fun d hd => h d (List.mem_cons_of_mem _ hd))
      rw [sliceDevices]
      cases hb : device.Basic with
      | none => exact ih2 _
      | some basic =>
        obtain ⟨uuid, hu⟩ := sliceDeviceUUID_ok basic.Attributes
          (h device (List.mem_cons_self _ _) basic hb) ""
        simp only [hu]
        exact ih2 _
  intro slices
  induction slices with
  | nil => intro acc _; exact ⟨acc, rfl⟩
  | cons rs rest ih =>
    intro acc h
    obtain ⟨devices, hd⟩ := hdev rs.Devices [] (h rs (List.mem_cons_self _ _))
    rw [sliceInfos]
    simp only [hd]
    exact ih _ (fun x hx => h x (List.mem_cons_of_mem _ hx))

/-- The output of `GetResourceSliceInfo` when the listing succeeds and no attribute
`uuid` has a nil `StringValue`: one entry per slice, in the order of the listing,
with the devices that have a Basic section, and no error. -/
theorem GetResourceSliceInfo_entries {σ : Type} (R : Reader σ) (w w1 : σ)
    (slices : List ResourceSlice)
    (hslices : R.ListResourceSlices w = (.ok slices, w1))
    (huuid : ∀ rs ∈ slices, ∀ device ∈ rs.Devices, ∀ basic, device.Basic = some basic →
      ∀ attr ∈ basic.Attributes, attr.1 = "uuid" → attr.2.StringValue ≠ none) :
    ∃ infos, (GetResourceSliceInfo R w).result = .ok (infos, none) ∧
      List.Forall₂ IsSliceEntryOf slices infos := by
  obtain ⟨out, hout⟩ := sliceInfos_ok slices [] huuid
  obtain ⟨added, hadd, hall⟩ := sliceInfos_spec slices [] out hout
  refine ⟨out, ?_, ?_⟩
  · simp only [GetResourceSliceInfo, hslices, hout]
  · rw [hadd, List.nil_append]
    exact hall

/-- C22, the diverging input: the device of `nilUuidSlice` has a Basic section whose
attribute `uuid` has a nil `StringValue`; `GetResourceSliceInfo` dereferences it at
line 111 and panics, so no device entry and no output is produced, while the slice
of the test, whose `uuid` attributes are strings, gives its entry. -/
theorem GetResourceSliceInfo_nil_uuid_panics :
    nilUuidSlice.Devices.map (fun device => device.Basic.isSome) = [true] ∧
    sliceDeviceUUID [("uuid", ⟨none⟩)] "" = .error .nilPointerDereference ∧
    (GetResourceSliceInfo (sampleReader [] [nilUuidSlice] [] (.ok [])) 0).result =
      .error .nilPointerDereference ∧
    (GetResourceSliceInfo (sampleReader [] [testSlice] [] (.ok [])) 0).result =
      .ok ([⟨"test-resourceslice-1", "node1", 0, "gpu.nvidia.com",
        [⟨"gpu-1", "1234"⟩, ⟨"gpu-2", "5678"⟩], "test-pool"⟩], none) :=
  ⟨rfl, rfl, rfl, rfl⟩

/-! ## Theorems: signalling a device and classifying it again -/

/-- After the loop body of `PatchResourceClaimDeviceConditions` the condition list of
a device is not nil. -/
theorem setDeviceCondition_some (T : String) (now : Int) (d : AllocatedDeviceStatus) :
    ∃ l, (setDeviceCondition T now d).Conditions = some l := by
  unfold setDeviceCondition
  cases h : replaceCondition T ⟨T, "True", now⟩ (d.Conditions.getD []) with
  | none =>
    exact ⟨d.Conditions.getD [] ++ [⟨T, "True", now⟩], by simp only [h]⟩
  | some l => exact ⟨l, by simp only [h]⟩

/-- A condition list whose first condition is not a reschedule condition is
classified as failed or as preparing. -/
theorem deviceState_of_other_type (first : Condition) (rest : List Condition)
    (h : first.ConditionType ≠ "FabricDeviceReschedule") :
    deviceState (some (first :: rest)) = .ok "Failed" ∨
    deviceState (some (first :: rest)) = .ok "Preparing" := by
  rw [deviceState_cons, if_neg (fun hc => h hc.1)]
  split_ifs
  · exact Or.inl rfl
  · exact Or.inr rfl

/-- The state of a device after the reschedule condition has been set on it. -/
theorem setDeviceCondition_state (now : Int) (d : AllocatedDeviceStatus) :
    (∃ state,
      deviceState (setDeviceCondition "FabricDeviceReschedule" now d).Conditions = .ok state) ∧
    (deviceState (setDeviceCondition "FabricDeviceReschedule" now d).Conditions =
        .ok "Reschedule" ↔
      (d.Conditions.getD [] = [] ∨
        ∃ first rest, d.Conditions.getD [] = first :: rest ∧
          first.ConditionType = "FabricDeviceReschedule")) ∧
    (∀ first rest, d.Conditions.getD [] = first :: rest →
      first.ConditionType ≠ "FabricDeviceReschedule" →
      deviceState (setDeviceCondition "FabricDeviceReschedule" now d).Conditions =
        deviceState d.Conditions ∧
      (deviceState (setDeviceCondition "FabricDeviceReschedule" now d).Conditions =
          .ok "Failed" ∨
        deviceState (setDeviceCondition "FabricDeviceReschedule" now d).Conditions =
          .ok "Preparing")) := by
  cases hl : d.Conditions.getD [] with
  | nil =>
    have habs := setDeviceCondition_absent "FabricDeviceReschedule" now d
      (by rw [hl]; intro c hc; cases hc)
    rw [hl, List.nil_append] at habs
    rw [habs]
    refine ⟨⟨_, rfl⟩, ⟨fun _ => Or.inl rfl, fun _ => rfl⟩, ?_⟩
    intro first rest h
    cases h
  | cons first rest =>
    by_cases ht : first.ConditionType = "FabricDeviceReschedule"
    · have hp := setDeviceCondition_present "FabricDeviceReschedule" now d [] rest first
        (by rw [hl]; rfl) (by intro x hx; cases hx) ht
      rw [List.nil_append] at hp
      have hstate : deviceState (setDeviceCondition "FabricDeviceReschedule" now d).Conditions =
          .ok "Reschedule" := by
        rw [hp, deviceState_cons]
        by_cases hs : first.Status = "True"
        · simp [hs, ht]
        · simp [hs]
      refine ⟨⟨_, hstate⟩, ⟨fun _ => Or.inr ⟨first, rest, rfl, ht⟩, fun _ => hstate⟩, ?_⟩
      intro f r h hne
      simp only [List.cons.injEq] at h
      exact absurd (h.1 ▸ ht) hne
    · obtain ⟨l, hsome⟩ := setDeviceCondition_some "FabricDeviceReschedule" now d
      have hkeep := (setDeviceCondition_others "FabricDeviceReschedule" now d).2.2 0 first
        (by rw [hl]; simp) ht
      rw [hsome, Option.getD_some] at hkeep
      have hcond : d.Conditions = some (first :: rest) := by
        cases hc : d.Conditions with
        | none => rw [hc] at hl; cases hl
        | some l0 =>
          rw [hc, Option.getD_some] at hl
          rw [hl]
      cases l with
      | nil => simp at hkeep
      | cons x tail =>
        simp only [List.getElem?_cons_zero, Option.some.injEq] at hkeep
        subst hkeep
        have hsame : deviceState (some (x :: tail)) = deviceState (some (x :: rest)) := by
          rw [deviceState_cons, deviceState_cons]
        rw [hsome, hcond]
        refine ⟨?_, ?_, ?_⟩
        · rcases deviceState_of_other_type x tail ht with h | h
          · exact ⟨_, h⟩
          · exact ⟨_, h⟩
        · constructor
          · intro h
            rcases deviceState_of_other_type x tail ht with h2 | h2
            · rw [h2] at h
              simp only [Except.ok.injEq] at h
              exact absurd h (by decide)
            · rw [h2] at h
              simp only [Except.ok.injEq] at h
              exact absurd h (by decide)
          · rintro (h | ⟨f, r, h, hf⟩)
            · cases h
            · simp only [List.cons.injEq] at h
              exact absurd (h.1 ▸ hf) ht
        · intro f r _ _
          exact ⟨hsame, deviceState_of_other_type x tail ht⟩

/-- C23: for every status device of a claim, the claim that
`PatchResourceClaimDeviceConditions` builds with the condition type
"FabricDeviceReschedule" holds in its place a device of the same name that the
classification of `GetResourceClaimInfo` gives a state; the state is "Reschedule" if
and only if the original condition list was empty or its first condition had the
type "FabricDeviceReschedule"; a device whose first condition has another type keeps
the classification it had, which is "Failed" or "Preparing". -/
theorem signal_classify_round_trip {σ : Type} (C : Client σ) (rc : ResourceClaim) (w : σ)
    (i : Nat) (d : AllocatedDeviceStatus) (hi : rc.Devices[i]? = some d) :
    ∃ d2, (modifiedRC C "FabricDeviceReschedule" rc w).Devices[i]? = some d2 ∧
      d2.Device = d.Device ∧
      (∃ state, deviceState d2.Conditions = .ok state) ∧
      (deviceState d2.Conditions = .ok "Reschedule" ↔
        (d.Conditions.getD [] = [] ∨
          ∃ first rest, d.Conditions.getD [] = first :: rest ∧
            first.ConditionType = "FabricDeviceReschedule")) ∧
      (∀ first rest, d.Conditions.getD [] = first :: rest →
        first.ConditionType ≠ "FabricDeviceReschedule" →
        deviceState d2.Conditions = deviceState d.Conditions ∧
        (deviceState d2.Conditions = .ok "Failed" ∨
          deviceState d2.Conditions = .ok "Preparing")) := by
  obtain ⟨now, hnow⟩ := (setDeviceConditions_getElem C "FabricDeviceReschedule" rc.Devices w).2
    i d hi
  obtain ⟨h1, h2, h3⟩ := setDeviceCondition_state now d
  exact ⟨setDeviceCondition "FabricDeviceReschedule" now d, hnow,
    (setDeviceCondition_fields "FabricDeviceReschedule" now d).2.2, h1, h2, h3⟩

/-- C23 on the sample claim: its device has a first condition of another type and a
reschedule condition that is not true; after the signal the device of the claim
built is still classified as "Preparing", not as "Reschedule". -/
theorem signal_classify_round_trip_witness :
    ∃ d2, (modifiedRC sampleClient "FabricDeviceReschedule" sampleClaim quietWorld).Devices[0]? =
        some d2 ∧
      deviceState d2.Conditions = .ok "Preparing" ∧
      deviceState d2.Conditions ≠ .ok "Reschedule" := by
  obtain ⟨d2, h1, -, -, -, h5⟩ := signal_classify_round_trip sampleClient sampleClaim quietWorld 0
    ⟨"gpu.nvidia.com", "pool", "gpu-1",
      some [⟨"Other", "True", 0⟩, ⟨"FabricDeviceReschedule", "False", 0⟩]⟩ rfl
  have h6 := (h5 ⟨"Other", "True", 0⟩ [⟨"FabricDeviceReschedule", "False", 0⟩] rfl
    (by decide)).1
  have h7 : deviceState d2.Conditions = .ok "Preparing" := by
    rw [h6]
    rfl
  refine ⟨d2, h1, h7, ?_⟩
  rw [h7]
  intro h
  simp only [Except.ok.injEq] at h
  exact absurd h (by decide)

/-! ## Theorems: one call per catalog entry -/

/-- The iteration of a catalog entry issues at most one call, and a request it hands
on is the first request of the list for the model on the node. -/
theorem handleDevice_one_call {σ : Type} (E : Env σ) (r : ResourceMonitorReconciler)
    (nodeInfo : NodeInfo) (claims : List ResourceClaimInfo) (slices : List ResourceSliceInfo)
    (spec : ComposableDRASpec) (items : List ComposabilityRequest) (device : DeviceInfo)
    (w : σ) :
    IsCallsOfEntry items nodeInfo device
      (handleDevice E r nodeInfo claims slices spec items device w).calls := by
  rcases hcount : E.GetConfiguredDeviceCount w device.CDIModelName nodeInfo.Name claims slices
    with ⟨err | counted, w1⟩
  · have hnil : (handleDevice E r nodeInfo claims slices spec items device w).calls = [] := by
      simp only [handleDevice, hcount]
    rw [hnil]
    exact ⟨by simp, fun c hc => absurd hc (List.not_mem_nil c)⟩
  · cases hfind : items.find? (requestMatches device nodeInfo) with
    | none =>
      have hnone : ∀ x ∈ items, requestMatches device nodeInfo x = false := by
        intro x hx
        have := List.find?_eq_none.mp hfind x hx
        simpa using this
      rw [handleDevice_calls_of_no_match E r nodeInfo claims slices spec items device w w1
        counted hcount hnone]
      split_ifs
      · refine ⟨by simp, ?_⟩
        intro c hc
        simp only [List.mem_singleton] at hc
        subst hc
        exact ⟨rfl, fun x hx => by cases hx⟩
      · exact ⟨by simp, fun c hc => absurd hc (List.not_mem_nil c)⟩
    | some cr =>
      obtain ⟨hp, pre, post, hitems, hpre⟩ := List.find?_eq_some.mp hfind
      have hm := ((requestMatches_iff device nodeInfo cr).mp hp).1
      have hfirst : ∀ x, some cr = some x →
          requestMatches device nodeInfo x = true ∧
          ∃ pre post, items = pre ++ x :: post ∧
            ∀ y ∈ pre, requestMatches device nodeInfo y = false := by
        intro x hx
        simp only [Option.some.injEq] at hx
        subst hx
        exact ⟨hp, pre, post, hitems, fun y hy => by simpa using hpre y hy⟩
      rw [handleDevice_calls_of_match E r nodeInfo claims slices spec items device w w1
        counted cr hcount hfind]
      split_ifs
      · refine ⟨by simp, ?_⟩
        intro c hc
        simp only [List.mem_singleton] at hc
        subst hc
        exact ⟨rfl, hfirst⟩
      · refine ⟨by simp, ?_⟩
        intro c hc
        simp only [List.mem_singleton] at hc
        subst hc
        exact ⟨hm, hfirst⟩
      · exact ⟨by simp, fun c hc => absurd hc (List.not_mem_nil c)⟩

/-- The calls of a run of the loop over the catalog, entry by entry: the entries
reached are an initial part of the catalog and each has its own calls. -/
theorem handleDevicesLoop_parts {σ : Type} (E : Env σ) (r : ResourceMonitorReconciler)
    (nodeInfo : NodeInfo) (claims : List ResourceClaimInfo) (slices : List ResourceSliceInfo)
    (spec : ComposableDRASpec) (items : List ComposabilityRequest) :
    ∀ (ds : List DeviceInfo) (w : σ),
      ∃ parts : List (List Call),
        (handleDevicesLoop E r nodeInfo claims slices spec items ds w).calls = parts.flatten ∧
        parts.length ≤ ds.length ∧
        List.Forall₂ (IsCallsOfEntry items nodeInfo) (ds.take parts.length) parts := by
  intro ds
  induction ds with
  | nil =>
    intro w
    exact ⟨[], rfl, Nat.le_refl _, List.Forall₂.nil⟩
  | cons d rest ih =>
    intro w
    have hd := handleDevice_one_call E r nodeInfo claims slices spec items d w
    cases herr : (handleDevice E r nodeInfo claims slices spec items d w).err with
    | some e =>
      refine ⟨[(handleDevice E r nodeInfo claims slices spec items d w).calls], ?_, ?_, ?_⟩
      · simp only [handleDevicesLoop, herr, List.flatten_cons, List.flatten_nil, List.append_nil]
      · simp
      · exact List.Forall₂.cons hd List.Forall₂.nil
    | none =>
      obtain ⟨parts, hcalls, hlen, hall⟩ :=
        ih (handleDevice E r nodeInfo claims slices spec items d w).world
      refine ⟨(handleDevice E r nodeInfo claims slices spec items d w).calls :: parts, ?_, ?_, ?_⟩
      · simp only [handleDevicesLoop, herr, List.flatten_cons, hcalls]
      · simp only [List.length_cons]
        omega
      · exact List.Forall₂.cons hd hall

/-- Parts of at most one call each hold no more calls than there are parts. -/
theorem length_join_le_of_parts (items : List ComposabilityRequest) (nodeInfo : NodeInfo) :
    ∀ (ds : List DeviceInfo) (parts : List (List Call)),
      List.Forall₂ (IsCallsOfEntry items nodeInfo) ds parts →
      parts.flatten.length ≤ parts.length ∧
      (parts.flatten.map Call.model).Sublist (ds.map (fun d => d.CDIModelName)) := by
  intro ds parts h
  induction h with
  | nil => exact ⟨Nat.le_refl _, List.Sublist.slnil⟩
  | @cons d part ds2 parts2 hd _ ih =>
    obtain ⟨hlen, hmodel⟩ := hd
    simp only [List.flatten_cons, List.length_append, List.length_cons, List.map_append,
      List.map_cons]
    refine ⟨by have := ih.1; omega, ?_⟩
    have hpart : (part.map Call.model).Sublist [d.CDIModelName] := by
      match part, hlen, hmodel with
      | [], _, _ => exact List.nil_sublist _
      | [c], _, hmodel =>
        have := (hmodel c (List.mem_singleton.mpr rfl)).1
        simp only [List.map_cons, List.map_nil, this]
        exact List.Sublist.refl _
      | _ :: _ :: _, hlen, _ => simp at hlen
    exact List.Sublist.append hpart ih.2

/-- C25: `handleDevices` issues at most one call per catalog entry, hence at most
`len(DeviceInfos)` calls, in catalog order: the calls are, entry by entry along an
initial part of the catalog, at most one call about the model of the entry. A
request handed to the call of an entry is the first request of the list, in list
order, whose model and node are those of the entry; no other request of the list,
in particular no later request of the same model and node, is handed to
`DynamicAttach` or `DynamicDetach` for the entry. -/
theorem handleDevices_one_call_per_entry {σ : Type} (E : Env σ) (r : ResourceMonitorReconciler)
    (nodeInfo : NodeInfo) (claims : List ResourceClaimInfo) (slices : List ResourceSliceInfo)
    (spec : ComposableDRASpec) (w : σ) :
    (handleDevices E r nodeInfo claims slices spec w).calls.length ≤ spec.DeviceInfos.length ∧
    ((handleDevices E r nodeInfo claims slices spec w).calls.map Call.model).Sublist
      (spec.DeviceInfos.map (fun d => d.CDIModelName)) ∧
    (∀ items w1, E.ListComposabilityRequests w = (.ok items, w1) →
      ∃ parts : List (List Call),
        (handleDevices E r nodeInfo claims slices spec w).calls = parts.flatten ∧
        parts.length ≤ spec.DeviceInfos.length ∧
        List.Forall₂ (IsCallsOfEntry items nodeInfo) (spec.DeviceInfos.take parts.length)
          parts) ∧
    (∀ err w1, E.ListComposabilityRequests w = (.error err, w1) →
      (handleDevices E r nodeInfo claims slices spec w).calls = []) := by
  rcases hlist : E.ListComposabilityRequests w with ⟨err | items, w1⟩
  · have hnil : (handleDevices E r nodeInfo claims slices spec w).calls = [] := by
      simp only [handleDevices, hlist]
    rw [hnil]
    refine ⟨Nat.zero_le _, List.nil_sublist _, ?_, fun _ _ _ => rfl⟩
    intro items w2 h
    cases h
  · have hloop : handleDevices E r nodeInfo claims slices spec w =
        handleDevicesLoop E r nodeInfo claims slices spec items spec.DeviceInfos w1 := by
      simp only [handleDevices, hlist]
    obtain ⟨parts, hcalls, hlen, hall⟩ :=
      handleDevicesLoop_parts E r nodeInfo claims slices spec items spec.DeviceInfos w1
    obtain ⟨h1, h2⟩ := length_join_le_of_parts items nodeInfo _ parts hall
    rw [hloop]
    refine ⟨?_, ?_, ?_, ?_⟩
    · rw [hcalls]
      omega
    · rw [hcalls]
      exact h2.trans ((List.take_sublist _ _).map _)
    · intro items2 w2 h
      simp only [Prod.mk.injEq, Except.ok.injEq] at h
      obtain ⟨hi, -⟩ := h
      subst hi
      exact ⟨parts, hcalls, hlen, hall⟩
    · intro err w2 h
      cases h

/-- C25 at a concrete run: two requests for model `M` on `node1` are listed, of the
sizes 5 and 1, and the clamped count is 2; the single call is the detach of the
first request, and the second request is handed to no call. -/
theorem handleDevices_one_call_per_entry_witness :
    (handleDevices (quietEnv 0) sampleReconciler sampleNode [] [] sampleSpec
      twoRequestsWorld).calls.length ≤ sampleSpec.DeviceInfos.length ∧
    (handleDevices (quietEnv 0) sampleReconciler sampleNode [] [] sampleSpec
      twoRequestsWorld).calls =
      [Call.DynamicDetach ⟨"first", "M", "node1", 5, "gpu"⟩ 2 "node1" "p" 600] :=
  ⟨(handleDevices_one_call_per_entry (quietEnv 0) sampleReconciler sampleNode [] [] sampleSpec
      twoRequestsWorld).1, by decide⟩

/-! ## Theorems: processNodeInfo and the order of the labels -/

/-- A size label of a successful run has a value that parses and a device name that
the catalog knows. -/
theorem size_label_good (spec : ComposableDRASpec) (labels : List (String × String))
    (ms0 ms : List ModelConstraints) (key val d : String)
    (h : processLabels spec labels ms0 = .ok ms) (hmem : (key, val) ∈ labels)
    (hkey : key = spec.LabelPrefix ++ "/" ++ d ++ "-size-min" ∨
      key = spec.LabelPrefix ++ "/" ++ d ++ "-size-max") :
    ∃ n model, Atoi val = .ok n ∧ getModelName spec d = .ok model := by
  have hgood : ¬ IsBadSizeLabel spec key val := by
    intro hbad
    obtain ⟨err, herr⟩ := (processLabels_error_iff spec labels ms0).2 ⟨(key, val), hmem, hbad⟩
    rw [h] at herr
    cases herr
  cases ha : Atoi val with
  | error err =>
    exact absurd ⟨d, hkey, Or.inl (fun n hn => by rw [ha] at hn; cases hn)⟩ hgood
  | ok n =>
    cases hg : getModelName spec d with
    | error msg =>
      exact absurd ⟨d, hkey, Or.inr ((getModelName_error_iff spec d).1 ⟨msg, hg⟩)⟩ hgood
    | ok model => exact ⟨n, model, rfl, rfl⟩

/-- The entry of a device that has a maximum label and no minimum label. -/
theorem processLabels_only_max (spec : ComposableDRASpec) (d vb model : String) (b : Int)
    (labels : List (String × String)) (ms : List ModelConstraints)
    (hnodup : (labels.map Prod.fst).Nodup)
    (hmax : (spec.LabelPrefix ++ "/" ++ d ++ "-size-max", vb) ∈ labels)
    (hnomin : ∀ kv ∈ labels, kv.1 ≠ spec.LabelPrefix ++ "/" ++ d ++ "-size-min")
    (hb : Atoi vb = .ok b) (hg : getModelName spec d = .ok model)
    (h : processLabels spec labels [] = .ok ms) :
    firstEntry d ms = some ⟨model, d, b, 0⟩ := by
  obtain ⟨s, t, rfl⟩ := List.append_of_mem hmax
  have hk := keys_differ_of_nodup s t _ vb hnodup
  obtain ⟨m1, h1, h⟩ := processLabels_append spec _ _ _ _ h
  obtain ⟨m2, h2, h3⟩ := processLabels_cons spec _ _ _ _ _ h
  have e1 : firstEntry d m1 = none := by
    rw [processLabels_frame spec d s [] m1
      (fun kv hkv => ⟨hnomin kv (List.mem_append_left _ hkv), hk.1 kv hkv⟩) h1]
    rfl
  have e2 := processLabel_max_effect spec m1 m2 d vb model b h2 hb hg
  rw [e1] at e2
  have e3 : firstEntry d ms = firstEntry d m2 :=
    processLabels_frame spec d t m2 ms
      (fun kv hkv => ⟨hnomin kv (List.mem_append_right _ (List.mem_cons_of_mem _ hkv)),
        hk.2 kv hkv⟩) h3
  rw [e3, e2]

/-- The entry of a device that has a minimum label and no maximum label. -/
theorem processLabels_only_min (spec : ComposableDRASpec) (d va model : String) (a : Int)
    (labels : List (String × String)) (ms : List ModelConstraints)
    (hnodup : (labels.map Prod.fst).Nodup)
    (hmin : (spec.LabelPrefix ++ "/" ++ d ++ "-size-min", va) ∈ labels)
    (hnomax : ∀ kv ∈ labels, kv.1 ≠ spec.LabelPrefix ++ "/" ++ d ++ "-size-max")
    (ha : Atoi va = .ok a) (hg : getModelName spec d = .ok model)
    (h : processLabels spec labels [] = .ok ms) :
    firstEntry d ms = some ⟨model, d, 0, a⟩ := by
  obtain ⟨s, t, rfl⟩ := List.append_of_mem hmin
  have hk := keys_differ_of_nodup s t _ va hnodup
  obtain ⟨m1, h1, h⟩ := processLabels_append spec _ _ _ _ h
  obtain ⟨m2, h2, h3⟩ := processLabels_cons spec _ _ _ _ _ h
  have e1 : firstEntry d m1 = none := by
    rw [processLabels_frame spec d s [] m1
      (fun kv hkv => ⟨hk.1 kv hkv, hnomax kv (List.mem_append_left _ hkv)⟩) h1]
    rfl
  have e2 := processLabel_min_effect spec m1 m2 d va model a h2 ha hg
  rw [e1] at e2
  have e3 : firstEntry d ms = firstEntry d m2 :=
    processLabels_frame spec d t m2 ms
      (fun kv hkv => ⟨hk.2 kv hkv,
        hnomax kv (List.mem_append_right _ (List.mem_cons_of_mem _ hkv))⟩) h3
  rw [e3, e2]

/-- The first entry of every device name is the same for two visiting orders of
labels with distinct keys. -/
theorem processLabels_firstEntry_perm (spec : ComposableDRASpec)
    (l1 l2 : List (String × String)) (ms1 ms2 : List ModelConstraints)
    (hperm : l1.Perm l2) (hnodup : (l1.map Prod.fst).Nodup)
    (h1 : processLabels spec l1 [] = .ok ms1) (h2 : processLabels spec l2 [] = .ok ms2)
    (d : String) : firstEntry d ms1 = firstEntry d ms2 := by
  have hnodup2 : (l2.map Prod.fst).Nodup := (hperm.map Prod.fst).nodup_iff.1 hnodup
  by_cases hmin : ∃ va, (spec.LabelPrefix ++ "/" ++ d ++ "-size-min", va) ∈ l1
  · obtain ⟨va, hva⟩ := hmin
    obtain ⟨a, model, ha, hg⟩ := size_label_good spec l1 [] ms1 _ va d h1 hva (Or.inl rfl)
    by_cases hmax : ∃ vb, (spec.LabelPrefix ++ "/" ++ d ++ "-size-max", vb) ∈ l1
    · obtain ⟨vb, hvb⟩ := hmax
      obtain ⟨b, model2, hb, -⟩ := size_label_good spec l1 [] ms1 _ vb d h1 hvb (Or.inr rfl)
      rw [processLabels_min_max spec d va vb model a b l1 ms1 hnodup hva hvb ha hb hg h1,
        processLabels_min_max spec d va vb model a b l2 ms2 hnodup2 (hperm.mem_iff.1 hva)
          (hperm.mem_iff.1 hvb) ha hb hg h2]
    · have hno1 : ∀ kv ∈ l1, kv.1 ≠ spec.LabelPrefix ++ "/" ++ d ++ "-size-max" := by
        intro kv hkv heq
        exact hmax ⟨kv.2, by rw [← heq]; exact hkv⟩
      have hno2 : ∀ kv ∈ l2, kv.1 ≠ spec.LabelPrefix ++ "/" ++ d ++ "-size-max" :=
        fun kv hkv => hno1 kv (hperm.mem_iff.2 hkv)
      rw [processLabels_only_min spec d va model a l1 ms1 hnodup hva hno1 ha hg h1,
        processLabels_only_min spec d va model a l2 ms2 hnodup2 (hperm.mem_iff.1 hva) hno2
          ha hg h2]
  · have hnomin1 : ∀ kv ∈ l1, kv.1 ≠ spec.LabelPrefix ++ "/" ++ d ++ "-size-min" := by
      intro kv hkv heq
      exact hmin ⟨kv.2, by rw [← heq]; exact hkv⟩
    have hnomin2 : ∀ kv ∈ l2, kv.1 ≠ spec.LabelPrefix ++ "/" ++ d ++ "-size-min" :=
      fun kv hkv => hnomin1 kv (hperm.mem_iff.2 hkv)
    by_cases hmax : ∃ vb, (spec.LabelPrefix ++ "/" ++ d ++ "-size-max", vb) ∈ l1
    · obtain ⟨vb, hvb⟩ := hmax
      obtain ⟨b, model, hb, hg⟩ := size_label_good spec l1 [] ms1 _ vb d h1 hvb (Or.inr rfl)
      rw [processLabels_only_max spec d vb model b l1 ms1 hnodup hvb hnomin1 hb hg h1,
        processLabels_only_max spec d vb model b l2 ms2 hnodup2 (hperm.mem_iff.1 hvb) hnomin2
          hb hg h2]
    · have hno1 : ∀ kv ∈ l1, kv.1 ≠ spec.LabelPrefix ++ "/" ++ d ++ "-size-max" := by
        intro kv hkv heq
        exact hmax ⟨kv.2, by rw [← heq]; exact hkv⟩
      have hno2 : ∀ kv ∈ l2, kv.1 ≠ spec.LabelPrefix ++ "/" ++ d ++ "-size-max" :=
        fun kv hkv => hno1 kv (hperm.mem_iff.2 hkv)
      rw [processLabels_frame spec d l1 [] ms1 (fun kv hkv => ⟨hnomin1 kv hkv, hno1 kv hkv⟩) h1,
        processLabels_frame spec d l2 [] ms2 (fun kv hkv => ⟨hnomin2 kv hkv, hno2 kv hkv⟩) h2]

/-- In a list with distinct device names, an entry is in the list exactly when it
is the first entry of its device name. -/
theorem mem_iff_firstEntry (ms : List ModelConstraints)
    (hn : (ms.map (fun m => m.DeviceName)).Nodup) (m : ModelConstraints) :
    m ∈ ms ↔ firstEntry m.DeviceName ms = some m := by
  constructor
  · intro hm
    induction ms with
    | nil => cases hm
    | cons x rest ih =>
      simp only [List.map_cons, List.nodup_cons, List.mem_map, not_exists, not_and] at hn
      rcases List.mem_cons.1 hm with rfl | hmem
      · exact firstEntry_cons_of_eq _ _ _ rfl
      · have hne : x.DeviceName ≠ m.DeviceName := fun e => hn.1 m hmem e.symm
        rw [firstEntry_cons_of_ne _ _ _ hne]
        exact ih hn.2 hmem
  · intro h
    exact List.mem_of_find?_eq_some h

/-- Two lists with distinct device names and the same first entries hold the same
entries, up to their order. -/
theorem perm_of_firstEntry_eq (ms1 ms2 : List ModelConstraints)
    (hn1 : (ms1.map (fun m => m.DeviceName)).Nodup)
    (hn2 : (ms2.map (fun m => m.DeviceName)).Nodup)
    (h : ∀ d, firstEntry d ms1 = firstEntry d ms2) : ms1.Perm ms2 := by
  rw [List.perm_ext_iff_of_nodup (List.Nodup.of_map _ hn1) (List.Nodup.of_map _ hn2)]
  intro m
  rw [mem_iff_firstEntry ms1 hn1, mem_iff_firstEntry ms2 hn2, h]

/-- The models of a node are the same, up to their order, for two visiting orders of
labels with distinct keys. -/
theorem processLabels_perm (spec : ComposableDRASpec) (l1 l2 : List (String × String))
    (ms1 ms2 : List ModelConstraints) (hperm : l1.Perm l2) (hnodup : (l1.map Prod.fst).Nodup)
    (h1 : processLabels spec l1 [] = .ok ms1) (h2 : processLabels spec l2 [] = .ok ms2) :
    ms1.Perm ms2 :=
  perm_of_firstEntry_eq ms1 ms2
    (processLabels_names_nodup spec l1 [] ms1 List.nodup_nil h1)
    (processLabels_names_nodup spec l2 [] ms2 List.nodup_nil h2)
    (processLabels_firstEntry_perm spec l1 l2 ms1 ms2 hperm hnodup h1 h2)

/-- A label that is irrelevant leaves the models as they are. -/
theorem processLabel_irrelevant (spec : ComposableDRASpec) (ms : List ModelConstraints)
    (key val : String) (h : irrelevantLabel spec key = true) :
    processLabel spec ms key val = .ok ms := by
  have hrel : ∀ d x, key = spec.LabelPrefix ++ "/" ++ d ++ x →
      HasPrefix key (spec.LabelPrefix ++ "/") = true ∧ HasSuffix key x = true := by
    intro d x hk
    refine ⟨(HasPrefix_iff _ _).2 ⟨d ++ x, by rw [hk, String.append_assoc]⟩,
      (HasSuffix_iff _ _).2 ⟨spec.LabelPrefix ++ "/" ++ d, hk⟩⟩
  apply processLabel_other
  · intro d hk
    obtain ⟨h1, h2⟩ := hrel d "-size-max" hk
    simp [irrelevantLabel, h1, h2] at h
  · intro d hk
    obtain ⟨h1, h2⟩ := hrel d "-size-min" hk
    simp [irrelevantLabel, h1, h2] at h

/-- Dropping the irrelevant labels does not change the run over the labels. -/
theorem processLabels_filter (spec : ComposableDRASpec) (labels : List (String × String)) :
    ∀ ms, processLabels spec (labels.filter (fun kv => !irrelevantLabel spec kv.1)) ms =
      processLabels spec labels ms := by
  induction labels with
  | nil => intro ms; rfl
  | cons kv rest ih =>
    intro ms
    obtain ⟨key, val⟩ := kv
    by_cases h : irrelevantLabel spec key = true
    · rw [List.filter_cons_of_neg (by simp [h]), ih]
      simp only [processLabels, processLabel_irrelevant spec ms key val h]
    · rw [List.filter_cons_of_pos (by simp [h])]
      simp only [processLabels]
      cases processLabel spec ms key val with
      | error err => rfl
      | ok ms2 => exact ih ms2

/-- Dropping the irrelevant labels of every node does not change the run over the
nodes. -/
theorem processNodes_strip (spec : ComposableDRASpec) (nodes : List Node) :
    ∀ acc, processNodes spec (nodes.map (stripLabels spec)) acc = processNodes spec nodes acc := by
  induction nodes with
  | nil => intro acc; rfl
  | cons node rest ih =>
    intro acc
    simp only [List.map_cons, processNodes, stripLabels, processLabels_filter]
    cases processLabels spec node.Labels [] with
    | error err => rfl
    | ok models => exact ih _

/-- Two visiting orders agree on whether a label of a node is rejected. -/
theorem bad_label_reordering (spec : ComposableDRASpec) (nodes1 nodes2 : List Node)
    (hsame : List.Forall₂ IsReordering nodes1 nodes2) :
    (∃ node ∈ nodes1, ∃ kv ∈ node.Labels, IsBadSizeLabel spec kv.1 kv.2) ↔
      ∃ node ∈ nodes2, ∃ kv ∈ node.Labels, IsBadSizeLabel spec kv.1 kv.2 := by
  induction hsame with
  | nil => simp
  | @cons n1 n2 l1 l2 h _ ih =>
    simp only [List.mem_cons, exists_eq_or_imp, ih]
    have hmem : (∃ kv ∈ n1.Labels, IsBadSizeLabel spec kv.1 kv.2) ↔
        ∃ kv ∈ n2.Labels, IsBadSizeLabel spec kv.1 kv.2 := by
      constructor
      · rintro ⟨kv, hkv, hb⟩
        exact ⟨kv, h.2.1.mem_iff.1 hkv, hb⟩
      · rintro ⟨kv, hkv, hb⟩
        exact ⟨kv, h.2.1.mem_iff.2 hkv, hb⟩
    rw [hmem]

/-- Two successful runs over the same nodes, their labels visited in two orders,
return NodeInfo lists that agree entry by entry. -/
theorem processNodes_reordering (spec : ComposableDRASpec) (nodes1 nodes2 : List Node)
    (hsame : List.Forall₂ IsReordering nodes1 nodes2) :
    ∀ (acc1 acc2 infos1 infos2 : List NodeInfo),
      List.Forall₂ SameModels acc1 acc2 →
      processNodes spec nodes1 acc1 = .ok infos1 →
      processNodes spec nodes2 acc2 = .ok infos2 →
      List.Forall₂ SameModels infos1 infos2 ∧
      infos1.map (fun i => i.Name) = acc1.map (fun i => i.Name) ++ nodes1.map (fun n => n.Name) := by
  induction hsame with
  | nil =>
    intro acc1 acc2 infos1 infos2 hacc h1 h2
    simp only [processNodes, Except.ok.injEq] at h1 h2
    subst h1
    subst h2
    exact ⟨hacc, by simp⟩
  | @cons n1 n2 l1 l2 h _ ih =>
    intro acc1 acc2 infos1 infos2 hacc h1 h2
    simp only [processNodes] at h1 h2
    cases hp1 : processLabels spec n1.Labels [] with
    | error err => simp [hp1] at h1
    | ok ms1 =>
      cases hp2 : processLabels spec n2.Labels [] with
      | error err => simp [hp2] at h2
      | ok ms2 =>
        simp only [hp1] at h1
        simp only [hp2] at h2
        have hperm := processLabels_perm spec n1.Labels n2.Labels ms1 ms2 h.2.1 h.2.2 hp1 hp2
        obtain ⟨r1, r2⟩ := ih (acc1 ++ [⟨n1.Name, ms1⟩]) (acc2 ++ [⟨n2.Name, ms2⟩]) infos1 infos2
          (List.rel_append hacc (List.Forall₂.cons ⟨h.1, hperm⟩ List.Forall₂.nil)) h1 h2
        refine ⟨r1, ?_⟩
        rw [r2]
        simp

/-- C24: `processNodeInfo` does not depend on the order in which the labels of a node
are visited. For two node lists that hold the same nodes, each with labels of
distinct keys visited in two orders, the two runs agree on whether an error is
returned, and when they succeed they return the names of the nodes in the order of
the list, with the Models of every node equal up to their order (the same entries of
Model, DeviceName, MaxDevice and MinDevice). Dropping the labels that are outside
`LabelPrefix + "/"` or have neither size suffix never changes the result. -/
theorem processNodeInfo_label_order (spec : ComposableDRASpec) (nodes1 nodes2 : List Node)
    (hsame : List.Forall₂ IsReordering nodes1 nodes2) :
    ((∃ err, processNodeInfo nodes1 spec = .error err) ↔
      ∃ err, processNodeInfo nodes2 spec = .error err) ∧
    (∀ infos1, processNodeInfo nodes1 spec = .ok infos1 →
      ∃ infos2, processNodeInfo nodes2 spec = .ok infos2 ∧
        infos1.map (fun i => i.Name) = nodes1.map (fun n => n.Name) ∧
        infos2.map (fun i => i.Name) = nodes1.map (fun n => n.Name) ∧
        List.Forall₂ SameModels infos1 infos2) ∧
    (∀ nodes : List Node,
      processNodeInfo (nodes.map (stripLabels spec)) spec = processNodeInfo nodes spec) := by
  have herr : (∃ err, processNodeInfo nodes1 spec = .error err) ↔
      ∃ err, processNodeInfo nodes2 spec = .error err := by
    unfold processNodeInfo
    rw [processNodes_error_iff, processNodes_error_iff]
    exact bad_label_reordering spec nodes1 nodes2 hsame
  refine ⟨herr, ?_, fun nodes => processNodes_strip spec nodes []⟩
  intro infos1 h1
  cases h2 : processNodeInfo nodes2 spec with
  | error err =>
    obtain ⟨e1, he1⟩ := herr.2 ⟨err, h2⟩
    rw [h1] at he1
    cases he1
  | ok infos2 =>
    obtain ⟨r1, r2⟩ := processNodes_reordering spec nodes1 nodes2 hsame [] [] infos1 infos2
      List.Forall₂.nil h1 h2
    have hnames : infos2.map (fun i => i.Name) = infos1.map (fun i => i.Name) := by
      clear r2 h1 h2
      induction r1 with
      | nil => rfl
      | cons h _ ih => simp only [List.map_cons, ih, h.1]
    simp only [List.map_nil, List.nil_append] at r2
    exact ⟨infos2, rfl, r2, hnames.trans r2, r1⟩

/-- C24 on the node of `TestGetNodeInfo`: with its labels visited in the order of the
test and in the opposite order, both runs succeed with the entry of the one device. -/
theorem processNodeInfo_label_order_witness :
    ∃ infos2, processNodeInfo [testNodeReversed] testSpec = .ok infos2 ∧
      ([⟨"node1", [⟨"A100 80G", "nvidia-a100-80g", 6, 2⟩]⟩] : List NodeInfo).map
        (fun i => i.Name) = [testNode].map (fun n => n.Name) ∧
      infos2.map (fun i => i.Name) = [testNode].map (fun n => n.Name) ∧
      List.Forall₂ SameModels [⟨"node1", [⟨"A100 80G", "nvidia-a100-80g", 6, 2⟩]⟩] infos2 :=
  (processNodeInfo_label_order testSpec [testNode] [testNodeReversed]
    (List.Forall₂.cons ⟨rfl, (List.reverse_perm _).symm, by decide⟩ List.Forall₂.nil)).2.1
    [⟨"node1", [⟨"A100 80G", "nvidia-a100-80g", 6, 2⟩]⟩] rfl

end DDS
